import Mathlib

/-!
# azdo-vault: cross-scope reference remapping and restore

A shallow embedding of the reference-remapping functions and restore loops of
`internal/*.go`.

* Documents are Go values of type `any` as produced by `encoding/json`
  (`JVal`); a `map[string]any` is an association list read with `List.lookup`
  and written with `jset` / `jdel`; a JSON number is a `float64`, held at its
  exact rational value and converted by `goInt` where the code writes `int(v)`;
  the type `int` has 64 bits.
* Strings are sequences of code points; `strings.ToLower` and
  `strings.EqualFold` follow the case tables of package `unicode`.
* In-place mutation through nested map and slice references is rendered as a
  functional update along the same path; a function that mutates its argument
  returns the updated document.
* Name tables (`map[string]string`, `map[int]string`, ...) are lookup
  functions into `Option`; the Go zero value of a missing key is supplied at
  the use site with `Option.getD`.
* Collaborator calls (HTTP listing, lookup, creation) are function parameters.
-/

namespace AzdoVault

/-! ## Documents -/

/-- A dynamically typed Go value. `num` is a `float64` decoded from JSON, at its
exact value; `int` and `ints` are the Go `int` and `[]int` values that the
remapping code itself stores into documents. -/
inductive JVal where
  | null
  | bool (b : Bool)
  | num (q : ℚ)
  | int (n : Int)
  | str (s : String)
  | arr (xs : List JVal)
  | ints (xs : List Int)
  | obj (kvs : List (String × JVal))
  deriving Inhabited

/-- A Go `map[string]any`. -/
abbrev JObj := List (String × JVal)

/-- Assignment `m[k] = v`: overwrite the entry for `k`, or add one. -/
def jset (k : String) (v : JVal) : JObj → JObj
  | [] => [(k, v)]
  | (k0, v0) :: rest => if k0 == k then (k, v) :: rest else (k0, v0) :: jset k v rest

/-- The builtin `delete(m, k)`. -/
def jdel (k : String) (m : JObj) : JObj :=
  m.filter (fun kv => !(kv.1 == k))

/-! ## Strings -/

/-- The predicate `unicode.IsSpace`. -/
def isSpace (c : Char) : Bool :=
  let n := c.toNat
  (9 ≤ n && n ≤ 13) || n == 32 || n == 0x85 || n == 0xA0 || n == 0x1680 ||
    (0x2000 ≤ n && n ≤ 0x200A) || n == 0x2028 || n == 0x2029 || n == 0x202F ||
    n == 0x205F || n == 0x3000

/-- The function `strings.TrimSpace`. -/
def trimSpace (s : String) : String :=
  ⟨((s.data.dropWhile isSpace).reverse.dropWhile isSpace).reverse⟩

/-- The image of a code point under a case table of package `unicode`. An entry
`(lo, hi, stride, image)` maps the code points `lo, lo + stride, ..., hi` to
`image, image + stride, ...`; a code point outside every entry is mapped to
itself. -/
def caseMap (table : List (Nat × Nat × Nat × Nat)) (n : Nat) : Nat :=
  match table.find? (fun r => r.1 ≤ n && n ≤ r.2.1 && (n - r.1) % r.2.2.1 == 0) with
  | some r => r.2.2.2 + (n - r.1)
  | none => n

/-- The lower-case mappings of `unicode.CaseRanges`: the simple lower-case mapping of
every code point of the Unicode Character Database that has one. -/
def lowerRanges : List (Nat × Nat × Nat × Nat) :=
  [(65, 90, 1, 97), (192, 214, 1, 224), (216, 222, 1, 248), (256, 302, 2, 257),
   (304, 304, 1, 105), (306, 310, 2, 307), (313, 327, 2, 314), (330, 374, 2, 331),
   (376, 376, 1, 255), (377, 381, 2, 378), (385, 385, 1, 595), (386, 388, 2, 387),
   (390, 390, 1, 596), (391, 391, 1, 392), (393, 394, 1, 598), (395, 395, 1, 396),
   (398, 398, 1, 477), (399, 399, 1, 601), (400, 400, 1, 603), (401, 401, 1, 402),
   (403, 403, 1, 608), (404, 404, 1, 611), (406, 406, 1, 617), (407, 407, 1, 616),
   (408, 408, 1, 409), (412, 412, 1, 623), (413, 413, 1, 626), (415, 415, 1, 629),
   (416, 420, 2, 417), (422, 422, 1, 640), (423, 423, 1, 424), (425, 425, 1, 643),
   (428, 428, 1, 429), (430, 430, 1, 648), (431, 431, 1, 432), (433, 434, 1, 650),
   (435, 437, 2, 436), (439, 439, 1, 658), (440, 440, 1, 441), (444, 444, 1, 445),
   (452, 452, 1, 454), (453, 453, 1, 454), (455, 455, 1, 457), (456, 456, 1, 457),
   (458, 458, 1, 460), (459, 475, 2, 460), (478, 494, 2, 479), (497, 497, 1, 499),
   (498, 500, 2, 499), (502, 502, 1, 405), (503, 503, 1, 447), (504, 542, 2, 505),
   (544, 544, 1, 414), (546, 562, 2, 547), (570, 570, 1, 11365), (571, 571, 1, 572),
   (573, 573, 1, 410), (574, 574, 1, 11366), (577, 577, 1, 578), (579, 579, 1, 384),
   (580, 580, 1, 649), (581, 581, 1, 652), (582, 590, 2, 583), (880, 882, 2, 881),
   (886, 886, 1, 887), (895, 895, 1, 1011), (902, 902, 1, 940), (904, 906, 1, 941),
   (908, 908, 1, 972), (910, 911, 1, 973), (913, 929, 1, 945), (931, 939, 1, 963),
   (975, 975, 1, 983), (984, 1006, 2, 985), (1012, 1012, 1, 952), (1015, 1015, 1, 1016),
   (1017, 1017, 1, 1010), (1018, 1018, 1, 1019), (1021, 1023, 1, 891), (1024, 1039, 1, 1104),
   (1040, 1071, 1, 1072), (1120, 1152, 2, 1121), (1162, 1214, 2, 1163), (1216, 1216, 1, 1231),
   (1217, 1229, 2, 1218), (1232, 1326, 2, 1233), (1329, 1366, 1, 1377), (4256, 4293, 1, 11520),
   (4295, 4295, 1, 11559), (4301, 4301, 1, 11565), (5024, 5103, 1, 43888), (5104, 5109, 1, 5112),
   (7312, 7354, 1, 4304), (7357, 7359, 1, 4349), (7680, 7828, 2, 7681), (7838, 7838, 1, 223),
   (7840, 7934, 2, 7841), (7944, 7951, 1, 7936), (7960, 7965, 1, 7952), (7976, 7983, 1, 7968),
   (7992, 7999, 1, 7984), (8008, 8013, 1, 8000), (8025, 8031, 2, 8017), (8040, 8047, 1, 8032),
   (8072, 8079, 1, 8064), (8088, 8095, 1, 8080), (8104, 8111, 1, 8096), (8120, 8121, 1, 8112),
   (8122, 8123, 1, 8048), (8124, 8124, 1, 8115), (8136, 8139, 1, 8050), (8140, 8140, 1, 8131),
   (8152, 8153, 1, 8144), (8154, 8155, 1, 8054), (8168, 8169, 1, 8160), (8170, 8171, 1, 8058),
   (8172, 8172, 1, 8165), (8184, 8185, 1, 8056), (8186, 8187, 1, 8060), (8188, 8188, 1, 8179),
   (8486, 8486, 1, 969), (8490, 8490, 1, 107), (8491, 8491, 1, 229), (8498, 8498, 1, 8526),
   (8544, 8559, 1, 8560), (8579, 8579, 1, 8580), (9398, 9423, 1, 9424), (11264, 11311, 1, 11312),
   (11360, 11360, 1, 11361), (11362, 11362, 1, 619), (11363, 11363, 1, 7549),
   (11364, 11364, 1, 637), (11367, 11371, 2, 11368), (11373, 11373, 1, 593),
   (11374, 11374, 1, 625), (11375, 11375, 1, 592), (11376, 11376, 1, 594),
   (11378, 11378, 1, 11379), (11381, 11381, 1, 11382), (11390, 11391, 1, 575),
   (11392, 11490, 2, 11393), (11499, 11501, 2, 11500), (11506, 11506, 1, 11507),
   (42560, 42604, 2, 42561), (42624, 42650, 2, 42625), (42786, 42798, 2, 42787),
   (42802, 42862, 2, 42803), (42873, 42875, 2, 42874), (42877, 42877, 1, 7545),
   (42878, 42886, 2, 42879), (42891, 42891, 1, 42892), (42893, 42893, 1, 613),
   (42896, 42898, 2, 42897), (42902, 42920, 2, 42903), (42922, 42922, 1, 614),
   (42923, 42923, 1, 604), (42924, 42924, 1, 609), (42925, 42925, 1, 620),
   (42926, 42926, 1, 618), (42928, 42928, 1, 670), (42929, 42929, 1, 647),
   (42930, 42930, 1, 669), (42931, 42931, 1, 43859), (42932, 42946, 2, 42933),
   (42948, 42948, 1, 42900), (42949, 42949, 1, 642), (42950, 42950, 1, 7566),
   (42951, 42953, 2, 42952), (42960, 42960, 1, 42961), (42966, 42968, 2, 42967),
   (42997, 42997, 1, 42998), (65313, 65338, 1, 65345), (66560, 66599, 1, 66600),
   (66736, 66771, 1, 66776), (66928, 66938, 1, 66967), (66940, 66954, 1, 66979),
   (66956, 66962, 1, 66995), (66964, 66965, 1, 67003), (68736, 68786, 1, 68800),
   (71840, 71871, 1, 71872), (93760, 93791, 1, 93792), (125184, 125217, 1, 125218)]

/-- The simple case folding of the Unicode Character Database: every code point of an
orbit of `unicode.SimpleFold` with more than one element is mapped to one
element of that orbit. -/
def foldRanges : List (Nat × Nat × Nat × Nat) :=
  [(65, 90, 1, 97), (181, 181, 1, 956), (192, 214, 1, 224), (216, 222, 1, 248),
   (256, 302, 2, 257), (306, 310, 2, 307), (313, 327, 2, 314), (330, 374, 2, 331),
   (376, 376, 1, 255), (377, 381, 2, 378), (383, 383, 1, 115), (385, 385, 1, 595),
   (386, 388, 2, 387), (390, 390, 1, 596), (391, 391, 1, 392), (393, 394, 1, 598),
   (395, 395, 1, 396), (398, 398, 1, 477), (399, 399, 1, 601), (400, 400, 1, 603),
   (401, 401, 1, 402), (403, 403, 1, 608), (404, 404, 1, 611), (406, 406, 1, 617),
   (407, 407, 1, 616), (408, 408, 1, 409), (412, 412, 1, 623), (413, 413, 1, 626),
   (415, 415, 1, 629), (416, 420, 2, 417), (422, 422, 1, 640), (423, 423, 1, 424),
   (425, 425, 1, 643), (428, 428, 1, 429), (430, 430, 1, 648), (431, 431, 1, 432),
   (433, 434, 1, 650), (435, 437, 2, 436), (439, 439, 1, 658), (440, 440, 1, 441),
   (444, 444, 1, 445), (452, 452, 1, 454), (453, 453, 1, 454), (455, 455, 1, 457),
   (456, 456, 1, 457), (458, 458, 1, 460), (459, 475, 2, 460), (478, 494, 2, 479),
   (497, 497, 1, 499), (498, 500, 2, 499), (502, 502, 1, 405), (503, 503, 1, 447),
   (504, 542, 2, 505), (544, 544, 1, 414), (546, 562, 2, 547), (570, 570, 1, 11365),
   (571, 571, 1, 572), (573, 573, 1, 410), (574, 574, 1, 11366), (577, 577, 1, 578),
   (579, 579, 1, 384), (580, 580, 1, 649), (581, 581, 1, 652), (582, 590, 2, 583),
   (837, 837, 1, 953), (880, 882, 2, 881), (886, 886, 1, 887), (895, 895, 1, 1011),
   (902, 902, 1, 940), (904, 906, 1, 941), (908, 908, 1, 972), (910, 911, 1, 973),
   (913, 929, 1, 945), (931, 939, 1, 963), (962, 962, 1, 963), (975, 975, 1, 983),
   (976, 976, 1, 946), (977, 977, 1, 952), (981, 981, 1, 966), (982, 982, 1, 960),
   (984, 1006, 2, 985), (1008, 1008, 1, 954), (1009, 1009, 1, 961), (1012, 1012, 1, 952),
   (1013, 1013, 1, 949), (1015, 1015, 1, 1016), (1017, 1017, 1, 1010), (1018, 1018, 1, 1019),
   (1021, 1023, 1, 891), (1024, 1039, 1, 1104), (1040, 1071, 1, 1072), (1120, 1152, 2, 1121),
   (1162, 1214, 2, 1163), (1216, 1216, 1, 1231), (1217, 1229, 2, 1218), (1232, 1326, 2, 1233),
   (1329, 1366, 1, 1377), (4256, 4293, 1, 11520), (4295, 4295, 1, 11559), (4301, 4301, 1, 11565),
   (5112, 5117, 1, 5104), (7296, 7296, 1, 1074), (7297, 7297, 1, 1076), (7298, 7298, 1, 1086),
   (7299, 7300, 1, 1089), (7301, 7301, 1, 1090), (7302, 7302, 1, 1098), (7303, 7303, 1, 1123),
   (7304, 7304, 1, 42571), (7312, 7354, 1, 4304), (7357, 7359, 1, 4349), (7680, 7828, 2, 7681),
   (7835, 7835, 1, 7777), (7838, 7838, 1, 223), (7840, 7934, 2, 7841), (7944, 7951, 1, 7936),
   (7960, 7965, 1, 7952), (7976, 7983, 1, 7968), (7992, 7999, 1, 7984), (8008, 8013, 1, 8000),
   (8025, 8031, 2, 8017), (8040, 8047, 1, 8032), (8072, 8079, 1, 8064), (8088, 8095, 1, 8080),
   (8104, 8111, 1, 8096), (8120, 8121, 1, 8112), (8122, 8123, 1, 8048), (8124, 8124, 1, 8115),
   (8126, 8126, 1, 953), (8136, 8139, 1, 8050), (8140, 8140, 1, 8131), (8152, 8153, 1, 8144),
   (8154, 8155, 1, 8054), (8168, 8169, 1, 8160), (8170, 8171, 1, 8058), (8172, 8172, 1, 8165),
   (8184, 8185, 1, 8056), (8186, 8187, 1, 8060), (8188, 8188, 1, 8179), (8486, 8486, 1, 969),
   (8490, 8490, 1, 107), (8491, 8491, 1, 229), (8498, 8498, 1, 8526), (8544, 8559, 1, 8560),
   (8579, 8579, 1, 8580), (9398, 9423, 1, 9424), (11264, 11311, 1, 11312),
   (11360, 11360, 1, 11361), (11362, 11362, 1, 619), (11363, 11363, 1, 7549),
   (11364, 11364, 1, 637), (11367, 11371, 2, 11368), (11373, 11373, 1, 593),
   (11374, 11374, 1, 625), (11375, 11375, 1, 592), (11376, 11376, 1, 594),
   (11378, 11378, 1, 11379), (11381, 11381, 1, 11382), (11390, 11391, 1, 575),
   (11392, 11490, 2, 11393), (11499, 11501, 2, 11500), (11506, 11506, 1, 11507),
   (42560, 42604, 2, 42561), (42624, 42650, 2, 42625), (42786, 42798, 2, 42787),
   (42802, 42862, 2, 42803), (42873, 42875, 2, 42874), (42877, 42877, 1, 7545),
   (42878, 42886, 2, 42879), (42891, 42891, 1, 42892), (42893, 42893, 1, 613),
   (42896, 42898, 2, 42897), (42902, 42920, 2, 42903), (42922, 42922, 1, 614),
   (42923, 42923, 1, 604), (42924, 42924, 1, 609), (42925, 42925, 1, 620),
   (42926, 42926, 1, 618), (42928, 42928, 1, 670), (42929, 42929, 1, 647),
   (42930, 42930, 1, 669), (42931, 42931, 1, 43859), (42932, 42946, 2, 42933),
   (42948, 42948, 1, 42900), (42949, 42949, 1, 642), (42950, 42950, 1, 7566),
   (42951, 42953, 2, 42952), (42960, 42960, 1, 42961), (42966, 42968, 2, 42967),
   (42997, 42997, 1, 42998), (43888, 43967, 1, 5024), (65313, 65338, 1, 65345),
   (66560, 66599, 1, 66600), (66736, 66771, 1, 66776), (66928, 66938, 1, 66967),
   (66940, 66954, 1, 66979), (66956, 66962, 1, 66995), (66964, 66965, 1, 67003),
   (68736, 68786, 1, 68800), (71840, 71871, 1, 71872), (93760, 93791, 1, 93792),
   (125184, 125217, 1, 125218)]

/-- The function `unicode.ToLower`. -/
def unicodeToLower (c : Char) : Char :=
  if c.toNat < 128 then c.toLower else Char.ofNat (caseMap lowerRanges c.toNat)

/-- The representative of the orbit of a rune under `unicode.SimpleFold`. -/
def foldRune (c : Char) : Char :=
  if c.toNat < 128 then c.toLower else Char.ofNat (caseMap foldRanges c.toNat)

/-- The function `strings.ToLower`: `unicode.ToLower` on every rune. -/
def toLower (s : String) : String :=
  ⟨s.data.map unicodeToLower⟩

/-- The least value of the Go type `int` on a 64-bit platform. -/
def minInt : Int := -9223372036854775808

/-- The first integer above the range of the Go type `int` on a 64-bit
platform. -/
def intLimit : Int := 9223372036854775808

/-- The truncation of a rational toward zero. -/
def truncate (q : ℚ) : Int :=
  if 0 ≤ q.num then ((q.num.natAbs / q.den : Nat) : Int)
  else -((q.num.natAbs / q.den : Nat) : Int)

/-- The conversion `int(v)` of a `float64` on a 64-bit platform: truncation
toward zero when the result is in the range of `int`. For a value outside that
range the Go specification leaves the result to the implementation; here it is
the result on amd64, the least `int`. -/
def goInt (q : ℚ) : Int :=
  if minInt ≤ truncate q ∧ truncate q < intLimit then truncate q else minInt

/-- The verb `%t` of `fmt.Sprintf`. -/
def fmtBool (b : Bool) : String :=
  if b then "true" else "false"

/-- The verb `%d` of `fmt.Sprintf`. -/
def fmtInt (n : Int) : String :=
  toString n

/-! ## Branch-policy signature (`branch_policies.go`, `branch_policies_mapping.go`) -/

/-- Go `policyTypeDisplayName`. -/
def policyTypeDisplayName (raw : JObj) : String :=
  match raw.lookup "type" with
  | some (.obj t) =>
    match t.lookup "displayName" with
    | some (.str s) => if s != "" then s else ""
    | _ => ""
  | _ => ""

/-- One iteration of the scope loop of `PolicySignature`: the descriptor
`rid|ref|match` of a scope entry that is a map. -/
def scopeDescriptor (m : JObj) : String :=
  let ref := match m.lookup "refName" with
    | some (.str s) => s
    | _ => ""
  let rid := match m.lookup "repositoryId" with
    | none => "null"
    | some .null => "null"
    | some (.str s) => if s != "" then toLower s else ""
    | some _ => ""
  let mk := match m.lookup "matchKind" with
    | some (.str s) => s
    | _ => ""
  rid ++ "|" ++ ref ++ "|" ++ mk

/-- The scope loop of `PolicySignature`; entries that are not maps are skipped. -/
def scopeParts : List JVal → List String
  | [] => []
  | .obj m :: rest => scopeDescriptor m :: scopeParts rest
  | _ :: rest => scopeParts rest

/-- The settings suffix of `PolicySignature`. -/
def settingsSuffix (settings : JObj) : String :=
  let a := match settings.lookup "minimumApproverCount" with
    | some (.num v) => "||min=" ++ fmtInt (goInt v)
    | _ => ""
  let b := match settings.lookup "allowDownvotes" with
    | some (.bool v) => "||downvotes=" ++ fmtBool v
    | _ => ""
  let c := match settings.lookup "creatorVoteCounts" with
    | some (.bool v) => "||creator=" ++ fmtBool v
    | _ => ""
  a ++ b ++ c

/-- Go `PolicySignature`. -/
def PolicySignature (raw : JObj) : String :=
  let t := policyTypeDisplayName raw
  match raw.lookup "settings" with
  | some (.obj settings) =>
    let scopeStr := match settings.lookup "scope" with
      | some (.arr scopes) => String.intercalate "," (scopeParts scopes)
      | _ => ""
    t ++ "||" ++ scopeStr ++ settingsSuffix settings
  | _ => t ++ "||" ++ ""

/-! ## Repository ids in a policy scope (`RemapPolicyScopeRepoIDs`) -/

/-- The two `fmt.Errorf` results of `RemapPolicyScopeRepoIDs`. -/
inductive RepoRemapError where
  | sourceRepoNotFound (srcRepoID sourceProject : String)
  | targetRepoNotFound (repoName : String)
  deriving DecidableEq

/-- The loop of `RemapPolicyScopeRepoIDs` over `settings.scope`: the entries as
the loop leaves them, and the error it returned, if any. An entry is rewritten
in place; the loop stops at the first entry that cannot be resolved. -/
def remapScopeEntries (sourceProject : String)
    (sourceRepoNameByID targetRepoIDByName : String → Option String) :
    List JVal → List JVal × Option RepoRemapError
  | [] => ([], none)
  | .obj scope :: rest =>
    match scope.lookup "repositoryId" with
    | some (.str raw) =>
      if trimSpace raw == "" then
        let r := remapScopeEntries sourceProject sourceRepoNameByID targetRepoIDByName rest
        (.obj scope :: r.1, r.2)
      else
        let srcRepoID := toLower (trimSpace raw)
        let repoName := (sourceRepoNameByID srcRepoID).getD ""
        if repoName == "" then
          (.obj scope :: rest, some (.sourceRepoNotFound srcRepoID sourceProject))
        else
          let targetRepoID := (targetRepoIDByName (toLower repoName)).getD ""
          if targetRepoID == "" then
            (.obj scope :: rest, some (.targetRepoNotFound repoName))
          else
            let r := remapScopeEntries sourceProject sourceRepoNameByID targetRepoIDByName rest
            (.obj (jset "repositoryId" (.str targetRepoID) scope) :: r.1, r.2)
    | _ =>
      let r := remapScopeEntries sourceProject sourceRepoNameByID targetRepoIDByName rest
      (.obj scope :: r.1, r.2)
  | s :: rest =>
    let r := remapScopeEntries sourceProject sourceRepoNameByID targetRepoIDByName rest
    (s :: r.1, r.2)

/-- Go `RemapPolicyScopeRepoIDs`: the payload after the call and the returned
error. -/
def RemapPolicyScopeRepoIDs (payload : JObj) (sourceProject : String)
    (sourceRepoNameByID targetRepoIDByName : String → Option String) :
    JObj × Option RepoRemapError :=
  match payload.lookup "settings" with
  | some (.obj settings) =>
    match settings.lookup "scope" with
    | some (.arr scopeAny) =>
      if scopeAny.length == 0 then (payload, none)
      else
        let r := remapScopeEntries sourceProject sourceRepoNameByID targetRepoIDByName scopeAny
        (jset "settings" (.obj (jset "scope" (.arr r.1) settings)) payload, r.2)
    | _ => (payload, none)
  | _ => (payload, none)

/-- The entries of `settings.scope` of a policy document (none when the path is
absent or of another type). -/
def policyScope (payload : JObj) : List JVal :=
  match payload.lookup "settings" with
  | some (.obj settings) =>
    match settings.lookup "scope" with
    | some (.arr xs) => xs
    | _ => []
  | _ => []

/-- The value `scope["repositoryId"]` of a scope entry; `null` (Go `nil`) when
the entry is no map or has no such key. -/
def repositoryIdOf : JVal → JVal
  | .obj m => (m.lookup "repositoryId").getD .null
  | _ => .null

/-- The target id that the name tables give for the source repository id `s`:
`targetRepoIDByName[lower(sourceRepoNameByID[lower(trim(s))])]`, with Go's
empty string for a missing key. -/
def resolveRepoID (sourceRepoNameByID targetRepoIDByName : String → Option String)
    (s : String) : String :=
  (targetRepoIDByName
    (toLower ((sourceRepoNameByID (toLower (trimSpace s))).getD ""))).getD ""

/-- The name that the source table gives for the source repository id `s`. -/
def resolveRepoName (sourceRepoNameByID : String → Option String) (s : String) : String :=
  (sourceRepoNameByID (toLower (trimSpace s))).getD ""

/-- What the scope loop does to one entry when it does not stop there. -/
def remapScopeEntry (sourceRepoNameByID targetRepoIDByName : String → Option String)
    (e : JVal) : JVal :=
  match e with
  | .obj scope =>
    match scope.lookup "repositoryId" with
    | some (.str raw) =>
      if trimSpace raw == "" then e
      else .obj (jset "repositoryId"
        (.str (resolveRepoID sourceRepoNameByID targetRepoIDByName raw)) scope)
    | _ => e
  | _ => e

/-- An entry at which the scope loop stops with an error. -/
def scopeEntryFails (sourceRepoNameByID targetRepoIDByName : String → Option String)
    (e : JVal) : Prop :=
  ∃ s, repositoryIdOf e = .str s ∧ trimSpace s ≠ "" ∧
    (resolveRepoName sourceRepoNameByID s = "" ∨
      resolveRepoID sourceRepoNameByID targetRepoIDByName s = "")

/-! ## JSON round trip and the policy sanitizer -/

mutual
/-- The value that `json.Unmarshal(json.Marshal(v))` gives back: Go integers
come back as `float64`, a `[]int` as a `[]any` of `float64`. -/
def jsonRoundTrip : JVal → JVal
  | .int n => .num (n : ℚ)
  | .ints xs => .arr (xs.map (fun n => .num (n : ℚ)))
  | .arr xs => .arr (jsonRoundTripList xs)
  | .obj kvs => .obj (jsonRoundTripFields kvs)
  | v => v
/-- The round trip of the elements of a slice. -/
def jsonRoundTripList : List JVal → List JVal
  | [] => []
  | x :: xs => jsonRoundTrip x :: jsonRoundTripList xs
/-- The round trip of the entries of a map. -/
def jsonRoundTripFields : List (String × JVal) → List (String × JVal)
  | [] => []
  | (k, v) :: rest => (k, jsonRoundTrip v) :: jsonRoundTripFields rest
end

/-- Go `deepCopyMapPolicy`. -/
def deepCopyMapPolicy (m : JObj) : JObj :=
  jsonRoundTripFields m

/-- Go `SanitizePolicyForCreate`. -/
def SanitizePolicyForCreate (full : JObj) : JObj :=
  let payload := deepCopyMapPolicy full
  let payload := jdel "id" payload
  let payload := jdel "revision" payload
  let payload := jdel "url" payload
  let payload := jdel "_links" payload
  let payload := jdel "createdBy" payload
  let payload := jdel "createdDate" payload
  let payload := jdel "modifiedBy" payload
  let payload := jdel "modifiedDate" payload
  let payload := jdel "isEnterpriseManaged" payload
  payload

/-! ## Backup hints (`policy_hints.go`, `readPolicyHints`) -/

/-- Go `IdentityHint`. -/
structure IdentityHint where
  UniqueName : String
  DisplayName : String
  deriving DecidableEq, Inhabited

/-- Go `PolicyBackupHints`, with the two tables that the restore reads. -/
structure PolicyBackupHints where
  Identities : List (String × IdentityHint)
  BuildDefinitions : List (String × String)
  deriving Inhabited

/-- A string field of a decoded struct: the JSON string, or Go's zero value. -/
def stringField (m : JObj) (k : String) : String :=
  match m.lookup k with
  | some (.str s) => s
  | _ => ""

/-- Decoding of one `IdentityHint`; a value that is no object leaves the zero
value. -/
def decodeIdentityHint : JVal → IdentityHint
  | .obj m => { UniqueName := stringField m "uniqueName", DisplayName := stringField m "displayName" }
  | _ => { UniqueName := "", DisplayName := "" }

/-- Decoding of one value of a `map[string]string`. -/
def decodeString : JVal → String
  | .str s => s
  | _ => ""

/-- Go `readPolicyHints`: the hints under the reserved key `_backupHints`,
decoded into `PolicyBackupHints`. Keys are matched as the struct tags spell
them, which is how `BackupBranchPolicies` writes them. -/
def readPolicyHints (payload : JObj) : PolicyBackupHints :=
  match payload.lookup "_backupHints" with
  | some (.obj h) =>
    { Identities := match h.lookup "identities" with
        | some (.obj ids) => ids.map (fun kv => (kv.1, decodeIdentityHint kv.2))
        | _ => []
      BuildDefinitions := match h.lookup "buildDefinitions" with
        | some (.obj ds) => ds.map (fun kv => (kv.1, decodeString kv.2))
        | _ => [] }
  | _ => { Identities := [], BuildDefinitions := [] }

/-! ## Reviewer identities (`RemapPolicyIdentityIDs`) -/

/-- The three `fmt.Errorf` results of `RemapPolicyIdentityIDs`. -/
inductive IdentityRemapError where
  | noIdentityHints
  | noIdentitiesMapped
  | allReviewerIdsUnmapped
  deriving DecidableEq

/-- The loop that builds `idMap`: a source id is kept when the lookup of its
hint in the target succeeds with a non-blank id. `find` stands for
`FindTargetIdentityIdByHint` against the target organization; `none` is its
error result. -/
def buildIdMap (find : IdentityHint → Option String) :
    List (String × IdentityHint) → List (String × String)
  | [] => []
  | (srcId, hint) :: rest =>
    match find hint with
    | some tid =>
      if trimSpace tid == "" then buildIdMap find rest
      else (srcId, tid) :: buildIdMap find rest
    | none => buildIdMap find rest

/-- The loop over `requiredReviewerIds`: the new slice `newArr`. -/
def remapReviewerIds (idMap : List (String × String)) : List JVal → List JVal
  | [] => []
  | v :: rest =>
    let src := trimSpace (match v with
      | .str s => s
      | _ => "")
    if src == "" then remapReviewerIds idMap rest
    else
      let mapped := (idMap.lookup src).getD ""
      if mapped == "" then remapReviewerIds idMap rest
      else .str mapped :: remapReviewerIds idMap rest

/-- The loop over `requiredReviewers`: the new slice of reviewer objects, each
with its `id` rewritten. -/
def remapReviewerObjects (idMap : List (String × String)) : List JVal → List JVal
  | [] => []
  | .obj m :: rest =>
    let src := trimSpace (stringField m "id")
    if src == "" then remapReviewerObjects idMap rest
    else
      let mapped := (idMap.lookup src).getD ""
      if mapped == "" then remapReviewerObjects idMap rest
      else .obj (jset "id" (.str mapped) m) :: remapReviewerObjects idMap rest
  | _ :: rest => remapReviewerObjects idMap rest

/-- The test `arr, ok := settings[k].([]any); ok && len(arr) > 0`. -/
def nonEmptyList (settings : JObj) (k : String) : Bool :=
  match settings.lookup k with
  | some (.arr a) => decide (a.length > 0)
  | _ => false

/-- Go `RemapPolicyIdentityIDs`: the payload after the call and the returned
error. -/
def RemapPolicyIdentityIDs (payload : JObj) (find : IdentityHint → Option String) :
    JObj × Option IdentityRemapError :=
  match payload.lookup "settings" with
  | some (.obj settings) =>
    let needs := nonEmptyList settings "requiredReviewerIds" ||
      nonEmptyList settings "requiredReviewers"
    let hints := readPolicyHints payload
    if hints.Identities.length == 0 then (payload, none)
    else if needs && hints.Identities.length == 0 then (payload, some .noIdentityHints)
    else if hints.Identities.length == 0 then (payload, none)
    else
      let idMap := buildIdMap find hints.Identities
      if idMap.length == 0 then (payload, some .noIdentitiesMapped)
      else
        let afterIds : Option JObj :=
          match settings.lookup "requiredReviewerIds" with
          | some (.arr arr) =>
            let newArr := remapReviewerIds idMap arr
            if arr.length > 0 && newArr.length == 0 then none
            else some (jset "requiredReviewerIds" (.arr newArr) settings)
          | _ => some settings
        match afterIds with
        | none => (payload, some .allReviewerIdsUnmapped)
        | some settings1 =>
          let settings2 :=
            match settings1.lookup "requiredReviewers" with
            | some (.arr arr) =>
              let newArr := remapReviewerObjects idMap arr
              if arr.length > 0 && newArr.length == 0 then jdel "requiredReviewers" settings1
              else jset "requiredReviewers" (.arr newArr) settings1
            | _ => settings1
          (jset "settings" (.obj settings2) payload, none)
  | _ => (payload, none)

/-- The value `settings[k]` of a policy document. -/
def policySetting (payload : JObj) (k : String) : Option JVal :=
  match payload.lookup "settings" with
  | some (.obj settings) => settings.lookup k
  | _ => none

/-- The table `idMap` of a payload: the source ids among its identity hints
whose hint resolves in the target to a non-blank id, with that id. -/
def policyIdMap (find : IdentityHint → Option String) (payload : JObj) :
    List (String × String) :=
  buildIdMap find (readPolicyHints payload).Identities

/-- The target id of one entry of `requiredReviewerIds`, in the words of the
specification: the entry is a non-blank string `s` and `trim(s)` is a key of
`idMap`; the id is `idMap[trim(s)]`. -/
def reviewerTarget (idMap : List (String × String)) : JVal → Option String
  | .str s => if trimSpace s = "" then none else idMap.lookup (trimSpace s)
  | _ => none

/-! ## References inside build and release definitions
(`ref_keys.go`, `build_definitions_mappings.go`, `release_definitions.go`) -/

/-- Go `IsEndpointKey`. -/
def IsEndpointKey (k : String) : Bool :=
  ["containerregistry", "connectedservicename", "connectedservicenamearm",
   "azuresubscription", "azureresourcemanagerconnection",
   "dockerregistryserviceconnection", "kubernetesserviceendpoint", "externalendpoint",
   "serviceconnection", "endpoint", "subscription"].contains (toLower k)

/-- Go `readVarGroupID`. -/
def readVarGroupID : JVal → Int
  | .num t => goInt t
  | .int t => t
  | .obj t =>
    match t.lookup "id" with
    | some (.num idf) => goInt idf
    | some (.int idi) => idi
    | _ => 0
  | _ => 0

/-- The loop of `RemapBuildDefinitionRefsByName` over `def.variableGroups`: the
slice `outIDs`. -/
def remapBuildVarGroupIDs (srcVarGroupIDToName : Int → Option String)
    (tgtVarGroupNameToID : String → Option Int) : List JVal → List Int
  | [] => []
  | x :: rest =>
    let srcID := readVarGroupID x
    if srcID == 0 then remapBuildVarGroupIDs srcVarGroupIDToName tgtVarGroupNameToID rest
    else
      match srcVarGroupIDToName srcID with
      | some name =>
        match tgtVarGroupNameToID (toLower name) with
        | some newID =>
          newID :: remapBuildVarGroupIDs srcVarGroupIDToName tgtVarGroupNameToID rest
        | none => srcID :: remapBuildVarGroupIDs srcVarGroupIDToName tgtVarGroupNameToID rest
      | none => srcID :: remapBuildVarGroupIDs srcVarGroupIDToName tgtVarGroupNameToID rest

/-- Go `setBuildVariableGroups`. -/
def setBuildVariableGroups (d : JObj) (ids : List Int) : JObj :=
  jset "variableGroups" (.arr (ids.map (fun id => .obj [("id", .int id)]))) d

/-- The body of the loop over a step's `inputs`, for the entry `(k, v)`: the
value that `inputs[k]` holds after it. -/
def remapEndpointInput (srcEndpointIDToName tgtEndpointNameToID : String → Option String)
    (k : String) (v : JVal) : JVal :=
  match v with
  | .str s =>
    if s == "" then v
    else if !IsEndpointKey k then v
    else
      match srcEndpointIDToName (toLower s) with
      | some epName =>
        match tgtEndpointNameToID epName with
        | some newID => .str newID
        | none => v
      | none => v
  | _ => v

/-- The loop `for k, v := range inputs` of a step. -/
def remapStepInputs (srcEndpointIDToName tgtEndpointNameToID : String → Option String)
    (inputs : JObj) : JObj :=
  inputs.map (fun kv => (kv.1, remapEndpointInput srcEndpointIDToName tgtEndpointNameToID kv.1 kv.2))

/-- The rewrite of a task-group id held under `key` in the map `m`
(`task["id"]` of a build step, `wt["taskId"]` of a release task). -/
def remapTaskGroupRef (srcTaskGroupIDToName tgtTaskGroupNameToID : String → Option String)
    (key : String) (m : JObj) : JObj :=
  match m.lookup key with
  | some (.str id) =>
    if id != "" then
      match srcTaskGroupIDToName (toLower id) with
      | some name =>
        match tgtTaskGroupNameToID name with
        | some newID => jset key (.str newID) m
        | none => m
      | none => m
    else m
  | _ => m

/-- The body of the loop over the steps of a build phase. -/
def remapBuildStep (srcEndpointIDToName tgtEndpointNameToID : String → Option String)
    (srcTaskGroupIDToName tgtTaskGroupNameToID : String → Option String) : JVal → JVal
  | .obj step =>
    let step1 := match step.lookup "task" with
      | some (.obj task) =>
        jset "task" (.obj (remapTaskGroupRef srcTaskGroupIDToName tgtTaskGroupNameToID "id" task))
          step
      | _ => step
    let step2 := match step1.lookup "inputs" with
      | some (.obj inputs) =>
        jset "inputs" (.obj (remapStepInputs srcEndpointIDToName tgtEndpointNameToID inputs)) step1
      | _ => step1
    .obj step2
  | st => st

/-- The body of the loop over `process.phases`. -/
def remapBuildPhase (srcEndpointIDToName tgtEndpointNameToID : String → Option String)
    (srcTaskGroupIDToName tgtTaskGroupNameToID : String → Option String) : JVal → JVal
  | .obj phase =>
    match phase.lookup "steps" with
    | some (.arr stepsAny) =>
      .obj (jset "steps" (.arr (stepsAny.map (remapBuildStep srcEndpointIDToName
        tgtEndpointNameToID srcTaskGroupIDToName tgtTaskGroupNameToID))) phase)
    | _ => .obj phase
  | ph => ph

/-- Go `RemapBuildDefinitionRefsByName`: the definition after the call. -/
def RemapBuildDefinitionRefsByName (d : JObj)
    (srcEndpointIDToName tgtEndpointNameToID : String → Option String)
    (srcVarGroupIDToName : Int → Option String) (tgtVarGroupNameToID : String → Option Int)
    (srcTaskGroupIDToName tgtTaskGroupNameToID : String → Option String) : JObj :=
  let d1 := match d.lookup "variableGroups" with
    | some (.arr vgs) =>
      setBuildVariableGroups d (remapBuildVarGroupIDs srcVarGroupIDToName tgtVarGroupNameToID vgs)
    | _ => d
  match d1.lookup "process" with
  | some (.obj process) =>
    match process.lookup "phases" with
    | some (.arr phasesAny) =>
      jset "process" (.obj (jset "phases" (.arr (phasesAny.map (remapBuildPhase
        srcEndpointIDToName tgtEndpointNameToID srcTaskGroupIDToName tgtTaskGroupNameToID)))
        process)) d1
    | _ => d1
  | _ => d1

/-- The phases `def.process.phases` of a build definition. -/
def buildPhases (d : JObj) : List JVal :=
  match d.lookup "process" with
  | some (.obj process) =>
    match process.lookup "phases" with
    | some (.arr ps) => ps
    | _ => []
  | _ => []

/-- The steps `phase.steps` of a phase. -/
def phaseSteps : JVal → List JVal
  | .obj phase =>
    match phase.lookup "steps" with
    | some (.arr ss) => ss
    | _ => []
  | _ => []

/-- The map `step.inputs` of a step. -/
def stepInputs : JVal → JObj
  | .obj step =>
    match step.lookup "inputs" with
    | some (.obj inputs) => inputs
    | _ => []
  | _ => []

/-- The input `k` of step `j` of phase `i` of a build definition. -/
def buildStepInput (d : JObj) (i j : Nat) (k : String) : Option JVal :=
  match (buildPhases d)[i]? with
  | some ph =>
    match (phaseSteps ph)[j]? with
    | some st => (stepInputs st).lookup k
    | none => none
  | none => none

/-- Go `readVarGroupIDAny`. -/
def readVarGroupIDAny : JVal → Int
  | .num t => goInt t
  | .int t => t
  | .obj t =>
    match t.lookup "id" with
    | some (.num idf) => goInt idf
    | some (.int idi) => idi
    | _ => 0
  | _ => 0

/-- The loop of `RemapReleaseDefinitionRefsByName` over a `variableGroups`
list (the payload's, and each environment's): the slice `outIDs`. -/
def remapReleaseVarGroupIDs (srcVarGroupIDToName : Int → Option String)
    (tgtVarGroupNameToID : String → Option Int) : List JVal → List Int
  | [] => []
  | x :: rest =>
    let srcID := readVarGroupIDAny x
    if srcID == 0 then remapReleaseVarGroupIDs srcVarGroupIDToName tgtVarGroupNameToID rest
    else
      match srcVarGroupIDToName srcID with
      | some name =>
        if trimSpace name == "" then
          remapReleaseVarGroupIDs srcVarGroupIDToName tgtVarGroupNameToID rest
        else
          match tgtVarGroupNameToID (toLower name) with
          | some newID =>
            if newID != 0 then
              newID :: remapReleaseVarGroupIDs srcVarGroupIDToName tgtVarGroupNameToID rest
            else remapReleaseVarGroupIDs srcVarGroupIDToName tgtVarGroupNameToID rest
          | none => remapReleaseVarGroupIDs srcVarGroupIDToName tgtVarGroupNameToID rest
      | none => remapReleaseVarGroupIDs srcVarGroupIDToName tgtVarGroupNameToID rest

/-- Go `setReleaseVariableGroups`: the list is stored as a `[]int`. -/
def setReleaseVariableGroups (payload : JObj) (ids : List Int) : JObj :=
  jset "variableGroups" (.ints ids) payload

/-- The body of the first loop over `environments`: the variable groups of one
stage. -/
def remapEnvironmentVarGroups (srcVarGroupIDToName : Int → Option String)
    (tgtVarGroupNameToID : String → Option Int) : JVal → JVal
  | .obj env =>
    match env.lookup "variableGroups" with
    | some (.arr evgs) =>
      .obj (jset "variableGroups"
        (.ints (remapReleaseVarGroupIDs srcVarGroupIDToName tgtVarGroupNameToID evgs)) env)
    | _ => .obj env
  | e => e

/-- The body of the loop over `workflowTasks`. -/
def remapWorkflowTask (srcEndpointIDToName tgtEndpointNameToID : String → Option String)
    (srcTaskGroupIDToName tgtTaskGroupNameToID : String → Option String) : JVal → JVal
  | .obj wt =>
    let wt1 := remapTaskGroupRef srcTaskGroupIDToName tgtTaskGroupNameToID "taskId" wt
    let wt2 := match wt1.lookup "inputs" with
      | some (.obj inputs) =>
        jset "inputs" (.obj (remapStepInputs srcEndpointIDToName tgtEndpointNameToID inputs)) wt1
      | _ => wt1
    .obj wt2
  | w => w

/-- The body of the loop over `deployPhases`. -/
def remapDeployPhase (srcEndpointIDToName tgtEndpointNameToID : String → Option String)
    (srcTaskGroupIDToName tgtTaskGroupNameToID : String → Option String) : JVal → JVal
  | .obj dp =>
    match dp.lookup "workflowTasks" with
    | some (.arr wts) =>
      .obj (jset "workflowTasks" (.arr (wts.map (remapWorkflowTask srcEndpointIDToName
        tgtEndpointNameToID srcTaskGroupIDToName tgtTaskGroupNameToID))) dp)
    | _ => .obj dp
  | x => x

/-- The body of the second loop over `environments`: the tasks of one stage. -/
def remapEnvironmentTasks (srcEndpointIDToName tgtEndpointNameToID : String → Option String)
    (srcTaskGroupIDToName tgtTaskGroupNameToID : String → Option String) : JVal → JVal
  | .obj env =>
    match env.lookup "deployPhases" with
    | some (.arr dps) =>
      .obj (jset "deployPhases" (.arr (dps.map (remapDeployPhase srcEndpointIDToName
        tgtEndpointNameToID srcTaskGroupIDToName tgtTaskGroupNameToID))) env)
    | _ => .obj env
  | e => e

/-- Go `RemapReleaseDefinitionRefsByName`: the payload after the call. -/
def RemapReleaseDefinitionRefsByName (payload : JObj)
    (srcEndpointIDToName tgtEndpointNameToID : String → Option String)
    (srcVarGroupIDToName : Int → Option String) (tgtVarGroupNameToID : String → Option Int)
    (srcTaskGroupIDToName tgtTaskGroupNameToID : String → Option String) : JObj :=
  let p1 := match payload.lookup "variableGroups" with
    | some (.arr vgs) =>
      setReleaseVariableGroups payload
        (remapReleaseVarGroupIDs srcVarGroupIDToName tgtVarGroupNameToID vgs)
    | _ => payload
  let p2 := match p1.lookup "environments" with
    | some (.arr envs) =>
      jset "environments" (.arr (envs.map
        (remapEnvironmentVarGroups srcVarGroupIDToName tgtVarGroupNameToID))) p1
    | _ => p1
  match p2.lookup "environments" with
  | some (.arr envs) =>
    jset "environments" (.arr (envs.map (remapEnvironmentTasks srcEndpointIDToName
      tgtEndpointNameToID srcTaskGroupIDToName tgtTaskGroupNameToID))) p2
  | _ => p2

/-- The stages `payload.environments` of a release definition. -/
def releaseEnvironments (payload : JObj) : List JVal :=
  match payload.lookup "environments" with
  | some (.arr envs) => envs
  | _ => []

/-- The value `env.variableGroups` of a stage. -/
def environmentVarGroups : JVal → Option JVal
  | .obj env => env.lookup "variableGroups"
  | _ => none

/-- The id of one entry of a `variableGroups` list, in the words of the
specification: the entry is the id itself, a JSON number or an `int`, or it is
an object that holds the id under the key `id`; any other entry has no id. -/
def varGroupEntryId : JVal → Option Int
  | .num n => some (goInt n)
  | .int n => some n
  | .obj m =>
    match m.lookup "id" with
    | some (.num n) => some (goInt n)
    | some (.int n) => some n
    | _ => none
  | _ => none

/-- The target id of one entry of a `variableGroups` list, in the words of the
specification: the entry's id is non-zero, the source table has a non-blank name
for it, and the target table has a non-zero id for that name lower-cased. -/
def resolvedVarGroupID (srcVarGroupIDToName : Int → Option String)
    (tgtVarGroupNameToID : String → Option Int) (x : JVal) : Option Int :=
  match varGroupEntryId x with
  | none => none
  | some id =>
    if id = 0 then none
    else
      match srcVarGroupIDToName id with
      | none => none
      | some name =>
        if trimSpace name = "" then none
        else
          match tgtVarGroupNameToID (toLower name) with
          | none => none
          | some t => if t = 0 then none else some t

/-! ## Restore of branch policies (`RestoreBranchPoliciesFromBackup`) -/

/-- The function `strings.HasSuffix`. -/
def hasSuffix (s suffix : String) : Bool :=
  suffix.data.isSuffixOf s.data

/-- The function `strings.TrimSuffix`. -/
def trimSuffix (s suffix : String) : String :=
  if hasSuffix s suffix then ⟨s.data.take (s.data.length - suffix.data.length)⟩ else s

/-- The function `strings.EqualFold`: the two strings have the same number of
runes, and the runes at each position lie in one orbit of `unicode.SimpleFold`. -/
def equalFold (a b : String) : Bool :=
  a.data.map foldRune == b.data.map foldRune

/-- Go `contains` (`variable_groups.go`). -/
def contains : List String → String → Bool
  | [], _ => false
  | v :: rest, item => if v == item then true else contains rest item

/-- One entry of the backup directory: its file name and the JSON object it
holds; `none` when `os.ReadFile` or `json.Unmarshal` fails on it. -/
structure SnapshotFile where
  name : String
  content : Option JObj

/-- Go `Repo`, with the two fields that the restore reads. -/
structure Repo where
  Id : String
  Name : String

/-- The table built by `for _, r := range targetRepos { m[ToLower(r.Name)] = r.Id }`:
a later repository overwrites an earlier one of the same key. -/
def targetRepoIDByName (targetRepos : List Repo) : String → Option String :=
  fun k => (targetRepos.reverse.find? (fun r => toLower r.Name == k)).map (fun r => r.Id)

/-- The table built by `for _, r := range sourceRepos { m[ToLower(r.Id)] = r.Name }`. -/
def sourceRepoNameByID (sourceRepos : List Repo) : String → Option String :=
  fun k => (sourceRepos.reverse.find? (fun r => toLower r.Id == k)).map (fun r => r.Name)

/-- Go `FindPolicyConfigBySignature`, on the raw documents of the listing. -/
def FindPolicyConfigBySignature (targetConfigs : List JObj) (signature : String) :
    Option JObj :=
  targetConfigs.find? (fun c => PolicySignature c == signature)

/-- The two error results of `RemapBuildValidationDefinition`. -/
inductive BuildValidationError where
  | noHint (srcId : String)
  | lookupFailed (name : String)
  deriving DecidableEq

/-- Go `RemapBuildValidationDefinition`: the payload after the call and the
returned error. `findBuildDefinition` stands for `FindBuildDefinitionIdByName`
against the target project; `none` is its error result. -/
def RemapBuildValidationDefinition (payload : JObj)
    (findBuildDefinition : String → Option Int) : JObj × Option BuildValidationError :=
  let hints := readPolicyHints payload
  if hints.BuildDefinitions.length == 0 then (payload, none)
  else
    match payload.lookup "settings" with
    | some (.obj settings) =>
      let srcIdStr := match settings.lookup "buildDefinitionId" with
        | some (.num v) => fmtInt (goInt v)
        | some (.int v) => fmtInt v
        | _ => ""
      if srcIdStr == "" then (payload, none)
      else
        let srcName := (hints.BuildDefinitions.lookup srcIdStr).getD ""
        if srcName == "" then (payload, some (.noHint srcIdStr))
        else
          match findBuildDefinition srcName with
          | none => (payload, some (.lookupFailed srcName))
          | some targetId =>
            (jset "settings" (.obj (jset "buildDefinitionId" (.int targetId) settings)) payload,
              none)
    | _ => (payload, none)

/-- What the restore reports for one selected policy snapshot. -/
inductive PolicyOutcome where
  | existsSkipped
  | identityMappingFailed (e : IdentityRemapError)
  | repoMappingFailed (e : RepoRemapError)
  | createFailed (payload : JObj)
  | created (payload : JObj) (id : Int)

/-- An error that a restore run returns to its caller. -/
inductive RunError where
  | snapshotUnreadable (file : String)
  | createFailed (file : String)
  | updateFailed (file : String)
  | lookupFailed (file : String)
  | defaultQueueNotFound (name : String)
  deriving DecidableEq

/-- The body of the loop of `RestoreBranchPoliciesFromBackup` for one parsed
snapshot. `create` stands for `CreatePolicyConfiguration`: the id of the created
policy, or `none` when the call fails. -/
def restorePolicySnapshot (sourceProject : String)
    (sourceRepoNameByID targetRepoIDByName : String → Option String)
    (targetExisting : List JObj) (find : IdentityHint → Option String)
    (findBuildDefinition : String → Option Int) (create : JObj → Option Int)
    (raw : JObj) : PolicyOutcome :=
  let sig := PolicySignature raw
  match FindPolicyConfigBySignature targetExisting sig with
  | some _ => .existsSkipped
  | none =>
    let payload := SanitizePolicyForCreate raw
    match RemapPolicyIdentityIDs payload find with
    | (_, some e) => .identityMappingFailed e
    | (payload, none) =>
      let payload := (RemapBuildValidationDefinition payload findBuildDefinition).1
      match RemapPolicyScopeRepoIDs payload sourceProject sourceRepoNameByID
          targetRepoIDByName with
      | (_, some e) => .repoMappingFailed e
      | (payload, none) =>
        let payload := jdel "_backupHints" payload
        match create payload with
        | none => .createFailed payload
        | some id => .created payload id

/-- The loop of `RestoreBranchPoliciesFromBackup` over the directory entries:
the outcome of every snapshot it processed, and the error it returned, if any. -/
def restorePolicyFiles (sourceProject : String)
    (sourceRepoNameByID targetRepoIDByName : String → Option String)
    (targetExisting : List JObj) (find : IdentityHint → Option String)
    (findBuildDefinition : String → Option Int) (create : JObj → Option Int)
    (selected : List String) : List SnapshotFile → List (String × PolicyOutcome) × Option RunError
  | [] => ([], none)
  | f :: rest =>
    let restoreAll := selected.length == 1 && equalFold (selected.headD "") "all"
    if !hasSuffix f.name ".json" then
      restorePolicyFiles sourceProject sourceRepoNameByID targetRepoIDByName targetExisting
        find findBuildDefinition create selected rest
    else if !restoreAll && !contains selected f.name &&
        !contains selected (trimSuffix f.name ".json") then
      restorePolicyFiles sourceProject sourceRepoNameByID targetRepoIDByName targetExisting
        find findBuildDefinition create selected rest
    else
      match f.content with
      | none => ([], some (.snapshotUnreadable f.name))
      | some raw =>
        let r := restorePolicyFiles sourceProject sourceRepoNameByID targetRepoIDByName
          targetExisting find findBuildDefinition create selected rest
        ((f.name, restorePolicySnapshot sourceProject sourceRepoNameByID targetRepoIDByName
          targetExisting find findBuildDefinition create raw) :: r.1, r.2)

/-- Go `RestoreBranchPoliciesFromBackup`, once the directory and the three
listings have been read: `files` is the directory, `targetRepos` and
`sourceRepos` the repository listings, `targetExisting` the raw policy
configurations of the target. -/
def RestoreBranchPoliciesFromBackup (sourceProject : String) (files : List SnapshotFile)
    (selected : List String) (targetRepos sourceRepos : List Repo)
    (targetExisting : List JObj) (find : IdentityHint → Option String)
    (findBuildDefinition : String → Option Int) (create : JObj → Option Int) :
    List (String × PolicyOutcome) × Option RunError :=
  restorePolicyFiles sourceProject (sourceRepoNameByID sourceRepos)
    (targetRepoIDByName targetRepos) targetExisting find findBuildDefinition create selected files

/-- The policy configurations that a run created, as a later listing of the
target returns them: the submitted payload with the id the server gave it. -/
def createdPolicies : List (String × PolicyOutcome) → List JObj
  | [] => []
  | (_, .created payload id) :: rest =>
    jset "id" (.num (id : ℚ)) (jsonRoundTripFields payload) :: createdPolicies rest
  | _ :: rest => createdPolicies rest

/-- The file names that a run processed without creating anything new because an
equal policy exists. -/
def existingPolicies : List (String × PolicyOutcome) → List String
  | [] => []
  | (f, .existsSkipped) :: rest => f :: existingPolicies rest
  | _ :: rest => existingPolicies rest

/-! ## Restore of task groups (`task_groups.go`) -/

/-- The UTF-8 bytes of a string, which Go's `len(s)` and `s[i]` address. -/
def utf8Bytes (s : String) : List UInt8 :=
  s.data.flatMap String.utf8EncodeChar

/-- Go `looksLikeGUID`. -/
def looksLikeGUID (s : String) : Bool :=
  let b := utf8Bytes (trimSpace s)
  if b.length != 36 then false
  else b[8]? == some 45 && b[13]? == some 45 && b[18]? == some 45 && b[23]? == some 45

/-- The body of the loop over a task's `inputs` in
`RemapTaskGroupServiceConnections`, for the entry `(k, v)`. -/
def remapTaskGroupInput (srcEndpointIDToName tgtEndpointNameToID : String → Option String)
    (k : String) (v : JVal) : JVal :=
  match v with
  | .str s =>
    if trimSpace s == "" then v
    else if !(IsEndpointKey k || looksLikeGUID s) then v
    else
      match srcEndpointIDToName (toLower s) with
      | some epName =>
        match tgtEndpointNameToID epName with
        | some newID => .str newID
        | none => v
      | none => v
  | _ => v

/-- The body of the loop over `tasks` in `RemapTaskGroupServiceConnections`. -/
def remapTaskGroupTask (srcEndpointIDToName tgtEndpointNameToID : String → Option String) :
    JVal → JVal
  | .obj task =>
    match task.lookup "inputs" with
    | some (.obj inputs) =>
      .obj (jset "inputs" (.obj (inputs.map (fun kv =>
        (kv.1, remapTaskGroupInput srcEndpointIDToName tgtEndpointNameToID kv.1 kv.2)))) task)
    | _ => .obj task
  | t => t

/-- Go `RemapTaskGroupServiceConnections`: the document after the call. -/
def RemapTaskGroupServiceConnections (tgRaw : JObj)
    (srcEndpointIDToName tgtEndpointNameToID : String → Option String) : JObj :=
  match tgRaw.lookup "tasks" with
  | some (.arr tasksAny) =>
    jset "tasks" (.arr (tasksAny.map
      (remapTaskGroupTask srcEndpointIDToName tgtEndpointNameToID))) tgRaw
  | _ => tgRaw

/-- The request body of `CreateTaskGroup`: the raw document without the
server-managed fields. -/
def taskGroupCreateBody (raw : JObj) : JObj :=
  let raw := jdel "id" raw
  let raw := jdel "revision" raw
  let raw := jdel "createdBy" raw
  let raw := jdel "modifiedBy" raw
  let raw := jdel "modifiedOn" raw
  let raw := jdel "createdOn" raw
  let raw := jdel "_links" raw
  let raw := jdel "url" raw
  let raw := jdel "uri" raw
  raw

/-- Go `FindTaskGroupByName`, on the listing of the target. -/
def FindTaskGroupByName (list : List JObj) (name : String) : Option JObj :=
  list.find? (fun g => stringField g "name" == name)

/-- What a name-keyed restore reports for one selected snapshot. -/
inductive NamedOutcome where
  | existsSkipped
  | updated
  | created (id : String)
  deriving DecidableEq

/-- The loop of `RestoreTaskGroupsFromBackup` over the directory entries, from
the task groups `target` of the target project: the outcome of every snapshot
it finished, and the error it returned, if any. `create` stands for the POST of
`CreateTaskGroup`: the id of the created group, or `none` when the call fails; a
created group is listed by the lookups that follow. -/
def restoreTaskGroupFiles (srcEndpointIDToName tgtEndpointNameToID : String → Option String)
    (create : JObj → Option String) (selected : List String) :
    List JObj → List SnapshotFile → List (String × NamedOutcome) × Option RunError
  | _, [] => ([], none)
  | target, f :: rest =>
    let restoreAll := selected.length == 1 && selected.headD "" == "all"
    if !hasSuffix f.name ".json" then
      restoreTaskGroupFiles srcEndpointIDToName tgtEndpointNameToID create selected target rest
    else if !restoreAll && !contains selected (trimSuffix f.name ".json") then
      restoreTaskGroupFiles srcEndpointIDToName tgtEndpointNameToID create selected target rest
    else
      match f.content with
      | none => ([], some (.snapshotUnreadable f.name))
      | some raw =>
        match FindTaskGroupByName target (stringField raw "name") with
        | some _ =>
          let r := restoreTaskGroupFiles srcEndpointIDToName tgtEndpointNameToID create
            selected target rest
          ((f.name, .existsSkipped) :: r.1, r.2)
        | none =>
          let body := taskGroupCreateBody
            (RemapTaskGroupServiceConnections raw srcEndpointIDToName tgtEndpointNameToID)
          match create body with
          | none => ([], some (.createFailed f.name))
          | some id =>
            let r := restoreTaskGroupFiles srcEndpointIDToName tgtEndpointNameToID create
              selected (target ++ [jset "id" (.str id) body]) rest
            ((f.name, .created id) :: r.1, r.2)

/-! ## Restore of variable groups (`variable_groups.go`) -/

/-- Go `Variable`. -/
structure Variable where
  Value : String
  IsSecret : Bool

/-- Go `VariableGroup`. `VariablesSet` is false when the map `Variables` is
nil, which `encoding/json` writes as `null`. -/
structure VariableGroup where
  Id : Int
  Name : String
  Variables : List (String × Variable)
  Description : String := ""
  GroupType : String := ""
  VariablesSet : Bool := true

/-- One entry of the backup directory of variable groups: its file name and the
group decoded from it; `none` when reading or decoding fails. -/
structure VariableGroupFile where
  name : String
  content : Option VariableGroup

/-- Go `FindVariableGroupByName`, on the listing of the target. -/
def FindVariableGroupByName (groups : List VariableGroup) (name : String) :
    Option VariableGroup :=
  groups.find? (fun g => g.Name == name)

/-- The loop over the variables of a group that exists in the target: `true`
when it runs to its end, `false` when it returns an error. `update` and `add`
stand for `UpdateVariableInGroup` and `AddVariableToGroup`; `true` is success. -/
def updateGroupVariables (update add : Int → String → String → Bool) (groupID : Int) :
    List (String × Variable) → Bool
  | [] => true
  | (name, v) :: rest =>
    if v.IsSecret then updateGroupVariables update add groupID rest
    else if update groupID name v.Value then
      updateGroupVariables update add groupID rest
    else if add groupID name v.Value then
      updateGroupVariables update add groupID rest
    else false

/-- The loop of `RestoreVariableGroupsFromBackup` over the directory entries,
from the variable groups `target` of the target project. `create` stands for
`CreateVariableGroup`: the id of the created group, or `none` when the call
fails; a created group is listed by the lookups that follow. -/
def restoreVariableGroupFiles (create : String → List (String × Variable) → Option Int)
    (update add : Int → String → String → Bool) (selectedGroups : List String) :
    List VariableGroup → List VariableGroupFile →
      List (String × NamedOutcome) × Option RunError
  | _, [] => ([], none)
  | target, f :: rest =>
    let restoreAll := selectedGroups.length == 1 && selectedGroups.headD "" == "all"
    if !hasSuffix f.name ".json" then
      restoreVariableGroupFiles create update add selectedGroups target rest
    else if !restoreAll && !contains selectedGroups (trimSuffix f.name ".json") then
      restoreVariableGroupFiles create update add selectedGroups target rest
    else
      match f.content with
      | none => ([], some (.snapshotUnreadable f.name))
      | some group =>
        match FindVariableGroupByName target group.Name with
        | some existing =>
          if updateGroupVariables update add existing.Id group.Variables then
            let r := restoreVariableGroupFiles create update add selectedGroups target rest
            ((f.name, .updated) :: r.1, r.2)
          else ([], some (.updateFailed f.name))
        | none =>
          match create group.Name group.Variables with
          | none => ([], some (.createFailed f.name))
          | some groupID =>
            let r := restoreVariableGroupFiles create update add selectedGroups
              (target ++ [{ Id := groupID, Name := group.Name, Variables := group.Variables }])
              rest
            ((f.name, .created (fmtInt groupID)) :: r.1, r.2)

/-! ## JSON documents -/

mutual
/-- A value as `json.Unmarshal` produces it: no Go `int` or `[]int` inside. -/
def isJSON : JVal → Bool
  | .int _ => false
  | .ints _ => false
  | .arr xs => isJSONList xs
  | .obj kvs => isJSONFields kvs
  | _ => true
/-- Every element of the slice is a decoded JSON value. -/
def isJSONList : List JVal → Bool
  | [] => true
  | x :: xs => isJSON x && isJSONList xs
/-- Every value of the map is a decoded JSON value: the map is a JSON object. -/
def isJSONFields : List (String × JVal) → Bool
  | [] => true
  | (_, v) :: rest => isJSON v && isJSONFields rest
end

/-- The top-level keys that `SanitizePolicyForCreate` deletes. -/
def policyServerFields : List String :=
  ["id", "revision", "url", "_links", "createdBy", "createdDate", "modifiedBy",
   "modifiedDate", "isEnterpriseManaged"]

/-- The payload that a policy restore handed to `CreatePolicyConfiguration`, if
it got that far. -/
def submittedPayload : PolicyOutcome → Option JObj
  | .created payload _ => some payload
  | .createFailed payload => some payload
  | _ => none

/-! ## Restore of artifact feeds (`artifacts.go`, `artifacts_restore.go`) -/

/-- Go `UpstreamSource`. -/
structure UpstreamSource where
  ID : String
  Name : String
  Protocol : String
  Location : String
  DisplayLocation : String
  Status : String
  UpstreamSourceType : String
  deriving DecidableEq

/-- Go `FeedProject`. -/
structure FeedProject where
  ID : String
  Name : String
  Visibility : String
  deriving DecidableEq

/-- Go `Feed`. -/
structure Feed where
  ID : String
  Name : String
  FullyQualifiedName : String
  DefaultViewID : String
  IsEnabled : Bool
  HideDeleted : Bool
  UpstreamEnabled : Bool
  Project : Option FeedProject
  UpstreamSources : List UpstreamSource
  deriving DecidableEq

/-- One entry of the backup directory of feeds: its file name and the feed
decoded from it; `none` when reading or decoding fails. -/
structure FeedFile where
  name : String
  content : Option Feed

/-- Go `FindFeedByName`. -/
def FindFeedByName (feeds : List Feed) (name : String) : Option Feed :=
  feeds.find? (fun f => toLower (trimSpace f.Name) == toLower (trimSpace name))

/-- The JSON form of an `UpstreamSource`. -/
def encodeUpstreamSource (u : UpstreamSource) : JVal :=
  .obj [("id", .str u.ID), ("name", .str u.Name), ("protocol", .str u.Protocol),
    ("location", .str u.Location), ("displayLocation", .str u.DisplayLocation),
    ("status", .str u.Status), ("upstreamSourceType", .str u.UpstreamSourceType)]

/-- The creation payload that `RestoreArtifactsFeedsFromBackup` builds for a
feed; the typed slice of upstream sources is given in its JSON form. -/
def feedCreatePayload (feed : Feed) : JObj :=
  let payload : JObj := [("name", .str feed.Name), ("upstreamEnabled", .bool feed.UpstreamEnabled)]
  if feed.UpstreamSources.length > 0 then
    jset "upstreamSources" (.arr (feed.UpstreamSources.map encodeUpstreamSource)) payload
  else payload

/-- What the feed restore reports for one selected snapshot. -/
inductive FeedOutcome where
  | existsSkipped
  | createFailed
  | created (name : String)
  deriving DecidableEq

/-- The loop of `RestoreArtifactsFeedsFromBackup` over the directory entries;
`targetFeeds` is the listing of the target, read once before the loop, and
`create` stands for `CreateFeed`: the created feed, or `none` when the call
fails. -/
def restoreFeedFiles (targetFeeds : List Feed) (create : JObj → Option Feed)
    (selected : List String) : List FeedFile → List (String × FeedOutcome) × Option RunError
  | [] => ([], none)
  | f :: rest =>
    let restoreAll := selected.length == 1 && equalFold (selected.headD "") "all"
    if !hasSuffix f.name ".json" then restoreFeedFiles targetFeeds create selected rest
    else if !restoreAll && !contains selected f.name &&
        !contains selected (trimSuffix f.name ".json") then
      restoreFeedFiles targetFeeds create selected rest
    else
      match f.content with
      | none => ([], some (.snapshotUnreadable f.name))
      | some feed =>
        let r := restoreFeedFiles targetFeeds create selected rest
        match FindFeedByName targetFeeds feed.Name with
        | some _ => ((f.name, .existsSkipped) :: r.1, r.2)
        | none =>
          match create (feedCreatePayload feed) with
          | none => ((f.name, .createFailed) :: r.1, r.2)
          | some created => ((f.name, .created created.Name) :: r.1, r.2)

/-! ## Restore of wikis (`wiki.go`, `wiki_backup_restore.go`) -/

/-- The class `\s` of Go regular expressions. -/
def isReSpace (c : Char) : Bool :=
  let n := c.toNat
  n == 9 || n == 10 || n == 12 || n == 13 || n == 32

/-- The characters that `safeFilePart` replaces by `-`:
slash, backslash, colon, star, question mark, double quote, angle brackets, bar. -/
def isReservedFileChar (c : Char) : Bool :=
  let n := c.toNat
  n == 47 || n == 92 || n == 58 || n == 42 || n == 63 || n == 34 || n == 60 || n == 62 ||
    n == 124

/-- Replacement of every maximal run of characters satisfying `p` by the one
character `r` (`ReplaceAllString` with a pattern `[...]+`); `inRun` says that
the character before was part of a run. -/
def collapseRuns (p : Char → Bool) (r : Char) : Bool → List Char → List Char
  | _, [] => []
  | inRun, c :: rest =>
    if p c then
      if inRun then collapseRuns p r true rest else r :: collapseRuns p r true rest
    else c :: collapseRuns p r false rest

/-- Go `safeFilePart`. -/
def safeFilePart (s : String) : String :=
  let t := (trimSpace s).data.map (fun c => if isReservedFileChar c then '-' else c)
  let u := collapseRuns isReSpace '_' false t
  if u.isEmpty then "policy" else ⟨u⟩

/-- Go `Wiki`; `WikiType` is its field `Type`. -/
structure Wiki where
  ID : String
  Name : String
  WikiType : String
  RepositoryID : String
  MappedPath : String
  ProjectID : String
  Raw : JObj

/-- Go `(*Wiki).UnmarshalJSON`, on the decoded JSON object. -/
def decodeWiki (m : JObj) : Wiki :=
  { ID := stringField m "id", Name := stringField m "name", WikiType := stringField m "type",
    RepositoryID := stringField m "repositoryId", MappedPath := stringField m "mappedPath",
    ProjectID := stringField m "projectId", Raw := m }

/-- Go `IsProjectWiki`. -/
def IsProjectWiki (w : Wiki) : Bool :=
  equalFold w.WikiType "projectWiki"

/-- Go `IsCodeWiki`. -/
def IsCodeWiki (w : Wiki) : Bool :=
  equalFold w.WikiType "codeWiki"

/-- Go `FindWikiByName`. -/
def FindWikiByName (wikis : List Wiki) (name : String) : Option Wiki :=
  wikis.find? (fun w => equalFold w.Name name)

/-- How far the push of a project wiki's mirrored repository got. -/
inductive WikiPush where
  | notProjectWiki
  | mirrorDirMissing
  | createdWithoutRepository
  | remoteNotFound
  | pushFailed
  | pushed
  deriving DecidableEq

/-- What the wiki restore reports for one selected snapshot. -/
inductive WikiOutcome where
  | existsSkipped
  | sourceRepoNotFound
  | targetRepoNotFound
  | createFailed
  | created (push : WikiPush)
  deriving DecidableEq

/-- The collaborators of the wiki restore: `projectId` is the answer of
`GetProjectInfo` for the target project, `create` stands for `CreateWiki`,
`mirrorDirExists` for `os.Stat` on a directory of the backup, `remoteURL` for
`GetRepoByID` followed by the read of `RemoteURL`, `mirrorPush` for
`MirrorPush`; `none` and `false` are failures. -/
structure WikiCalls where
  projectId : Option String
  create : JObj → Option Wiki
  mirrorDirExists : String → Bool
  remoteURL : String → Option String
  mirrorPush : String → String → Bool

/-- The part of the loop body of `RestoreWikisFromBackup` that follows a
successful `CreateWiki`. -/
def pushProjectWiki (calls : WikiCalls) (w created : Wiki) : WikiPush :=
  if IsProjectWiki w then
    let srcMirrorDir := safeFilePart w.Name ++ ".wiki.git"
    if !calls.mirrorDirExists srcMirrorDir then .mirrorDirMissing
    else if trimSpace created.RepositoryID == "" then .createdWithoutRepository
    else
      match calls.remoteURL created.RepositoryID with
      | none => .remoteNotFound
      | some url =>
        if trimSpace url == "" then .remoteNotFound
        else if calls.mirrorPush srcMirrorDir url then .pushed
        else .pushFailed
  else .notProjectWiki

/-- The part of the loop body of `RestoreWikisFromBackup` that follows
`GetProjectInfo`, for the wiki `w` and the project id it returned. -/
def restoreWiki (sourceRepoNameByID targetRepoIDByName : String → Option String)
    (calls : WikiCalls) (targetProjectID : String) (w : Wiki) : WikiOutcome :=
  let payload : JObj :=
    [("name", .str w.Name), ("type", .str w.WikiType), ("projectId", .str targetProjectID)]
  if IsCodeWiki w then
    let srcRepoName := (sourceRepoNameByID (toLower w.RepositoryID)).getD ""
    if trimSpace srcRepoName == "" then .sourceRepoNotFound
    else
      let targetRepoID := (targetRepoIDByName (toLower srcRepoName)).getD ""
      if trimSpace targetRepoID == "" then .targetRepoNotFound
      else
        let payload := jset "repositoryId" (.str targetRepoID) payload
        let payload :=
          if trimSpace w.MappedPath != "" then jset "mappedPath" (.str w.MappedPath) payload
          else jset "mappedPath" (.str "/") payload
        match calls.create payload with
        | none => .createFailed
        | some created => .created (pushProjectWiki calls w created)
  else
    match calls.create payload with
    | none => .createFailed
    | some created => .created (pushProjectWiki calls w created)

/-- The loop of `RestoreWikisFromBackup` over the directory entries;
`targetWikis` is the listing of the target, read once before the loop. -/
def restoreWikiFiles (sourceRepoNameByID targetRepoIDByName : String → Option String)
    (targetWikis : List Wiki) (calls : WikiCalls) (selected : List String) :
    List SnapshotFile → List (String × WikiOutcome) × Option RunError
  | [] => ([], none)
  | f :: rest =>
    let restoreAll := selected.length == 1 && equalFold (selected.headD "") "all"
    if !hasSuffix f.name ".json" then
      restoreWikiFiles sourceRepoNameByID targetRepoIDByName targetWikis calls selected rest
    else if !restoreAll && !contains selected f.name &&
        !contains selected (trimSuffix f.name ".json") then
      restoreWikiFiles sourceRepoNameByID targetRepoIDByName targetWikis calls selected rest
    else
      match f.content with
      | none => ([], some (.snapshotUnreadable f.name))
      | some m =>
        let w := decodeWiki m
        match FindWikiByName targetWikis w.Name with
        | some _ =>
          let r := restoreWikiFiles sourceRepoNameByID targetRepoIDByName targetWikis calls
            selected rest
          ((f.name, .existsSkipped) :: r.1, r.2)
        | none =>
          match calls.projectId with
          | none => ([], some (.lookupFailed f.name))
          | some targetProjectID =>
            let r := restoreWikiFiles sourceRepoNameByID targetRepoIDByName targetWikis calls
              selected rest
            ((f.name, restoreWiki sourceRepoNameByID targetRepoIDByName calls
              targetProjectID w) :: r.1, r.2)

/-- The selection rule of the specification: the entry `F` ends in `.json`, and
the selection is the single element `all` (ignoring case), or contains `F`, or
contains `F` without its `.json` suffix. -/
def SelectsFile (selected : List String) (F : String) : Prop :=
  hasSuffix F ".json" = true ∧
    ((∃ a, selected = [a] ∧ equalFold a "all" = true) ∨ F ∈ selected ∨
      trimSuffix F ".json" ∈ selected)

/-- The test that the loops of the branch-policy, feed and wiki restore make on
a directory entry before they read it. -/
def selectsFileB (selected : List String) (F : String) : Bool :=
  hasSuffix F ".json" &&
    ((selected.length == 1 && equalFold (selected.headD "") "all") || contains selected F ||
      contains selected (trimSuffix F ".json"))

/-- Go `RestoreArtifactsFeedsFromBackup`, once the directory and the feeds of
the target have been read. -/
def RestoreArtifactsFeedsFromBackup (files : List FeedFile) (selected : List String)
    (targetFeeds : List Feed) (create : JObj → Option Feed) :
    List (String × FeedOutcome) × Option RunError :=
  restoreFeedFiles targetFeeds create selected files

/-- Go `RestoreWikisFromBackup`, once the directory, the wikis of the target
and the two repository listings have been read. -/
def RestoreWikisFromBackup (files : List SnapshotFile) (selected : List String)
    (targetWikis : List Wiki) (sourceRepos targetRepos : List Repo) (calls : WikiCalls) :
    List (String × WikiOutcome) × Option RunError :=
  restoreWikiFiles (sourceRepoNameByID sourceRepos) (targetRepoIDByName targetRepos)
    targetWikis calls selected files

/-! ## Restore of build definitions (`build_definitions.go`) -/

/-- The test `s, ok := m[k].(string); ok && s != ""`, giving `s` or the empty
string. -/
def nonEmptyStringField (m : JObj) (k : String) : String :=
  match m.lookup k with
  | some (.str s) => if s != "" then s else ""
  | _ => ""

/-- Go `extractBuildRepoNameAndID`. -/
def extractBuildRepoNameAndID (d : JObj) : String × String :=
  match d.lookup "repository" with
  | some (.obj repo) =>
    let repoName := nonEmptyStringField repo "name"
    let repoID := nonEmptyStringField repo "id"
    let repoName :=
      if repoName == "" then
        match repo.lookup "properties" with
        | some (.obj props) =>
          let n := nonEmptyStringField props "repositoryName"
          if n == "" then nonEmptyStringField props "name" else n
        | _ => repoName
      else repoName
    (repoName, repoID)
  | _ => ("", "")

/-- The three `fmt.Errorf` results of `remapBuildDefinitionRepo`. -/
inductive BuildRepoError where
  | repoNameNotFound (repoID : String)
  | repoNameEmpty (repoID : String)
  | targetRepoNotFound (repoName : String)
  deriving DecidableEq

/-- Go `remapBuildDefinitionRepo`: the definition after the call, and the repo
name and target id or the error. `getRepoNameByID` stands for `GetRepoNameByID`
against the source project; `none` is its error result. -/
def remapBuildDefinitionRepo (d : JObj) (getRepoNameByID : String → Option String)
    (targetRepoIDByName : String → Option String) :
    JObj × Except BuildRepoError (String × String) :=
  let (repoName0, repoID) := extractBuildRepoNameAndID d
  let resolved : Option String :=
    if repoName0 == "" && repoID != "" then getRepoNameByID repoID else some repoName0
  match resolved with
  | none => (d, .error (.repoNameNotFound repoID))
  | some repoName =>
    if repoName == "" then (d, .error (.repoNameEmpty repoID))
    else
      let targetID := (targetRepoIDByName (toLower repoName)).getD ""
      if targetID == "" then (d, .error (.targetRepoNotFound repoName))
      else
        let repoObj : JObj := match d.lookup "repository" with
          | some (.obj repo) => repo
          | _ => []
        let repoObj := jset "name" (.str repoName) (jset "id" (.str targetID) repoObj)
        (jset "repository" (.obj repoObj) d, .ok (repoName, targetID))

/-- Go `extractBuildQueueName`. -/
def extractBuildQueueName (d : JObj) : String :=
  match d.lookup "queue" with
  | some (.obj q) => nonEmptyStringField q "name"
  | _ => ""

/-- Go `setBuildQueueID`. -/
def setBuildQueueID (d : JObj) (id : Int) : JObj :=
  match d.lookup "queue" with
  | some (.obj q) => jset "queue" (.obj (jset "id" (.int id) q)) d
  | _ => jset "queue" (.obj [("id", .int id)]) d

/-- The queue block of the loop body of `RestoreBuildDefinitionsFromBackup`:
the values of `targetQueueID` and `targetQueueName` when the block is left. -/
def resolveBuildQueue (srcQueueName : String) (queueMap : String → Option String)
    (targetQueueIDByName : String → Option Int) (defaultQueue : String) : Int × String :=
  let targetQueueName :=
    if srcQueueName != "" then
      match queueMap srcQueueName with
      | some mapped => mapped
      | none => srcQueueName
    else ""
  let targetQueueID : Int :=
    if targetQueueName != "" then
      match targetQueueIDByName targetQueueName with
      | some id => id
      | none => 0
    else 0
  if targetQueueID == 0 && defaultQueue != "" then
    ((targetQueueIDByName defaultQueue).getD 0, defaultQueue)
  else (targetQueueID, targetQueueName)

/-- The queue block followed by the test `targetQueueID == 0` and by
`setBuildQueueID`: `none` when the definition is skipped, else the definition
with the queue id written. -/
def applyBuildQueue (d : JObj) (queueMap : String → Option String)
    (targetQueueIDByName : String → Option Int) (defaultQueue : String) : Option JObj :=
  let r := resolveBuildQueue (extractBuildQueueName d) queueMap targetQueueIDByName defaultQueue
  if r.1 == 0 then none else some (setBuildQueueID d r.1)

/-- Go `sanitizeBuildDefinitionForCreate`: the map after the deletions, which
are made in place. -/
def sanitizeBuildDefinitionForCreate (raw : JObj) : JObj :=
  let raw := jdel "id" raw
  let raw := jdel "revision" raw
  let raw := jdel "createdDate" raw
  let raw := jdel "createdBy" raw
  let raw := jdel "authoredBy" raw
  let raw := jdel "queueStatus" raw
  let raw := jdel "_links" raw
  let raw := jdel "uri" raw
  let raw := jdel "url" raw
  let raw := jdel "project" raw
  raw

/-- Go `CreateBuildDefinition` for a definition whose `Raw` is set: the map
`def.Raw` as the call leaves it (the struct is passed by value, the map it holds
is shared with the caller), and the id of the created definition or `none` when
the POST, here `post`, fails. -/
def CreateBuildDefinition (raw : JObj) (post : JObj → Option Int) : JObj × Option Int :=
  let raw := sanitizeBuildDefinitionForCreate raw
  (raw, post raw)

/-- Go `FindBuildDefinitionByName`, on the listing of the target. -/
def FindBuildDefinitionByName (list : List JObj) (name : String) : Option JObj :=
  list.find? (fun d => stringField d "name" == name)

/-- What the build-definition restore reports for one selected snapshot. -/
inductive BuildOutcome where
  | existsSkipped
  | repoRemapFailed (e : BuildRepoError)
  | queueNotResolved
  | createFailed
  | created (id : Int)
  deriving DecidableEq

/-- The tables and collaborators of a build-definition restore, as the code has
them when the loop starts. -/
structure BuildRestoreEnv where
  targetRepoIDByName : String → Option String
  targetQueueIDByName : String → Option Int
  queueMap : String → Option String
  defaultQueue : String
  srcEndpointIDToName : String → Option String
  tgtEndpointNameToID : String → Option String
  srcVarGroupIDToName : Int → Option String
  tgtVarGroupNameToID : String → Option Int
  srcTaskGroupIDToName : String → Option String
  tgtTaskGroupNameToID : String → Option String
  getRepoNameByID : String → Option String
  post : JObj → Option Int

/-- The loop of `RestoreBuildDefinitionsFromBackup` over the directory entries,
from the build definitions `target` of the target project; a created
definition is listed by the lookups that follow. -/
def restoreBuildFiles (env : BuildRestoreEnv) (selected : List String) :
    List JObj → List SnapshotFile → List (String × BuildOutcome) × Option RunError
  | _, [] => ([], none)
  | target, f :: rest =>
    let restoreAll := selected.length == 1 && selected.headD "" == "all"
    if !hasSuffix f.name ".json" then restoreBuildFiles env selected target rest
    else if !restoreAll && !contains selected (trimSuffix f.name ".json") then
      restoreBuildFiles env selected target rest
    else
      match f.content with
      | none => ([], some (.snapshotUnreadable f.name))
      | some raw =>
        match FindBuildDefinitionByName target (stringField raw "name") with
        | some _ =>
          let r := restoreBuildFiles env selected target rest
          ((f.name, .existsSkipped) :: r.1, r.2)
        | none =>
          match remapBuildDefinitionRepo raw env.getRepoNameByID env.targetRepoIDByName with
          | (_, .error e) =>
            let r := restoreBuildFiles env selected target rest
            ((f.name, .repoRemapFailed e) :: r.1, r.2)
          | (raw, .ok _) =>
            match applyBuildQueue raw env.queueMap env.targetQueueIDByName
                env.defaultQueue with
            | none =>
              let r := restoreBuildFiles env selected target rest
              ((f.name, .queueNotResolved) :: r.1, r.2)
            | some raw =>
              let raw := RemapBuildDefinitionRefsByName raw env.srcEndpointIDToName
                env.tgtEndpointNameToID env.srcVarGroupIDToName env.tgtVarGroupNameToID
                env.srcTaskGroupIDToName env.tgtTaskGroupNameToID
              match CreateBuildDefinition raw env.post with
              | (_, none) =>
                let r := restoreBuildFiles env selected target rest
                ((f.name, .createFailed) :: r.1, r.2)
              | (body, some id) =>
                let r := restoreBuildFiles env selected
                  (target ++ [jset "id" (.num (id : ℚ)) body]) rest
                ((f.name, .created id) :: r.1, r.2)

/-- Go `RestoreBuildDefinitionsFromBackup`, once the directory and the listings
have been read, the tables built and the rename table parsed: the check of the
default queue before the loop, then the loop. -/
def RestoreBuildDefinitionsFromBackup (env : BuildRestoreEnv) (selected : List String)
    (target : List JObj) (files : List SnapshotFile) :
    List (String × BuildOutcome) × Option RunError :=
  if env.defaultQueue != "" && (env.targetQueueIDByName env.defaultQueue).isNone then
    ([], some (.defaultQueueNotFound env.defaultQueue))
  else restoreBuildFiles env selected target files

/-- The name that the queue block looks up first for the source queue `s`:
the rename table's entry for `s` when there is one, else `s` itself. -/
def buildQueueCandidate (s : String) (queueMap : String → Option String) : String :=
  if s = "" then ""
  else
    match queueMap s with
    | some mapped => mapped
    | none => s

/-- The name `n` resolves to the queue id `id` in the target: `n` is not empty,
the target has a queue of that name, and its id is not zero. -/
def QueueResolves (targetQueueIDByName : String → Option Int) (n : String) (id : Int) : Prop :=
  n ≠ "" ∧ targetQueueIDByName n = some id ∧ id ≠ 0

/-- The value `def.queue.id` of a build definition. -/
def buildQueueId (d : JObj) : Option JVal :=
  match d.lookup "queue" with
  | some (.obj q) => q.lookup "id"
  | _ => none

/-! ## Agent queues of a release definition (`release_definitions.go`) -/

/-- Go `TaskAgentQueue`. -/
structure TaskAgentQueue where
  ID : Int
  Name : String

/-- The body of the inner loop of `setReleaseQueueID` for one deploy phase;
`none` is the run-time panic of the assignment `dp["deploymentInput"] = di` on
the nil map that a phase which is no object leaves in `dp`. -/
def setPhaseQueueID (queueID : Int) : JVal → Option JVal
  | .obj dp =>
    match dp.lookup "deploymentInput" with
    | some (.obj di) =>
      some (.obj (jset "deploymentInput" (.obj (jset "queueId" (.int queueID) di)) dp))
    | _ => some (.obj (jset "deploymentInput" (.obj [("queueId", .int queueID)]) dp))
  | _ => none

/-- The inner loop of `setReleaseQueueID` over the deploy phases of a stage. -/
def setPhasesQueueID (queueID : Int) : List JVal → Option (List JVal)
  | [] => some []
  | dp :: rest =>
    match setPhaseQueueID queueID dp with
    | none => none
    | some dp1 =>
      match setPhasesQueueID queueID rest with
      | none => none
      | some rest1 => some (dp1 :: rest1)

/-- The body of the outer loop of `setReleaseQueueID` for one stage. -/
def setEnvironmentQueueID (queueID : Int) : JVal → Option JVal
  | .obj env =>
    match env.lookup "deployPhases" with
    | some (.arr dps) =>
      match setPhasesQueueID queueID dps with
      | none => none
      | some dps1 => some (.obj (jset "deployPhases" (.arr dps1) env))
    | _ => some (.obj env)
  | e => some e

/-- The outer loop of `setReleaseQueueID` over the stages. -/
def setEnvironmentsQueueID (queueID : Int) : List JVal → Option (List JVal)
  | [] => some []
  | e :: rest =>
    match setEnvironmentQueueID queueID e with
    | none => none
    | some e1 =>
      match setEnvironmentsQueueID queueID rest with
      | none => none
      | some rest1 => some (e1 :: rest1)

/-- Go `setReleaseQueueID`: the payload after the call; `none` when the call
panics. -/
def setReleaseQueueID (payload : JObj) (queueID : Int) : Option JObj :=
  match payload.lookup "environments" with
  | some (.arr envs) =>
    match setEnvironmentsQueueID queueID envs with
    | none => none
    | some envs1 => some (jset "environments" (.arr envs1) payload)
  | _ => some payload

/-- The body of the inner loop of `extractReleaseQueueIDs` for one deploy
phase: the ids it appends. -/
def phaseQueueIDs : JVal → List Int
  | .obj dp =>
    match dp.lookup "deploymentInput" with
    | some (.obj di) =>
      match di.lookup "queueId" with
      | some (.num t) => if goInt t != 0 then [goInt t] else []
      | some (.int t) => if t != 0 then [t] else []
      | _ => []
    | _ => []
  | _ => []

/-- The body of the outer loop of `extractReleaseQueueIDs` for one stage. -/
def environmentQueueIDs : JVal → List Int
  | .obj env =>
    match env.lookup "deployPhases" with
    | some (.arr dps) => dps.flatMap phaseQueueIDs
    | _ => []
  | _ => []

/-- Go `extractReleaseQueueIDs`. -/
def extractReleaseQueueIDs (payload : JObj) : List Int :=
  match payload.lookup "environments" with
  | some (.arr envs) => envs.flatMap environmentQueueIDs
  | _ => []

/-- The four `fmt.Errorf` results of `remapReleaseQueues`. -/
inductive ReleaseQueueError where
  | defaultQueueNotFound (defaultQueue : String)
  | noQueueId
  | sourceQueueNotFound (id : Int)
  | targetQueueNotFound (name : String)
  deriving DecidableEq

/-- Go `remapReleaseQueues`: `none` when the call panics, else the payload after
the call together with the error or the returned queue name and id. -/
def remapReleaseQueues (payload : JObj) (sourceQueueIDToName : Int → Option String)
    (targetQueueIDByName : String → Option Int) (queueMap : String → Option String)
    (defaultQueue : String) : Option (JObj × Except ReleaseQueueError (String × Int)) :=
  if defaultQueue != "" then
    let id := (targetQueueIDByName defaultQueue).getD 0
    if id == 0 then some (payload, .error (.defaultQueueNotFound defaultQueue))
    else
      match setReleaseQueueID payload id with
      | none => none
      | some payload1 => some (payload1, .ok (defaultQueue, id))
  else
    match extractReleaseQueueIDs payload with
    | [] => some (payload, .error .noQueueId)
    | first :: _ =>
      let srcQName := (sourceQueueIDToName first).getD ""
      if srcQName == "" then some (payload, .error (.sourceQueueNotFound first))
      else
        let targetQName :=
          match queueMap srcQName with
          | some mapped => if mapped != "" then mapped else srcQName
          | none => srcQName
        let targetQID := (targetQueueIDByName targetQName).getD 0
        if targetQID == 0 then some (payload, .error (.targetQueueNotFound targetQName))
        else
          match setReleaseQueueID payload targetQID with
          | none => none
          | some payload1 => some (payload1, .ok (targetQName, targetQID))

/-- The queue name and id that `remapReleaseQueues` returns, when it returns
without error. -/
def returnedQueue : Option (JObj × Except ReleaseQueueError (String × Int)) →
    Option (String × Int)
  | some (_, .ok r) => some r
  | _ => none

/-! ## Name tables (`build_definitions_mappings.go`, `task_groups.go`) -/

/-- The map that a loop of assignments `m[k] = v` over `entries` leaves: a later
entry overwrites an earlier one of the same key. -/
def lastWins {κ β : Type} [BEq κ] (entries : List (κ × β)) : κ → Option β :=
  fun k => entries.reverse.lookup k

/-- The entries of a listing of raw documents that have a non-empty `id` and a
non-empty `name` (the test `e.Id != "" && e.Name != ""`). -/
def namedEntries (list : List JObj) : List JObj :=
  list.filter (fun e => stringField e "id" != "" && stringField e "name" != "")

/-- Go `BuildEndpointMaps`, once the two listings of service connections have
been read: source id (lower-cased) to name, and target name to id. -/
def BuildEndpointMaps (src tgt : List JObj) :
    (String → Option String) × (String → Option String) :=
  (lastWins ((namedEntries src).map
      (fun e => (toLower (stringField e "id"), stringField e "name"))),
   lastWins ((namedEntries tgt).map (fun e => (stringField e "name", stringField e "id"))))

/-- Go `buildServiceConnectionMaps` (`task_groups.go`), once the two listings
have been read. -/
def buildServiceConnectionMaps (src tgt : List JObj) :
    (String → Option String) × (String → Option String) :=
  (lastWins ((namedEntries src).map
      (fun e => (toLower (stringField e "id"), stringField e "name"))),
   lastWins ((namedEntries tgt).map (fun e => (stringField e "name", stringField e "id"))))

/-- Go `BuildTaskGroupMaps`, once the two listings of task groups have been
read. -/
def BuildTaskGroupMaps (src tgt : List JObj) :
    (String → Option String) × (String → Option String) :=
  (lastWins ((namedEntries src).map
      (fun e => (toLower (stringField e "id"), stringField e "name"))),
   lastWins ((namedEntries tgt).map (fun e => (stringField e "name", stringField e "id"))))

/-- Go `BuildVarGroupMaps`, once the two listings of variable groups have been
read: source id to name, and target name (lower-cased) to id. -/
def BuildVarGroupMaps (src tgt : List VariableGroup) :
    (Int → Option String) × (String → Option Int) :=
  (lastWins ((src.filter (fun g => g.Id != 0 && g.Name != "")).map (fun g => (g.Id, g.Name))),
   lastWins ((tgt.filter (fun g => g.Id != 0 && g.Name != "")).map
      (fun g => (toLower g.Name, g.Id))))

/-- The table built by `for _, q := range targetQueues { m[q.Name] = q.ID }` in
the build-definition and release-definition restore. -/
def targetQueueIDByName (targetQueues : List TaskAgentQueue) : String → Option Int :=
  lastWins (targetQueues.map (fun q => (q.Name, q.ID)))

/-- The table built by `for _, r := range targetRepos { m[r.Name] = r.Id }` in
`RestoreYamlPipelinesFromBackup`. -/
def repoIdByName (targetRepos : List Repo) : String → Option String :=
  lastWins (targetRepos.map (fun r => (r.Name, r.Id)))

/-! ## Restore of YAML pipelines (`yaml_pipelines.go`) -/

/-- Go `extractRepoNameAndID`. -/
def extractRepoNameAndID (p : JObj) : String × String :=
  let cfg : JObj := match p.lookup "configuration" with
    | some (.obj c) => c
    | _ => []
  let repo : JObj := match cfg.lookup "repository" with
    | some (.obj r) => r
    | _ => []
  let repoID := nonEmptyStringField repo "id"
  if nonEmptyStringField repo "name" != "" then (nonEmptyStringField repo "name", repoID)
  else if nonEmptyStringField repo "fullName" != "" then
    (nonEmptyStringField repo "fullName", repoID)
  else
    match repo.lookup "properties" with
    | some (.obj props) =>
      if nonEmptyStringField props "repositoryName" != "" then
        (nonEmptyStringField props "repositoryName", repoID)
      else if nonEmptyStringField props "fullName" != "" then
        (nonEmptyStringField props "fullName", repoID)
      else if nonEmptyStringField props "name" != "" then
        (nonEmptyStringField props "name", repoID)
      else ("", repoID)
    | _ => ("", repoID)

/-- Go `sanitizeYamlPipelineForCreate`. -/
def sanitizeYamlPipelineForCreate (obj : JObj) : JObj :=
  let name := stringField obj "name"
  let folder := stringField obj "folder"
  let cfg : JObj := match obj.lookup "configuration" with
    | some (.obj c) => c
    | _ => []
  let path := stringField cfg "path"
  let repoName := (extractRepoNameAndID obj).1
  let repo : JObj := match cfg.lookup "repository" with
    | some (.obj r) => r
    | _ => []
  let repoType := if stringField repo "type" == "" then "azureReposGit" else stringField repo "type"
  let payload : JObj := [("name", .str name)]
  let payload := if folder != "" then jset "folder" (.str folder) payload else payload
  jset "configuration" (.obj [("type", .str "yaml"), ("path", .str path),
    ("repository", .obj [("type", .str repoType), ("name", .str repoName)])]) payload

/-- The assignments `repo["id"] = targetRepoID; repo["name"] = repoName` on the
payload that `sanitizeYamlPipelineForCreate` built. -/
def setYamlRepository (payload : JObj) (targetRepoID repoName : String) : JObj :=
  match payload.lookup "configuration" with
  | some (.obj cfg) =>
    match cfg.lookup "repository" with
    | some (.obj repo) =>
      jset "configuration" (.obj (jset "repository"
        (.obj (jset "name" (.str repoName) (jset "id" (.str targetRepoID) repo))) cfg)) payload
    | _ => payload
  | _ => payload

/-- Go `FindPipelineByName`, on the listing of the target. -/
def FindPipelineByName (list : List JObj) (name : String) : Option JObj :=
  list.find? (fun p => stringField p "name" == name)

/-- Go `FindReleaseDefinitionByName`, on the listing of the target. -/
def FindReleaseDefinitionByName (list : List JObj) (name : String) : Option JObj :=
  list.find? (fun d => stringField d "name" == name)

/-- Go `FindServiceConnectionByName`, on the listing of the target. -/
def FindServiceConnectionByName (list : List JObj) (name : String) : Option JObj :=
  list.find? (fun e => stringField e "name" == name)

/-- What the YAML-pipeline restore reports for one selected snapshot. -/
inductive YamlOutcome where
  | sourceRepoNameNotResolved
  | repoNameNotFound
  | targetRepoNotFound (repoName : String)
  | existsSkipped
  | createFailed
  | created (id : Int)
  deriving DecidableEq

/-- The loop of `RestoreYamlPipelinesFromBackup` over the directory entries,
from the pipelines `target` of the target project. `resolveSourceRepoName`
stands for `ResolveSourceRepoNameByID` and `create` for `CreateYamlPipeline`;
`none` is their error result. A created pipeline is listed by the lookups that
follow. -/
def restoreYamlFiles (targetRepos : List Repo) (resolveSourceRepoName : String → Option String)
    (create : JObj → Option Int) (selected : List String) :
    List JObj → List SnapshotFile → List (String × YamlOutcome) × Option RunError
  | _, [] => ([], none)
  | target, f :: rest =>
    let restoreAll := selected.length == 1 && selected.headD "" == "all"
    let pipelineName := trimSuffix f.name ".json"
    if !hasSuffix f.name ".json" then
      restoreYamlFiles targetRepos resolveSourceRepoName create selected target rest
    else if !restoreAll && !contains selected pipelineName then
      restoreYamlFiles targetRepos resolveSourceRepoName create selected target rest
    else
      match f.content with
      | none => ([], some (.snapshotUnreadable f.name))
      | some full =>
        let payload := sanitizeYamlPipelineForCreate full
        let (repoName0, repoID) := extractRepoNameAndID full
        let resolved : Option String :=
          if repoName0 == "" && repoID != "" then resolveSourceRepoName repoID
          else some repoName0
        match resolved with
        | none =>
          let r := restoreYamlFiles targetRepos resolveSourceRepoName create selected target rest
          ((f.name, .sourceRepoNameNotResolved) :: r.1, r.2)
        | some repoName =>
          if repoName == "" then
            let r := restoreYamlFiles targetRepos resolveSourceRepoName create selected
              target rest
            ((f.name, .repoNameNotFound) :: r.1, r.2)
          else
            match repoIdByName targetRepos repoName with
            | none =>
              let r := restoreYamlFiles targetRepos resolveSourceRepoName create selected
                target rest
              ((f.name, .targetRepoNotFound repoName) :: r.1, r.2)
            | some targetRepoID =>
              let payload := setYamlRepository payload targetRepoID repoName
              match FindPipelineByName target pipelineName with
              | some _ =>
                let r := restoreYamlFiles targetRepos resolveSourceRepoName create selected
                  target rest
                ((f.name, .existsSkipped) :: r.1, r.2)
              | none =>
                match create payload with
                | none =>
                  let r := restoreYamlFiles targetRepos resolveSourceRepoName create selected
                    target rest
                  ((f.name, .createFailed) :: r.1, r.2)
                | some id =>
                  let r := restoreYamlFiles targetRepos resolveSourceRepoName create selected
                    (target ++ [jset "id" (.num (id : ℚ)) payload]) rest
                  ((f.name, .created id) :: r.1, r.2)

/-! ## Sanitizers that work in place (`service_connections.go`, `release_definitions.go`) -/

/-- Go `sanitizeServiceConnectionForCreate`: the map after the deletions, which
are made in place. -/
def sanitizeServiceConnectionForCreate (epRaw : JObj) : JObj :=
  let epRaw := jdel "id" epRaw
  let epRaw := jdel "createdBy" epRaw
  let epRaw := jdel "creationDate" epRaw
  let epRaw := jdel "modifiedBy" epRaw
  let epRaw := jdel "modifiedOn" epRaw
  let epRaw := jdel "owner" epRaw
  let epRaw := jdel "administratorsGroup" epRaw
  let epRaw := jdel "readersGroup" epRaw
  let epRaw := jdel "serviceEndpointProjectReferences" epRaw
  epRaw

/-- Go `CreateServiceConnection` for an endpoint whose `Raw` is set, with the
typed fields `name` and `description` that `UnmarshalJSON` read from it: the map
`ep.Raw` as the call leaves it (it is shared with the caller), and the id of the
created connection or `none` when the POST, here `post`, fails. -/
def CreateServiceConnection (raw : JObj) (name description project targetProjectID : String)
    (post : JObj → Option String) : JObj × Option String :=
  let raw := sanitizeServiceConnectionForCreate raw
  let raw := jset "serviceEndpointProjectReferences"
    (.arr [.obj [("projectReference",
        .obj [("id", .str targetProjectID), ("name", .str project)]),
      ("name", .str name), ("description", .str description)]]) raw
  (raw, post raw)

/-- Go `deepCopyMap` (`release_definitions.go`). -/
def deepCopyMap (m : JObj) : JObj :=
  jsonRoundTripFields m

/-- Go `sanitizeReleaseDefinitionForCreate`. -/
def sanitizeReleaseDefinitionForCreate (full : JObj) : JObj :=
  let payload := deepCopyMap full
  let payload := jdel "id" payload
  let payload := jdel "url" payload
  let payload := jdel "_links" payload
  let payload := jdel "createdBy" payload
  let payload := jdel "createdOn" payload
  let payload := jdel "modifiedBy" payload
  let payload := jdel "modifiedOn" payload
  let payload := jdel "revision" payload
  let payload := jdel "createdById" payload
  let payload := jdel "modifiedById" payload
  payload

/-! ## Typed snapshots (`variable_groups.go`, `artifacts.go`) -/

/-- Decoding of a JSON value into a Go `string` field; `none` is the type error
of `json.Unmarshal`. -/
def decodeStringValue : Option JVal → Option String
  | none => some ""
  | some .null => some ""
  | some (.str s) => some s
  | some _ => none

/-- Decoding of a JSON value into a Go `bool` field. -/
def decodeBoolValue : Option JVal → Option Bool
  | none => some false
  | some .null => some false
  | some (.bool b) => some b
  | some _ => none

/-- Decoding of a JSON value into a Go `int` field: a number with a fraction is
a type error. -/
def decodeIntValue : Option JVal → Option Int
  | none => some 0
  | some .null => some 0
  | some (.num q) => if q.den = 1 then some q.num else none
  | some _ => none

/-- Decoding of one value of `variables` into a Go `Variable`. -/
def decodeVariable : JVal → Option Variable
  | .null => some { Value := "", IsSecret := false }
  | .obj m =>
    match decodeStringValue (m.lookup "value"), decodeBoolValue (m.lookup "isSecret") with
    | some v, some b => some { Value := v, IsSecret := b }
    | _, _ => none
  | _ => none

/-- Decoding of the entries of `variables`. -/
def decodeVariables : List (String × JVal) → Option (List (String × Variable))
  | [] => some []
  | (k, v) :: rest =>
    match decodeVariable v, decodeVariables rest with
    | some x, some xs => some ((k, x) :: xs)
    | _, _ => none

/-- The result of `json.Unmarshal` of a JSON object into a Go `VariableGroup`;
`none` when it returns an error. Keys other than the five of the struct are
ignored. -/
def decodeVariableGroup (m : JObj) : Option VariableGroup :=
  let vars : Option (Bool × List (String × Variable)) :=
    match m.lookup "variables" with
    | none => some (false, [])
    | some .null => some (false, [])
    | some (.obj vs) => (decodeVariables vs).map (fun xs => (true, xs))
    | some _ => none
  match decodeIntValue (m.lookup "id"), decodeStringValue (m.lookup "name"),
      decodeStringValue (m.lookup "description"), decodeStringValue (m.lookup "type"), vars with
  | some id, some name, some description, some ty, some (isSet, xs) =>
    some { Id := id, Name := name, Variables := xs, Description := description,
           GroupType := ty, VariablesSet := isSet }
  | _, _, _, _, _ => none

/-- An entry of a struct field tagged `omitempty`, left out when `emptyValue`. -/
def omitEmpty (emptyValue : Bool) (k : String) (v : JVal) : JObj :=
  if emptyValue then [] else [(k, v)]

/-- The JSON form of a Go `Variable`. -/
def encodeVariable (v : Variable) : JVal :=
  .obj (omitEmpty (v.Value == "") "value" (.str v.Value) ++
    omitEmpty (!v.IsSecret) "isSecret" (.bool v.IsSecret))

/-- The result of `json.Marshal` of a Go `VariableGroup`, decoded. -/
def encodeVariableGroup (g : VariableGroup) : JObj :=
  omitEmpty (g.Id == 0) "id" (.num (g.Id : ℚ)) ++ [("name", .str g.Name)] ++
    omitEmpty (g.Description == "") "description" (.str g.Description) ++
    omitEmpty (g.GroupType == "") "type" (.str g.GroupType) ++
    [("variables",
      if g.VariablesSet then .obj (g.Variables.map (fun kv => (kv.1, encodeVariable kv.2)))
      else .null)]

/-- Decoding of one element of `upstreamSources`. -/
def decodeUpstreamSource : JVal → Option UpstreamSource
  | .null => some (UpstreamSource.mk "" "" "" "" "" "" "")
  | .obj m =>
    match decodeStringValue (m.lookup "id"), decodeStringValue (m.lookup "name"),
        decodeStringValue (m.lookup "protocol"), decodeStringValue (m.lookup "location"),
        decodeStringValue (m.lookup "displayLocation"), decodeStringValue (m.lookup "status"),
        decodeStringValue (m.lookup "upstreamSourceType") with
    | some a, some b, some c, some d, some e, some f, some g =>
      some (UpstreamSource.mk a b c d e f g)
    | _, _, _, _, _, _, _ => none
  | _ => none

/-- Decoding of the elements of `upstreamSources`. -/
def decodeUpstreamSources : List JVal → Option (List UpstreamSource)
  | [] => some []
  | v :: rest =>
    match decodeUpstreamSource v, decodeUpstreamSources rest with
    | some x, some xs => some (x :: xs)
    | _, _ => none

/-- Decoding of `project` into a Go `*FeedProject`. -/
def decodeFeedProject : Option JVal → Option (Option FeedProject)
  | none => some none
  | some .null => some none
  | some (.obj m) =>
    match decodeStringValue (m.lookup "id"), decodeStringValue (m.lookup "name"),
        decodeStringValue (m.lookup "visibility") with
    | some a, some b, some c => some (some (FeedProject.mk a b c))
    | _, _, _ => none
  | some _ => none

/-- The result of `json.Unmarshal` of a JSON object into a Go `Feed`; `none`
when it returns an error. Keys other than the nine of the struct are ignored. -/
def decodeFeed (m : JObj) : Option Feed :=
  let sources : Option (List UpstreamSource) :=
    match m.lookup "upstreamSources" with
    | none => some []
    | some .null => some []
    | some (.arr xs) => decodeUpstreamSources xs
    | some _ => none
  match decodeStringValue (m.lookup "id"), decodeStringValue (m.lookup "name"),
      decodeStringValue (m.lookup "fullyQualifiedName"),
      decodeStringValue (m.lookup "defaultViewId"), decodeBoolValue (m.lookup "isEnabled"),
      decodeBoolValue (m.lookup "hideDeletedPackageVersions"),
      decodeBoolValue (m.lookup "upstreamEnabled"), decodeFeedProject (m.lookup "project"),
      sources with
  | some a, some b, some c, some d, some e, some f, some g, some pr, some us =>
    some (Feed.mk a b c d e f g pr us)
  | _, _, _, _, _, _, _, _, _ => none

/-- The result of `json.Marshal` of a Go `Feed`, decoded. -/
def encodeFeed (f : Feed) : JObj :=
  [("id", .str f.ID), ("name", .str f.Name), ("fullyQualifiedName", .str f.FullyQualifiedName),
   ("defaultViewId", .str f.DefaultViewID), ("isEnabled", .bool f.IsEnabled),
   ("hideDeletedPackageVersions", .bool f.HideDeleted),
   ("upstreamEnabled", .bool f.UpstreamEnabled)] ++
    (match f.Project with
      | some pr => [("project", .obj [("id", .str pr.ID), ("name", .str pr.Name),
          ("visibility", .str pr.Visibility)])]
      | none => []) ++
    omitEmpty (f.UpstreamSources.length == 0) "upstreamSources"
      (.arr (f.UpstreamSources.map encodeUpstreamSource))

/-- Go `PolicyConfig`, `BuildDefinition`, `ServiceEndpoint`, `TaskGroup`, `Wiki`
and `Pipeline` keep the decoded object in `Raw`, and `MarshalJSON` writes `Raw`
when it is set: the re-encoding of the object `m` decoded by `UnmarshalJSON`. -/
def reencodeRaw (m : JObj) : JObj :=
  jsonRoundTripFields m

/-! ## Deploy phases of a release definition -/

/-- The deploy phases `env.deployPhases` of a stage. -/
def deployPhases : JVal → List JVal
  | .obj env =>
    match env.lookup "deployPhases" with
    | some (.arr dps) => dps
    | _ => []
  | _ => []

/-- The value `dp.deploymentInput.queueId` of a deploy phase. -/
def phaseQueueId : JVal → Option JVal
  | .obj dp =>
    match dp.lookup "deploymentInput" with
    | some (.obj di) => di.lookup "queueId"
    | _ => none
  | _ => none

/-- The number of deploy phases of every stage of a release definition. -/
def phaseCounts (payload : JObj) : List Nat :=
  (releaseEnvironments payload).map (fun e => (deployPhases e).length)

/-! ## Decimal numerals and the settings read by the signature -/

/-- The number that a string of decimal digits denotes. -/
def decimalValue (l : List Char) : Nat :=
  l.foldl (fun a c => 10 * a + (c.toNat - 48)) 0

/-- The value that `PolicySignature` prints after `||min=`: `int(v)` of a
`minimumApproverCount` that is a JSON number. -/
def approverCountOf (settings : JObj) : Option Int :=
  match settings.lookup "minimumApproverCount" with
  | some (.num v) => some (goInt v)
  | _ => none

/-- A setting that is a JSON boolean (the assertion `settings[k].(bool)`). -/
def boolSetting (settings : JObj) (k : String) : Option Bool :=
  match settings.lookup k with
  | some (.bool v) => some v
  | _ => none

/-- The settings suffix of `PolicySignature` as a function of the three values
it prints. -/
def suffixText (a : Option Int) (b c : Option Bool) : String :=
  (match a with
    | some n => "||min=" ++ fmtInt n
    | none => "") ++
  (match b with
    | some v => "||downvotes=" ++ fmtBool v
    | none => "") ++
  (match c with
    | some v => "||creator=" ++ fmtBool v
    | none => "")

/-- A policy document with the list `scopes` as its `settings.scope`. -/
def setPolicyScope (raw : JObj) (scopes : List JVal) : JObj :=
  match raw.lookup "settings" with
  | some (.obj settings) => jset "settings" (.obj (jset "scope" (.arr scopes) settings)) raw
  | _ => raw

/-- A policy document with the value `v` as its setting `k`. -/
def setPolicySetting (raw : JObj) (k : String) (v : JVal) : JObj :=
  match raw.lookup "settings" with
  | some (.obj settings) => jset "settings" (.obj (jset k v settings)) raw
  | _ => raw

/-- The part of the settings suffix of `PolicySignature` that follows the
approver count. -/
def tailText (b c : Option Bool) : String :=
  (match b with
    | some v => "||downvotes=" ++ fmtBool v
    | none => "") ++
  (match c with
    | some v => "||creator=" ++ fmtBool v
    | none => "")

/-! ## Snapshot file names (`branch_policies.go`, `artifacts_backup.go`, `wiki_backup_restore.go`) -/

/-- Go `intFromAny`; the argument is the result of the map read `raw[k]`. -/
def intFromAny : Option JVal → Int
  | some (.num t) => goInt t
  | some (.int t) => t
  | _ => 0

/-- Go `policyFilename`. -/
def policyFilename (raw : JObj) : String :=
  let id := intFromAny (raw.lookup "id")
  let t := policyTypeDisplayName raw
  let t := if t == "" then "policy" else t
  let t := safeFilePart t
  if id > 0 then fmtInt id ++ "_" ++ t ++ ".json" else "new_" ++ t ++ ".json"

/-- The class `[a-zA-Z0-9._-]` of the pattern in `safeFeedFile`. -/
def isFeedFileChar (c : Char) : Bool :=
  let n := c.toNat
  (97 ≤ n && n ≤ 122) || (65 ≤ n && n ≤ 90) || (48 ≤ n && n ≤ 57) || n == 46 || n == 95 ||
    n == 45

/-- Go `safeFeedFile`. -/
def safeFeedFile (name : String) : String :=
  let s := collapseRuns (fun c => !isFeedFileChar c) '_' false (trimSpace name).data
  (if s.isEmpty then "feed" else ⟨s⟩) ++ ".json"

/-- The name of the file that `BackupWikis` writes the metadata of a wiki to. -/
def wikiFilename (w : Wiki) : String :=
  safeFilePart w.ID ++ "_" ++ safeFilePart w.Name ++ ".json"

/-- The selection test at the head of the loop of `BackupWikis`: the wiki is
backed up. -/
def backupSelectsWiki (selected : List String) (w : Wiki) : Bool :=
  let backupAll := selected.length == 1 && equalFold (selected.headD "") "all"
  !(!backupAll && !contains selected w.Name && !contains selected w.ID)

/-- The two tests at the head of the loop of the restores that are keyed by the
object name (`RestoreReleaseDefinitionsFromBackup`,
`RestoreServiceConnectionsFromBackup`, and with other variable names the
restores of build definitions, task groups, variable groups and YAML
pipelines): the directory entry `fileName` is processed. -/
def restoresByName (selected : List String) (fileName : String) : Bool :=
  let restoreAll := selected.length == 1 && selected.headD "" == "all"
  if !hasSuffix fileName ".json" then false
  else
    let name := trimSuffix fileName ".json"
    if !restoreAll && !contains selected name then false else true

/-- The display name that `policyFilename` puts into the file name, before
`safeFilePart`. -/
def policyFileLabel (raw : JObj) : String :=
  if policyTypeDisplayName raw == "" then "policy" else policyTypeDisplayName raw

/-! ## The queue rename table (`parseKeyValuePairs`) -/

/-- The call `strings.SplitN(p, "=", 2)`: `none` when the result has one part
(there is no `=`), else the two parts. -/
def splitFirstEq : List Char → Option (List Char × List Char)
  | [] => none
  | c :: rest =>
    if c == '=' then some ([], rest)
    else
      match splitFirstEq rest with
      | none => none
      | some (a, b) => some (c :: a, b)

/-- The two `fmt.Errorf` results of `parseKeyValuePairs`. -/
inductive PairError where
  | expectedSourceTarget (p : String)
  | emptySide (p : String)
  deriving DecidableEq

/-- The body of the loop of `parseKeyValuePairs` for one pair: the error it
returns, or the assignment `m[src] = tgt` it makes, or nothing for a blank
pair. -/
def parseKeyValuePair (p : String) : Except PairError (Option (String × String)) :=
  if trimSpace p == "" then .ok none
  else
    match splitFirstEq p.data with
    | none => .error (.expectedSourceTarget p)
    | some (a, b) =>
      let src := trimSpace ⟨a⟩
      let tgt := trimSpace ⟨b⟩
      if src == "" || tgt == "" then .error (.emptySide p) else .ok (some (src, tgt))

/-- The loop of `parseKeyValuePairs`: the assignments `m[src] = tgt` in the
order in which they are made, or the first error. -/
def parseKeyValueEntries : List String → Except PairError (List (String × String))
  | [] => .ok []
  | p :: rest =>
    match parseKeyValuePair p with
    | .error e => .error e
    | .ok none => parseKeyValueEntries rest
    | .ok (some kv) =>
      match parseKeyValueEntries rest with
      | .error e => .error e
      | .ok entries => .ok (kv :: entries)

/-- Go `parseKeyValuePairs`. -/
def parseKeyValuePairs (pairs : List String) : Except PairError (String → Option String) :=
  match parseKeyValueEntries pairs with
  | .error e => .error e
  | .ok entries => .ok (lastWins entries)

/-- The text of a pair before its first `=`, in the words of the specification. -/
def sourceText (p : String) : String :=
  ⟨p.data.takeWhile (fun c => c != '=')⟩

/-- The text of a pair after its first `=`, in the words of the specification. -/
def targetText (p : String) : String :=
  ⟨(p.data.dropWhile (fun c => c != '=')).drop 1⟩

/-- A pair that the specification calls an error: it is not blank, and it
contains no `=` or has an empty source or target after trimming. -/
def invalidPair (p : String) : Bool :=
  trimSpace p != "" &&
    (!p.data.contains '=' || trimSpace (sourceText p) == "" || trimSpace (targetText p) == "")

/-- The entries that the specification gives the table: one per pair that is
not blank, in the order of the pairs. -/
def pairEntries (pairs : List String) : List (String × String) :=
  (pairs.filter (fun p => trimSpace p != "")).map
    (fun p => (trimSpace (sourceText p), trimSpace (targetText p)))

/-! ## Choice among identity search results (`FindTargetIdentityIdByHint`) -/

/-- How the loop of `FindTargetIdentityIdByHint` over the search results ends:
with `return id, nil` inside the loop, or after the last result with the value
of `bestId`. -/
inductive IdentityLoop where
  | returned (id : String)
  | finished (bestId : String)
  deriving DecidableEq

/-- The loop of `FindTargetIdentityIdByHint` over the search results, from the
current value of `bestId`. -/
def identityLoop (hint : IdentityHint) : String → List JVal → IdentityLoop
  | bestId, [] => .finished bestId
  | bestId, .obj m :: rest =>
    let id := stringField m "id"
    let uniq := stringField m "uniqueName"
    let disp := stringField m "displayName"
    if hint.UniqueName != "" && equalFold uniq hint.UniqueName then .returned id
    else if bestId == "" && hint.DisplayName != "" && equalFold disp hint.DisplayName then
      identityLoop hint id rest
    else identityLoop hint bestId rest
  | bestId, _ :: rest => identityLoop hint bestId rest

/-- The error results of `FindTargetIdentityIdByHint`. -/
inductive IdentityLookupError where
  | emptyHint
  | searchFailed
  | noMatch (query : String)
  | noId
  deriving DecidableEq

/-- The text that `FindTargetIdentityIdByHint` searches for. -/
def identityQuery (hint : IdentityHint) : String :=
  if trimSpace hint.UniqueName == "" then hint.DisplayName else hint.UniqueName

/-- Go `FindTargetIdentityIdByHint`. `search` stands for the identity search of
the target organization: the list `resp["value"]` for a query (empty when the
response has none), or `none` when the request or its decoding fails. -/
def FindTargetIdentityIdByHint (hint : IdentityHint) (search : String → Option (List JVal)) :
    Except IdentityLookupError String :=
  let query := identityQuery hint
  if trimSpace query == "" then .error .emptyHint
  else
    match search query with
    | none => .error .searchFailed
    | some val =>
      if val.length == 0 then .error (.noMatch query)
      else
        match identityLoop hint "" val with
        | .returned id => .ok id
        | .finished bestId =>
          if bestId != "" then .ok bestId
          else
            match val.head? with
            | some (.obj first) =>
              match first.lookup "id" with
              | some (.str id) => if id != "" then .ok id else .error .noId
              | _ => .error .noId
            | _ => .error .noId

/-- The `id` of a search result, as the loop reads it. -/
def resultId : JVal → String
  | .obj m => stringField m "id"
  | _ => ""

/-- A search result whose `uniqueName` equals the non-empty `uniqueName` of the
hint ignoring case, in the words of the specification. -/
def uniqueNameMatches (hint : IdentityHint) : JVal → Bool
  | .obj m => hint.UniqueName != "" && equalFold (stringField m "uniqueName") hint.UniqueName
  | _ => false

/-- A search result with a non-empty id whose `displayName` equals the non-empty
`displayName` of the hint ignoring case, in the words of the specification. -/
def displayNameMatches (hint : IdentityHint) : JVal → Bool
  | .obj m =>
    stringField m "id" != "" && hint.DisplayName != "" &&
      equalFold (stringField m "displayName") hint.DisplayName
  | _ => false

/-- The text in which every maximal run of characters of the class `p` is
replaced by the single character `r`, in the words of the specification: a
character outside the class is kept, and a character of the class together
with all characters of the class that follow it directly becomes one `r`. -/
def replaceRuns (p : Char → Bool) (r : Char) : List Char → List Char
  | [] => []
  | c :: rest =>
    if p c then r :: replaceRuns p r (rest.dropWhile p) else c :: replaceRuns p r rest
termination_by l => l.length
decreasing_by
  · simp only [List.length_cons]
    exact Nat.lt_succ_of_le (List.dropWhile_sublist p).length_le
  · simp only [List.length_cons]
    exact Nat.lt_succ_self _

/-! ## Sample data -/

/-- A name table given by its entries. -/
def tableOf {α β : Type} [BEq α] (entries : List (α × β)) : α → Option β :=
  fun k => entries.lookup k

/-- A policy scoped to one repository of the source project and, project-wide,
to every other one. -/
def samplePolicy : JObj :=
  [("id", .num 17),
   ("type", .obj [("displayName", .str "Minimum number of reviewers")]),
   ("settings", .obj
      [("minimumApproverCount", .num 2),
       ("scope", .arr
          [.obj [("repositoryId", .str " SRC-1 "), ("refName", .str "refs/heads/main"),
                 ("matchKind", .str "Exact")],
           .obj [("repositoryId", .null), ("refName", .str "refs/heads/release"),
                 ("matchKind", .str "Prefix")]])])]

/-- The source listing: repository id to name. -/
def sampleSourceRepos : String → Option String :=
  tableOf [("src-1", "Repo-A")]

/-- The target listing: lower-cased repository name to id. -/
def sampleTargetRepos : String → Option String :=
  tableOf [("repo-a", "tgt-9")]

/-- The sample policy with a required reviewer and no backup hints. -/
def reviewerPolicyNoHints : JObj :=
  [("type", .obj [("displayName", .str "Required reviewers")]),
   ("settings", .obj
      [("requiredReviewerIds", .arr [.str "src-user-1"]),
       ("scope", .arr [.obj [("repositoryId", .null), ("refName", .str "refs/heads/main"),
                            ("matchKind", .str "Exact")]])])]

/-- The hints of a backup that recorded two reviewers. -/
def sampleHints : JVal :=
  .obj [("identities", .obj
    [("src-user-1", .obj [("uniqueName", .str "ann@example.org"), ("displayName", .str "Ann")]),
     ("src-user-2", .obj [("uniqueName", .str "bob@example.org"), ("displayName", .str "Bob")])])]

/-- A required-reviewers policy with hints for both of its reviewers. -/
def reviewerPolicy : JObj :=
  [("type", .obj [("displayName", .str "Required reviewers")]),
   ("settings", .obj
      [("requiredReviewerIds", .arr [.str " src-user-2 ", .str "src-user-1", .str "src-user-3"])]),
   ("_backupHints", sampleHints)]

/-- A document with hints and no `settings`. -/
def hintsOnlyPolicy : JObj :=
  [("type", .obj [("displayName", .str "Required reviewers")]),
   ("_backupHints", sampleHints)]

/-- A policy with hints whose `requiredReviewerIds` is the empty list. -/
def emptyReviewersPolicy : JObj :=
  [("type", .obj [("displayName", .str "Required reviewers")]),
   ("settings", .obj [("requiredReviewerIds", .arr [])]),
   ("_backupHints", sampleHints)]

/-- A target organization that knows Ann only. -/
def findAnn (h : IdentityHint) : Option String :=
  if h.UniqueName = "ann@example.org" then some "tgt-ann" else none

/-- A target organization that knows nobody. -/
def findNobody (_ : IdentityHint) : Option String :=
  none

/-- A classic build definition with two variable groups and one step that
names a service connection. -/
def sampleBuildDefinition : JObj :=
  [("name", .str "ci"),
   ("variableGroups", .arr [.num 5, .obj [("id", .num 7), ("name", .str "Shared")]]),
   ("process", .obj [("phases", .arr [.obj [("steps", .arr
      [.obj [("task", .obj [("id", .str "TG-1")]),
             ("inputs", .obj [("ConnectedServiceName", .str "EP-1"),
                              ("script", .str "EP-1"),
                              ("azureSubscription", .str "ep-unknown")])]])]])])]

/-- Source service connections: lower-cased id to name. -/
def sampleSourceEndpoints : String → Option String :=
  tableOf [("ep-1", "Azure Prod")]

/-- Target service connections: name to id. -/
def sampleTargetEndpoints : String → Option String :=
  tableOf [("Azure Prod", "ep-900")]

/-- Source variable groups: id to name. Group 5 is not in the listing. -/
def sampleSourceVarGroups : Int → Option String :=
  tableOf [(7, "Shared"), (8, "Legacy")]

/-- Target variable groups: lower-cased name to id. -/
def sampleTargetVarGroups : String → Option Int :=
  tableOf [("shared", 70)]

/-- Source task groups: lower-cased id to name. -/
def sampleSourceTaskGroups : String → Option String :=
  tableOf [("tg-1", "Deploy")]

/-- Target task groups: name to id. -/
def sampleTargetTaskGroups : String → Option String :=
  tableOf [("Deploy", "tg-500")]

/-- A release definition with variable groups on the definition and on its
stage. -/
def sampleReleaseDefinition : JObj :=
  [("name", .str "deploy"),
   ("variableGroups", .arr [.num 5, .num 7, .num 0, .obj [("id", .num 8)]]),
   ("environments", .arr
      [.obj [("name", .str "prod"),
             ("variableGroups", .arr [.num 8, .num 7]),
             ("deployPhases", .arr [.obj [("workflowTasks", .arr
                [.obj [("taskId", .str "TG-1"),
                       ("inputs", .obj [("ConnectedServiceName", .str "EP-1")])]])]])]])]

/-- A policy of the source project scoped to the repository `src-1`. -/
def repoScopedPolicy : JObj :=
  [("id", .num 17),
   ("type", .obj [("displayName", .str "Minimum number of reviewers")]),
   ("isEnabled", .bool true),
   ("settings", .obj
      [("minimumApproverCount", .num 2),
       ("scope", .arr
          [.obj [("repositoryId", .str "src-1"), ("refName", .str "refs/heads/main"),
                 ("matchKind", .str "Exact")]])])]

/-- The same policy, project-wide. -/
def projectWidePolicy : JObj :=
  [("id", .num 18),
   ("type", .obj [("displayName", .str "Minimum number of reviewers")]),
   ("isEnabled", .bool true),
   ("settings", .obj
      [("minimumApproverCount", .num 2),
       ("scope", .arr
          [.obj [("repositoryId", .null), ("refName", .str "refs/heads/main"),
                 ("matchKind", .str "Exact")]])])]

/-- The repositories of the source project. -/
def sourceRepoList : List Repo :=
  [{ Id := "src-1", Name := "Repo-A" }, { Id := "src-2", Name := "Repo-B" }]

/-- The repositories of the target project: `Repo-A` exists under another id. -/
def targetRepoList : List Repo :=
  [{ Id := "tgt-9", Name := "Repo-A" }]

/-- A restore of the one-snapshot backup of `policy` with selection `all`
against a target that lists the policies `targetExisting`; every creation
succeeds with the id `newId`. -/
def restoreOnePolicy (policy : JObj) (targetExisting : List JObj) (newId : Int) :
    List (String × PolicyOutcome) × Option RunError :=
  RestoreBranchPoliciesFromBackup "P"
    [SnapshotFile.mk "17_Minimum_number_of_reviewers.json" (some policy)]
    ["all"] targetRepoList sourceRepoList targetExisting
    findNobody (fun _ => none) (fun _ => some newId)

/-- The target's policies after a first restore of `policy` into an empty
target. -/
def targetAfterFirstRestore (policy : JObj) : List JObj :=
  [] ++ createdPolicies (restoreOnePolicy policy [] 101).1

/-- A backup of two task groups. -/
def taskGroupBackup : List SnapshotFile :=
  [SnapshotFile.mk "Build.json" (some [("id", .str "tg-1"), ("name", .str "Build"),
      ("tasks", .arr [])]),
   SnapshotFile.mk "Deploy.json" (some [("id", .str "tg-2"), ("name", .str "Deploy"),
      ("tasks", .arr [])])]

/-- A target that rejects the task group `Build` and accepts any other. -/
def createTaskGroupExceptBuild (body : JObj) : Option String :=
  if stringField body "name" == "Build" then none else some "tg-new"

/-- A backup of two variable groups. -/
def variableGroupBackup : List VariableGroupFile :=
  [VariableGroupFile.mk "Build.json"
      (some { Id := 5, Name := "Build", Variables := [("a", { Value := "1", IsSecret := false })] }),
   VariableGroupFile.mk "Deploy.json"
      (some { Id := 7, Name := "Deploy", Variables := [("b", { Value := "2", IsSecret := false })] })]

/-- A target that rejects the variable group `Build` and accepts any other. -/
def createVariableGroupExceptBuild (name : String) (_ : List (String × Variable)) : Option Int :=
  if name == "Build" then none else some 70

/-- A backup of two project-wide policies that differ in their branch. -/
def policyBackup : List SnapshotFile :=
  [SnapshotFile.mk "17_Minimum_number_of_reviewers.json" (some projectWidePolicy),
   SnapshotFile.mk "18_Minimum_number_of_reviewers.json" (some
     [("id", .num 18),
      ("type", .obj [("displayName", .str "Minimum number of reviewers")]),
      ("settings", .obj
        [("minimumApproverCount", .num 1),
         ("scope", .arr
            [.obj [("repositoryId", .null), ("refName", .str "refs/heads/release"),
                   ("matchKind", .str "Exact")]])])])]

/-- A target that rejects a policy for `refs/heads/main` and accepts any other. -/
def createPolicyExceptMain (payload : JObj) : Option Int :=
  if PolicySignature payload ==
      "Minimum number of reviewers||null|refs/heads/main|Exact||min=2" then none
  else some 201

/-- A backup directory of wikis with one snapshot and one stray file. -/
def wikiBackup : List SnapshotFile :=
  [SnapshotFile.mk "w1_Docs.json" (some [("id", .str "w1"), ("name", .str "Docs"),
      ("type", .str "codeWiki"), ("repositoryId", .str "SRC-1"), ("mappedPath", .str "/docs")]),
   SnapshotFile.mk "notes.txt" none]

/-- A target in which every call of the wiki restore succeeds. -/
def wikiCallsOk : WikiCalls :=
  { projectId := some "proj-9"
    create := fun payload => some (decodeWiki (jset "id" (.str "w9") payload))
    mirrorDirExists := fun _ => true
    remoteURL := fun _ => some "https://example.org/wiki.git"
    mirrorPush := fun _ _ => true }

/-- A build definition that runs on the source queue `Old`. -/
def queuedBuildDefinition : JObj :=
  [("id", .num 12), ("revision", .num 3), ("name", .str "ci"),
   ("repository", .obj [("id", .str "src-1"), ("name", .str "Repo-A")]),
   ("queue", .obj [("id", .num 3), ("name", .str "Old")])]

/-- A rename table that sends the queue `Old` to `Gone`. -/
def renameOldToGone : String → Option String :=
  tableOf [("Old", "Gone")]

/-- A rename table that sends the queue `Old` to `New`. -/
def renameOldToNew : String → Option String :=
  tableOf [("Old", "New")]

/-- The queues of the target: `Old`, `New` and `Default`; there is no `Gone`. -/
def sampleTargetQueues : String → Option Int :=
  tableOf [("Old", 5), ("New", 6), ("Default", 9)]

/-- A release definition whose one deploy phase runs on the source queue 3. -/
def queuedReleaseDefinition : JObj :=
  [("name", .str "deploy"),
   ("environments", .arr
      [.obj [("name", .str "prod"),
             ("deployPhases", .arr
                [.obj [("deploymentInput", .obj [("queueId", .num 3)])]])]])]

/-- The queues of the source project: id to name. -/
def sampleSourceQueues : Int → Option String :=
  tableOf [(3, "Old")]

/-- A source listing with the service connection (or task group) `Prod`. -/
def sourceListingProd : List JObj :=
  [[("id", .str "EP-1"), ("name", .str "Prod")]]

/-- A target listing in which the same object is named `prod`. -/
def targetListingProd : List JObj :=
  [[("id", .str "ep-9"), ("name", .str "prod")]]

/-- A YAML pipeline of the repository `Repo`. -/
def yamlPipelineBackup : List SnapshotFile :=
  [SnapshotFile.mk "ci.json" (some [("id", .num 4), ("name", .str "ci"),
      ("configuration", .obj [("type", .str "yaml"), ("path", .str "/azure-pipelines.yml"),
        ("repository", .obj [("id", .str "r1"), ("name", .str "Repo"),
          ("type", .str "azureReposGit")])])])]

/-- A target project whose only repository is named `repo`. -/
def targetRepoListLower : List Repo :=
  [{ Id := "r9", Name := "repo" }]

/-- A feed named `CI`. -/
def feedCI : Feed :=
  Feed.mk "f1" "CI" "CI" "" true false false none []

/-- A feed named `ci`. -/
def feedLowerCI : Feed :=
  Feed.mk "f2" "ci" "ci" "" true false false none []

/-- A backup directory of feeds with the snapshots of `CI` and of `ci`. -/
def feedBackup : List FeedFile :=
  [FeedFile.mk "CI.json" (some feedCI), FeedFile.mk "ci.json" (some feedLowerCI)]

/-- A target in which the creation of a feed succeeds and returns the feed of
the name it was given. -/
def createFeedOk (payload : JObj) : Option Feed :=
  some (Feed.mk "new" (stringField payload "name") (stringField payload "name") "" true false
    false none [])

/-- A target listing of named objects that holds one object, `CI`. -/
def targetListingCI : List JObj :=
  [[("id", .str "x1"), ("name", .str "CI")]]

/-- A variable group as the source API returns it. -/
def variableGroupDocument : JObj :=
  [("id", .num 5), ("name", .str "Shared"), ("type", .str "Vsts"),
   ("isShared", .bool false),
   ("createdBy", .obj [("displayName", .str "Ann")]),
   ("variables", .obj [("a", .obj [("value", .str "1")]),
     ("b", .obj [("value", .null), ("isSecret", .bool true)])])]

/-- A feed as the source API returns it. -/
def feedDocument : JObj :=
  [("id", .str "f1"), ("name", .str "packages"), ("description", .str "Team feed"),
   ("fullyQualifiedName", .str "packages"), ("upstreamEnabled", .bool true),
   ("badgesEnabled", .bool true)]

/-- A service connection as the backup holds it. -/
def serviceConnectionDocument : JObj :=
  [("id", .str "EP-1"), ("name", .str "Prod"), ("type", .str "azurerm"),
   ("owner", .str "library"), ("description", .str "production")]

/-- A release definition as the backup holds it. -/
def releaseDocument : JObj :=
  [("id", .num 8), ("revision", .num 2), ("name", .str "deploy")]

/-- The tables and collaborators of a build-definition restore in which every
reference resolves and every creation succeeds. -/
def sampleBuildEnv : BuildRestoreEnv :=
  { targetRepoIDByName := targetRepoIDByName targetRepoList
    targetQueueIDByName := sampleTargetQueues
    queueMap := tableOf []
    defaultQueue := ""
    srcEndpointIDToName := sampleSourceEndpoints
    tgtEndpointNameToID := sampleTargetEndpoints
    srcVarGroupIDToName := sampleSourceVarGroups
    tgtVarGroupNameToID := sampleTargetVarGroups
    srcTaskGroupIDToName := sampleSourceTaskGroups
    tgtTaskGroupNameToID := sampleTargetTaskGroups
    getRepoNameByID := fun _ => none
    post := fun _ => some 40 }

/-- The tables of `sampleBuildEnv` with the rename table `queueMap` and the
default queue `defaultQueue`; the creation call answers with the queue id of
the body it is handed. -/
def queueBuildEnv (queueMap : String → Option String) (defaultQueue : String) :
    BuildRestoreEnv :=
  { sampleBuildEnv with
    queueMap := queueMap
    defaultQueue := defaultQueue
    post := fun body =>
      match buildQueueId body with
      | some (.int q) => some q
      | _ => none }

/-- A backup directory of build definitions with one snapshot. -/
def buildBackup : List SnapshotFile :=
  [SnapshotFile.mk "ci.json" (some queuedBuildDefinition)]

/-- A release definition with two stages: the phases of the first run on the
source queues 3 and 4, the phase of the second has no `deploymentInput`. -/
def twoQueueReleaseDefinition : JObj :=
  [("name", .str "deploy"),
   ("environments", .arr
      [.obj [("name", .str "test"),
             ("deployPhases", .arr
                [.obj [("deploymentInput", .obj [("queueId", .num 3)])],
                 .obj [("deploymentInput", .obj [("queueId", .num 4)])]])],
       .obj [("name", .str "prod"),
             ("deployPhases", .arr [.obj [("name", .str "agent job")]])]])]

/-- The release definition `twoQueueReleaseDefinition` with every phase on the
queue 6. -/
def twoQueueReleaseDefinitionOnNew : JObj :=
  [("name", .str "deploy"),
   ("environments", .arr
      [.obj [("name", .str "test"),
             ("deployPhases", .arr
                [.obj [("deploymentInput", .obj [("queueId", .int 6)])],
                 .obj [("deploymentInput", .obj [("queueId", .int 6)])]])],
       .obj [("name", .str "prod"),
             ("deployPhases", .arr
                [.obj [("name", .str "agent job"),
                       ("deploymentInput", .obj [("queueId", .int 6)])]])]])]

/-- A build-validation policy for the build definition 12, which the backup
recorded under the name `CI`. -/
def buildValidationPolicy : JObj :=
  [("id", .num 30),
   ("type", .obj [("displayName", .str "Build")]),
   ("settings", .obj
      [("buildDefinitionId", .num 12),
       ("scope", .arr
          [.obj [("repositoryId", .null), ("refName", .str "refs/heads/main"),
                 ("matchKind", .str "Exact")]])]),
   ("_backupHints", .obj [("buildDefinitions", .obj [("12", .str "CI")])])]

/-- A target project whose build definition `CI` has the id 40. -/
def findBuildCI (name : String) : Option Int :=
  if name = "CI" then some 40 else none

/-- The scope entry of the branch `ref` of every repository. -/
def branchScope (ref : String) : JVal :=
  .obj [("repositoryId", .null), ("refName", .str ref), ("matchKind", .str "Exact")]

/-- A policy that covers the branches `main` and `release`, in this order. -/
def twoBranchPolicy : JObj :=
  [("id", .num 21),
   ("type", .obj [("displayName", .str "Minimum number of reviewers")]),
   ("settings", .obj
      [("minimumApproverCount", .num 2),
       ("scope", .arr [branchScope "refs/heads/main", branchScope "refs/heads/release"])])]

/-- A required-reviewers policy for `main` with the reviewers `reviewers`. -/
def requiredReviewersPolicy (reviewers : List JVal) : JObj :=
  [("type", .obj [("displayName", .str "Required reviewers")]),
   ("settings", .obj
      [("requiredReviewerIds", .arr reviewers),
       ("scope", .arr [branchScope "refs/heads/main"])])]

/-- A build-validation policy for `main` that runs the build definition `id`. -/
def buildPolicy (id : Int) : JObj :=
  [("type", .obj [("displayName", .str "Build")]),
   ("settings", .obj
      [("buildDefinitionId", .num (id : ℚ)),
       ("scope", .arr [branchScope "refs/heads/main"])])]

/-- A minimum-reviewers policy for `main` with the given count and votes. -/
def minimumReviewersPolicy (count : Int) (allowDownvotes : Bool) : JObj :=
  [("type", .obj [("displayName", .str "Minimum number of reviewers")]),
   ("settings", .obj
      [("minimumApproverCount", .num (count : ℚ)),
       ("allowDownvotes", .bool allowDownvotes),
       ("scope", .arr [branchScope "refs/heads/main"])])]

/-- The wiki `Docs` with the id `w1`, as the source project lists it. -/
def docsWiki : Wiki :=
  decodeWiki [("id", .str "w1"), ("name", .str "Docs"), ("type", .str "codeWiki"),
    ("repositoryId", .str "SRC-1"), ("mappedPath", .str "/docs")]

/-- A backup directory with the snapshot of the policy 18 under the name that
`policyFilename` gives it. -/
def policyBackupById : List SnapshotFile :=
  [SnapshotFile.mk (policyFilename projectWidePolicy) (some projectWidePolicy)]

/-- A restore of `policyBackupById` with the selection `selected` into an empty
target: the names of the snapshots it processed. -/
def restoredPolicyFiles (selected : List String) : List String :=
  (RestoreBranchPoliciesFromBackup "P" policyBackupById selected targetRepoList sourceRepoList
    [] findNobody (fun _ => none) (fun _ => some 201)).1.map Prod.fst

/-- A restore of `wikiBackup` with the selection `selected` into an empty
target: the names of the snapshots it processed. -/
def restoredWikiFiles (selected : List String) : List String :=
  (RestoreWikisFromBackup wikiBackup selected [] sourceRepoList targetRepoList
    wikiCallsOk).1.map Prod.fst

/-- Two search results: the first has the display name `Ann`, the second the
unique name `ANN@example.org`. -/
def identityResults : List JVal :=
  [.obj [("id", .str "t-1"), ("uniqueName", .str "other@example.org"),
         ("displayName", .str "Ann")],
   .obj [("id", .str "t-2"), ("uniqueName", .str "ANN@example.org"),
         ("displayName", .str "A. N.")]]

/-- An identity search that answers every query with `identityResults`. -/
def searchIdentities (_ : String) : Option (List JVal) :=
  some identityResults

/-- Source variable groups with a name that has a capital letter outside
ASCII. -/
def accentSourceVarGroups : Int → Option String :=
  tableOf [(7, "Shared"), (8, "Legacy"), (9, "École")]

/-- Target variable groups, keyed by lower-cased name: `Legacy` is missing. -/
def accentTargetVarGroups : String → Option Int :=
  tableOf [("shared", 70), ("école", 90)]

/-- A release definition whose variable groups are given as numbers, as an
object, as an unknown id, as a string and as zero. -/
def mixedVarGroupsRelease : JObj :=
  [("name", .str "deploy"),
   ("variableGroups", .arr
      [.num 9, .obj [("id", .num 7)], .num 8, .num 5, .str "7", .num 0]),
   ("environments", .arr
      [.obj [("name", .str "prod"), ("variableGroups", .arr [.num 8, .num 7, .num 9])]])]

/-- A source project with the repository `ÉCOLE`. -/
def accentSourceRepoList : List Repo :=
  [{ Id := "SRC-É", Name := "ÉCOLE" }]

/-- A target project with the repositories `École` and `école`: lower-cased,
the two names are one key, and the later repository holds it. -/
def accentTargetRepoList : List Repo :=
  [{ Id := "tgt-A", Name := "École" }, { Id := "tgt-B", Name := "école" }]

/-- A policy scoped to the repository `ÉCOLE` of the source project. -/
def accentPolicy : JObj :=
  [("id", .num 19),
   ("type", .obj [("displayName", .str "Minimum number of reviewers")]),
   ("settings", .obj
      [("minimumApproverCount", .num 1),
       ("scope", .arr
          [.obj [("repositoryId", .str "src-É"), ("refName", .str "refs/heads/main"),
                 ("matchKind", .str "Exact")]])])]

/-- A build definition with one step whose input key starts with the Kelvin
sign, a capital letter outside ASCII whose lower case is `k`, and whose value has
a capital letter outside ASCII. -/
def accentBuildDefinition : JObj :=
  [("name", .str "ci"),
   ("process", .obj [("phases", .arr [.obj [("steps", .arr
      [.obj [("inputs", .obj [("\u212AubernetesServiceEndpoint", .str "EP-É")])]])]])])]

/-- Source service connections with an id that has a letter outside ASCII. -/
def accentSourceEndpoints : String → Option String :=
  tableOf [("ep-é", "Cluster")]

/-- Target service connections: `Cluster` has the id `ep-901`. -/
def accentTargetEndpoints : String → Option String :=
  tableOf [("Cluster", "ep-901")]

/-- Two search results: the second has the display name `JOSÉ`. -/
def accentIdentityResults : List JVal :=
  [.obj [("id", .str "t-1"), ("uniqueName", .str "other@example.org"),
         ("displayName", .str "Other")],
   .obj [("id", .str "t-2"), ("uniqueName", .str "jose@example.org"),
         ("displayName", .str "JOSÉ")]]

/-! ## Lemmas on maps -/

theorem lookup_jset_ne (k k0 : String) (v : JVal) (m : JObj) (h : k ≠ k0) :
    (jset k0 v m).lookup k = m.lookup k := by
  induction m with
  | nil =>
    have : (k == k0) = false := by simpa using h
    simp [jset, List.lookup, this]
  | cons kv rest ih =>
    obtain ⟨k1, v1⟩ := kv
    by_cases h1 : k1 = k0
    · subst h1
      have : (k == k1) = false := by simpa using h
      simp [jset, List.lookup, this]
    · have h1b : (k1 == k0) = false := by simpa using h1
      simp only [jset, h1b, List.lookup]
      rw [ih]

theorem lookup_jset_eq (k : String) (v : JVal) (m : JObj) :
    (jset k v m).lookup k = some v := by
  induction m with
  | nil => simp [jset, List.lookup]
  | cons kv rest ih =>
    obtain ⟨k1, v1⟩ := kv
    by_cases h1 : k1 = k
    · subst h1
      simp [jset, List.lookup]
    · have h1b : (k1 == k) = false := by simpa using h1
      have h1c : (k == k1) = false := by simpa using (Ne.symm h1)
      simp [jset, h1b, List.lookup, h1c, ih]

/-! ## Lemmas on the scope loop -/

theorem remapScopeEntries_cons_obj (p : String) (src tgt : String → Option String)
    (scope : JObj) (rest : List JVal) :
    remapScopeEntries p src tgt (.obj scope :: rest) =
      match scope.lookup "repositoryId" with
      | some (.str raw) =>
        if trimSpace raw == "" then
          (.obj scope :: (remapScopeEntries p src tgt rest).1, (remapScopeEntries p src tgt rest).2)
        else
          if (src (toLower (trimSpace raw))).getD "" == "" then
            (.obj scope :: rest, some (.sourceRepoNotFound (toLower (trimSpace raw)) p))
          else
            if (tgt (toLower ((src (toLower (trimSpace raw))).getD ""))).getD "" == "" then
              (.obj scope :: rest,
                some (.targetRepoNotFound ((src (toLower (trimSpace raw))).getD "")))
            else
              (.obj (jset "repositoryId"
                  (.str ((tgt (toLower ((src (toLower (trimSpace raw))).getD ""))).getD "")) scope)
                :: (remapScopeEntries p src tgt rest).1, (remapScopeEntries p src tgt rest).2)
      | _ => (.obj scope :: (remapScopeEntries p src tgt rest).1,
          (remapScopeEntries p src tgt rest).2) := by
  rw [remapScopeEntries]

theorem remapScopeEntries_cons_other (p : String) (src tgt : String → Option String)
    (e : JVal) (rest : List JVal) (h : ∀ m, e ≠ .obj m) :
    remapScopeEntries p src tgt (e :: rest) =
      (e :: (remapScopeEntries p src tgt rest).1, (remapScopeEntries p src tgt rest).2) := by
  cases e with
  | obj m => exact absurd rfl (h m)
  | _ =>
    rw [remapScopeEntries]
    intro m hm
    exact h m hm

/-- One step of the scope loop on an arbitrary entry: either it stops with an
error and leaves the list as it is, or it rewrites the entry and goes on. -/
theorem remapScopeEntries_cons (p : String) (src tgt : String → Option String)
    (e : JVal) (rest : List JVal) :
    (scopeEntryFails src tgt e ∧
      (remapScopeEntries p src tgt (e :: rest)).1 = e :: rest ∧
      (remapScopeEntries p src tgt (e :: rest)).2.isSome = true) ∨
    (¬ scopeEntryFails src tgt e ∧
      remapScopeEntries p src tgt (e :: rest) =
        (remapScopeEntry src tgt e :: (remapScopeEntries p src tgt rest).1,
          (remapScopeEntries p src tgt rest).2)) := by
  by_cases hobj : ∃ m, e = .obj m
  · obtain ⟨scope, rfl⟩ := hobj
    rw [remapScopeEntries_cons_obj]
    cases hl : scope.lookup "repositoryId" with
    | none =>
      right
      refine ⟨?_, ?_⟩
      · rintro ⟨s, hs, -⟩
        simp [repositoryIdOf, hl] at hs
      · simp [remapScopeEntry, hl]
    | some v =>
      cases v with
      | str raw =>
        by_cases hb : trimSpace raw = ""
        · right
          refine ⟨?_, ?_⟩
          · rintro ⟨s, hs, hne, -⟩
            simp [repositoryIdOf, hl] at hs
            subst hs
            exact hne hb
          · simp [remapScopeEntry, hl, hb]
        · by_cases h1 : (src (toLower (trimSpace raw))).getD "" = ""
          · left
            refine ⟨⟨raw, ?_, hb, Or.inl ?_⟩, ?_, ?_⟩
            · simp [repositoryIdOf, hl]
            · simpa [resolveRepoName] using h1
            · simp [hb, h1]
            · simp [hb, h1]
          · by_cases h2 :
                (tgt (toLower ((src (toLower (trimSpace raw))).getD ""))).getD "" = ""
            · left
              refine ⟨⟨raw, ?_, hb, Or.inr ?_⟩, ?_, ?_⟩
              · simp [repositoryIdOf, hl]
              · simpa [resolveRepoID] using h2
              · simp [hb, h1, h2]
              · simp [hb, h1, h2]
            · right
              refine ⟨?_, ?_⟩
              · rintro ⟨s, hs, -, hor⟩
                simp [repositoryIdOf, hl] at hs
                subst hs
                rcases hor with h | h
                · exact h1 (by simpa [resolveRepoName] using h)
                · exact h2 (by simpa [resolveRepoID] using h)
              · simp [remapScopeEntry, hl, hb, h1, h2, resolveRepoID]
      | _ =>
        right
        refine ⟨?_, ?_⟩
        · rintro ⟨s, hs, -⟩
          simp [repositoryIdOf, hl] at hs
        · simp [remapScopeEntry, hl]
  · have hno : ∀ m, e ≠ .obj m := fun m hm => hobj ⟨m, hm⟩
    right
    refine ⟨?_, ?_⟩
    · rintro ⟨s, hs, -⟩
      cases e with
      | obj m => exact hno m rfl
      | _ => simp [repositoryIdOf] at hs
    · rw [remapScopeEntries_cons_other p src tgt e rest hno]
      cases e with
      | obj m => exact absurd rfl (hno m)
      | _ => simp [remapScopeEntry]

theorem remapScopeEntries_error_iff (p : String) (src tgt : String → Option String)
    (l : List JVal) :
    (remapScopeEntries p src tgt l).2.isSome = true ↔ ∃ e ∈ l, scopeEntryFails src tgt e := by
  induction l with
  | nil => simp [remapScopeEntries]
  | cons e rest ih =>
    rcases remapScopeEntries_cons p src tgt e rest with ⟨hf, -, hsome⟩ | ⟨hnf, heq⟩
    · constructor
      · intro _
        exact ⟨e, List.mem_cons_self _ _, hf⟩
      · intro _
        exact hsome
    · rw [heq]
      simp only [List.mem_cons, exists_eq_or_imp]
      rw [ih]
      constructor
      · intro h
        exact Or.inr h
      · rintro (h | h)
        · exact absurd h hnf
        · exact h

theorem remapScopeEntries_ok_get (p : String) (src tgt : String → Option String)
    (l : List JVal) (hok : (remapScopeEntries p src tgt l).2 = none) (i : Nat) (e : JVal)
    (he : l[i]? = some e) :
    (remapScopeEntries p src tgt l).1[i]? = some (remapScopeEntry src tgt e) := by
  induction l generalizing i with
  | nil => simp at he
  | cons a rest ih =>
    rcases remapScopeEntries_cons p src tgt a rest with ⟨-, -, hsome⟩ | ⟨-, heq⟩
    · rw [hok] at hsome
      simp at hsome
    · rw [heq] at hok ⊢
      cases i with
      | zero =>
        simp only [List.getElem?_cons_zero, Option.some.injEq] at he ⊢
        rw [he]
      | succ j =>
        simp only [List.getElem?_cons_succ] at he ⊢
        exact ih hok j he

theorem remapScopeEntry_null (src tgt : String → Option String) (e : JVal)
    (h : repositoryIdOf e = .null) : remapScopeEntry src tgt e = e := by
  cases e with
  | obj m =>
    cases hl : m.lookup "repositoryId" with
    | none => simp [remapScopeEntry, hl]
    | some v =>
      cases v with
      | str raw => simp [repositoryIdOf, hl] at h
      | _ => simp [remapScopeEntry, hl]
  | _ => simp [remapScopeEntry]

theorem remapScopeEntries_null_get (p : String) (src tgt : String → Option String)
    (l : List JVal) (i : Nat) (e : JVal) (he : l[i]? = some e)
    (hnull : repositoryIdOf e = .null) :
    (remapScopeEntries p src tgt l).1[i]? = some e := by
  induction l generalizing i with
  | nil => simp at he
  | cons a rest ih =>
    rcases remapScopeEntries_cons p src tgt a rest with ⟨-, hsame, -⟩ | ⟨-, heq⟩
    · rw [hsame]
      exact he
    · rw [heq]
      cases i with
      | zero =>
        simp only [List.getElem?_cons_zero, Option.some.injEq] at he ⊢
        subst he
        exact remapScopeEntry_null src tgt a hnull
      | succ j =>
        simp only [List.getElem?_cons_succ] at he ⊢
        exact ih j he

theorem repositoryIdOf_remapScopeEntry (src tgt : String → Option String) (e : JVal)
    (s : String) (hs : repositoryIdOf e = .str s) (hb : trimSpace s ≠ "") :
    repositoryIdOf (remapScopeEntry src tgt e) = .str (resolveRepoID src tgt s) := by
  cases e with
  | obj m =>
    cases hl : m.lookup "repositoryId" with
    | none => simp [repositoryIdOf, hl] at hs
    | some v =>
      cases v with
      | str raw =>
        simp [repositoryIdOf, hl] at hs
        subst hs
        simp [remapScopeEntry, hl, hb, repositoryIdOf, lookup_jset_eq]
      | _ => simp [repositoryIdOf, hl] at hs
  | _ => simp [repositoryIdOf] at hs

/-- The scope entries of the payload that `RemapPolicyScopeRepoIDs` leaves are
the entries that its loop leaves. -/
theorem policyScope_remap (payload : JObj) (p : String) (src tgt : String → Option String) :
    policyScope (RemapPolicyScopeRepoIDs payload p src tgt).1 =
      (remapScopeEntries p src tgt (policyScope payload)).1 ∧
    (RemapPolicyScopeRepoIDs payload p src tgt).2 =
      (remapScopeEntries p src tgt (policyScope payload)).2 := by
  unfold RemapPolicyScopeRepoIDs
  cases h1 : payload.lookup "settings" with
  | none => simp [policyScope, h1, remapScopeEntries]
  | some v =>
    cases v with
    | obj settings =>
      cases h2 : settings.lookup "scope" with
      | none => simp [policyScope, h1, h2, remapScopeEntries]
      | some w =>
        cases w with
        | arr xs =>
          cases xs with
          | nil => simp [policyScope, h1, h2, remapScopeEntries]
          | cons a rest =>
            simp [policyScope, h1, h2, lookup_jset_eq]
        | _ => simp [policyScope, h1, h2, remapScopeEntries]
    | _ => simp [policyScope, h1, remapScopeEntries]

/-! ## Lemmas on reviewer identities -/

theorem lookup_jdel_ne (k k0 : String) (m : JObj) (h : k ≠ k0) :
    (jdel k0 m).lookup k = m.lookup k := by
  induction m with
  | nil => simp [jdel]
  | cons kv rest ih =>
    obtain ⟨k1, v1⟩ := kv
    by_cases h1 : k1 = k0
    · subst h1
      have hk : (k == k1) = false := by simpa using h
      have : jdel k1 ((k1, v1) :: rest) = jdel k1 rest := by simp [jdel]
      rw [this, ih]
      simp [List.lookup, hk]
    · have : jdel k0 ((k1, v1) :: rest) = (k1, v1) :: jdel k0 rest := by simp [jdel, h1]
      rw [this]
      simp only [List.lookup]
      rw [ih]

theorem mem_of_lookup_eq_some {β : Type} (l : List (String × β)) (k : String) (t : β)
    (h : l.lookup k = some t) : (k, t) ∈ l := by
  induction l with
  | nil => simp at h
  | cons kv rest ih =>
    obtain ⟨k1, v1⟩ := kv
    by_cases hk : k = k1
    · subst hk
      simp [List.lookup] at h
      subst h
      exact List.mem_cons_self _ _
    · have hkb : (k == k1) = false := by simpa using hk
      simp only [List.lookup, hkb] at h
      exact List.mem_cons_of_mem _ (ih h)

theorem trimSpace_empty : trimSpace "" = "" := by decide

theorem buildIdMap_mem (find : IdentityHint → Option String) (ids : List (String × IdentityHint))
    (k t : String) (h : (k, t) ∈ buildIdMap find ids) :
    ∃ hint, (k, hint) ∈ ids ∧ find hint = some t ∧ trimSpace t ≠ "" := by
  induction ids with
  | nil => simp [buildIdMap] at h
  | cons kv rest ih =>
    obtain ⟨k1, h1⟩ := kv
    simp only [buildIdMap] at h
    cases hf : find h1 with
    | none =>
      rw [hf] at h
      obtain ⟨hint, hm, hr⟩ := ih h
      exact ⟨hint, List.mem_cons_of_mem _ hm, hr⟩
    | some tid =>
      rw [hf] at h
      by_cases hb : trimSpace tid = ""
      · simp only [hb, beq_self_eq_true, if_true] at h
        obtain ⟨hint, hm, hr⟩ := ih h
        exact ⟨hint, List.mem_cons_of_mem _ hm, hr⟩
      · have hbb : (trimSpace tid == "") = false := by simpa using hb
        simp only [hbb, Bool.false_eq_true, if_false, List.mem_cons, Prod.mk.injEq] at h
        rcases h with ⟨rfl, rfl⟩ | h
        · exact ⟨h1, List.mem_cons_self _ _, hf, hb⟩
        · obtain ⟨hint, hm, hr⟩ := ih h
          exact ⟨hint, List.mem_cons_of_mem _ hm, hr⟩

theorem buildIdMap_lookup_ne_empty (find : IdentityHint → Option String)
    (ids : List (String × IdentityHint)) (k t : String)
    (h : (buildIdMap find ids).lookup k = some t) : t ≠ "" := by
  obtain ⟨_, _, _, hb⟩ := buildIdMap_mem find ids k t (mem_of_lookup_eq_some _ k t h)
  intro ht
  rw [ht] at hb
  exact hb trimSpace_empty

/-- The loop over `requiredReviewerIds` keeps, in order, the target ids of the
entries that have one. -/
theorem remapReviewerIds_eq (idMap : List (String × String))
    (hne : ∀ k t, idMap.lookup k = some t → t ≠ "") (arr : List JVal) :
    remapReviewerIds idMap arr = (arr.filterMap (reviewerTarget idMap)).map JVal.str := by
  induction arr with
  | nil => simp [remapReviewerIds]
  | cons v rest ih =>
    have key : ∀ s : String, remapReviewerIds idMap (.str s :: rest) =
        (match reviewerTarget idMap (.str s) with
          | some t => [JVal.str t]
          | none => []) ++ remapReviewerIds idMap rest := by
      intro s
      by_cases hb : trimSpace s = ""
      · simp [remapReviewerIds, reviewerTarget, hb]
      · cases hl : idMap.lookup (trimSpace s) with
        | none => simp [remapReviewerIds, reviewerTarget, hb, hl]
        | some t =>
          have := hne _ _ hl
          simp [remapReviewerIds, reviewerTarget, hb, hl, this]
    cases v with
    | str s =>
      rw [key s, ih]
      cases hr : reviewerTarget idMap (.str s) with
      | none => simp [List.filterMap_cons, hr]
      | some t => simp [List.filterMap_cons, hr]
    | _ =>
      simp only [remapReviewerIds, List.filterMap_cons, reviewerTarget]
      rw [trimSpace_empty]
      simpa using ih

/-- The result of `RemapPolicyIdentityIDs` on a payload that has a `settings`
object and identity hints, in terms of `idMap`. -/
theorem remapPolicyIdentityIDs_unfold (payload settings : JObj)
    (find : IdentityHint → Option String)
    (hset : payload.lookup "settings" = some (.obj settings))
    (hh : (readPolicyHints payload).Identities ≠ []) :
    RemapPolicyIdentityIDs payload find =
      if (policyIdMap find payload).length == 0 then (payload, some .noIdentitiesMapped)
      else
        match (match settings.lookup "requiredReviewerIds" with
          | some (.arr arr) =>
            if arr.length > 0 && (remapReviewerIds (policyIdMap find payload) arr).length == 0
            then none
            else some (jset "requiredReviewerIds"
              (.arr (remapReviewerIds (policyIdMap find payload) arr)) settings)
          | _ => some settings : Option JObj) with
        | none => (payload, some .allReviewerIdsUnmapped)
        | some settings1 =>
          (jset "settings" (.obj
            (match settings1.lookup "requiredReviewers" with
              | some (.arr arr) =>
                if arr.length > 0 &&
                    (remapReviewerObjects (policyIdMap find payload) arr).length == 0
                then jdel "requiredReviewers" settings1
                else jset "requiredReviewers"
                  (.arr (remapReviewerObjects (policyIdMap find payload) arr)) settings1
              | _ => settings1)) payload, none) := by
  have hlen : ((readPolicyHints payload).Identities.length == 0) = false := by
    cases hI : (readPolicyHints payload).Identities with
    | nil => exact absurd hI hh
    | cons a l => simp
  simp only [RemapPolicyIdentityIDs, hset, hlen, policyIdMap, Bool.and_false,
    Bool.false_eq_true, if_false]

/-! ## Lemmas on build definitions -/

theorem lookup_map_value (f : String → JVal → JVal) (m : JObj) (k : String) :
    (m.map (fun kv => (kv.1, f kv.1 kv.2))).lookup k = (m.lookup k).map (f k) := by
  induction m with
  | nil => simp
  | cons kv rest ih =>
    obtain ⟨k1, v1⟩ := kv
    by_cases hk : k = k1
    · subst hk
      simp [List.lookup]
    · have hkb : (k == k1) = false := by simpa using hk
      simp only [List.map_cons, List.lookup, hkb]
      exact ih

theorem stepInputs_remapBuildStep (srcE tgtE srcT tgtT : String → Option String) (st : JVal) :
    stepInputs (remapBuildStep srcE tgtE srcT tgtT st) =
      remapStepInputs srcE tgtE (stepInputs st) := by
  have hk : ("inputs" : String) ≠ "task" := by decide
  cases st with
  | obj step =>
    simp only [remapBuildStep, stepInputs]
    have h1 : ∀ step1 : JObj, step1.lookup "inputs" = step.lookup "inputs" →
        (match (match step1.lookup "inputs" with
          | some (.obj inputs) => jset "inputs" (.obj (remapStepInputs srcE tgtE inputs)) step1
          | _ => step1).lookup "inputs" with
        | some (.obj inputs) => inputs
        | _ => []) =
        remapStepInputs srcE tgtE (match step.lookup "inputs" with
          | some (.obj inputs) => inputs
          | _ => []) := by
      intro step1 h
      rw [h]
      cases hl : step.lookup "inputs" with
      | none => simp [h, hl, remapStepInputs]
      | some v =>
        cases v with
        | obj inputs => simp [lookup_jset_eq]
        | _ => simp [h, hl, remapStepInputs]
    apply h1
    split
    · exact lookup_jset_ne _ _ _ _ hk
    · rfl
  | _ => simp [remapBuildStep, stepInputs, remapStepInputs]

theorem phaseSteps_remapBuildPhase (srcE tgtE srcT tgtT : String → Option String) (ph : JVal) :
    phaseSteps (remapBuildPhase srcE tgtE srcT tgtT ph) =
      (phaseSteps ph).map (remapBuildStep srcE tgtE srcT tgtT) := by
  cases ph with
  | obj phase =>
    cases hl : phase.lookup "steps" with
    | none => simp [remapBuildPhase, phaseSteps, hl]
    | some v =>
      cases v with
      | arr ss => simp [remapBuildPhase, phaseSteps, hl, lookup_jset_eq]
      | _ => simp [remapBuildPhase, phaseSteps, hl]
  | _ => simp [remapBuildPhase, phaseSteps]

theorem buildPhases_remap (d : JObj) (srcE tgtE : String → Option String)
    (srcV : Int → Option String) (tgtV : String → Option Int)
    (srcT tgtT : String → Option String) :
    buildPhases (RemapBuildDefinitionRefsByName d srcE tgtE srcV tgtV srcT tgtT) =
      (buildPhases d).map (remapBuildPhase srcE tgtE srcT tgtT) := by
  have hk : ("process" : String) ≠ "variableGroups" := by decide
  have key : ∀ d1 : JObj, d1.lookup "process" = d.lookup "process" →
      buildPhases (match d1.lookup "process" with
        | some (.obj process) =>
          match process.lookup "phases" with
          | some (.arr phasesAny) =>
            jset "process" (.obj (jset "phases" (.arr (phasesAny.map
              (remapBuildPhase srcE tgtE srcT tgtT))) process)) d1
          | _ => d1
        | _ => d1) = (buildPhases d).map (remapBuildPhase srcE tgtE srcT tgtT) := by
    intro d1 h
    rw [h]
    cases hp : d.lookup "process" with
    | none => simp [buildPhases, h, hp]
    | some v =>
      cases v with
      | obj process =>
        cases hp2 : process.lookup "phases" with
        | none => simp [buildPhases, h, hp, hp2]
        | some w =>
          cases w with
          | arr ps => simp [buildPhases, hp, hp2, lookup_jset_eq]
          | _ => simp [buildPhases, h, hp, hp2]
      | _ => simp [buildPhases, h, hp]
  unfold RemapBuildDefinitionRefsByName
  apply key
  split
  · exact lookup_jset_ne _ _ _ _ hk
  · rfl

/-! ## Lemmas on release definitions -/

/-- The loop over a `variableGroups` list keeps, in order, the target ids of the
entries that resolve. -/
theorem readVarGroupIDAny_eq (x : JVal) :
    readVarGroupIDAny x = (varGroupEntryId x).getD 0 := by
  cases x with
  | obj m =>
    simp only [readVarGroupIDAny, varGroupEntryId]
    split <;> simp_all
  | _ => simp [readVarGroupIDAny, varGroupEntryId]

theorem resolvedVarGroupID_eq (srcV : Int → Option String) (tgtV : String → Option Int)
    (x : JVal) :
    resolvedVarGroupID srcV tgtV x =
      if readVarGroupIDAny x = 0 then none
      else
        match srcV (readVarGroupIDAny x) with
        | none => none
        | some name =>
          if trimSpace name = "" then none
          else
            match tgtV (toLower name) with
            | none => none
            | some t => if t = 0 then none else some t := by
  rw [readVarGroupIDAny_eq]
  unfold resolvedVarGroupID
  cases varGroupEntryId x with
  | none => simp
  | some id => simp only [Option.getD_some]

theorem remapReleaseVarGroupIDs_eq (srcV : Int → Option String) (tgtV : String → Option Int)
    (l : List JVal) :
    remapReleaseVarGroupIDs srcV tgtV l = l.filterMap (resolvedVarGroupID srcV tgtV) := by
  induction l with
  | nil => simp [remapReleaseVarGroupIDs]
  | cons x rest ih =>
    simp only [remapReleaseVarGroupIDs, List.filterMap_cons, resolvedVarGroupID_eq]
    by_cases h0 : readVarGroupIDAny x = 0
    · simp [h0, ih]
    · cases hs : srcV (readVarGroupIDAny x) with
      | none => simp [h0, hs, ih]
      | some name =>
        by_cases hb : trimSpace name = ""
        · simp [h0, hs, hb, ih]
        · cases ht : tgtV (toLower name) with
          | none => simp [h0, hs, hb, ht, ih]
          | some t =>
            by_cases ht0 : t = 0
            · simp [h0, hs, hb, ht, ht0, ih]
            · simp [h0, hs, hb, ht, ht0, ih]

theorem releaseEnvironments_remap (payload : JObj) (srcE tgtE : String → Option String)
    (srcV : Int → Option String) (tgtV : String → Option Int)
    (srcT tgtT : String → Option String) :
    releaseEnvironments (RemapReleaseDefinitionRefsByName payload srcE tgtE srcV tgtV srcT tgtT) =
      (releaseEnvironments payload).map (fun e =>
        remapEnvironmentTasks srcE tgtE srcT tgtT (remapEnvironmentVarGroups srcV tgtV e)) := by
  have hk : ("environments" : String) ≠ "variableGroups" := by decide
  have key : ∀ p1 : JObj, p1.lookup "environments" = payload.lookup "environments" →
      releaseEnvironments
        (match (match p1.lookup "environments" with
            | some (.arr envs) =>
              jset "environments" (.arr (envs.map (remapEnvironmentVarGroups srcV tgtV))) p1
            | _ => p1).lookup "environments" with
          | some (.arr envs) =>
            jset "environments" (.arr (envs.map (remapEnvironmentTasks srcE tgtE srcT tgtT)))
              (match p1.lookup "environments" with
                | some (.arr envs) =>
                  jset "environments" (.arr (envs.map (remapEnvironmentVarGroups srcV tgtV))) p1
                | _ => p1)
          | _ => (match p1.lookup "environments" with
                | some (.arr envs) =>
                  jset "environments" (.arr (envs.map (remapEnvironmentVarGroups srcV tgtV))) p1
                | _ => p1)) =
        (releaseEnvironments payload).map (fun e =>
          remapEnvironmentTasks srcE tgtE srcT tgtT (remapEnvironmentVarGroups srcV tgtV e)) := by
    intro p1 h
    cases he : payload.lookup "environments" with
    | none => simp [releaseEnvironments, h, he]
    | some v =>
      cases v with
      | arr envs => simp [releaseEnvironments, h, he, lookup_jset_eq]
      | _ => simp [releaseEnvironments, h, he]
  unfold RemapReleaseDefinitionRefsByName
  apply key
  split
  · exact lookup_jset_ne _ _ _ _ hk
  · rfl

theorem lookup_variableGroups_remapRelease (payload : JObj) (srcE tgtE : String → Option String)
    (srcV : Int → Option String) (tgtV : String → Option Int)
    (srcT tgtT : String → Option String) (vgs : List JVal)
    (h : payload.lookup "variableGroups" = some (.arr vgs)) :
    (RemapReleaseDefinitionRefsByName payload srcE tgtE srcV tgtV srcT tgtT).lookup
      "variableGroups" = some (.ints (remapReleaseVarGroupIDs srcV tgtV vgs)) := by
  have hk : ("variableGroups" : String) ≠ "environments" := by decide
  have key : ∀ p1 : JObj,
      (match (match p1.lookup "environments" with
            | some (.arr envs) =>
              jset "environments" (.arr (envs.map (remapEnvironmentVarGroups srcV tgtV))) p1
            | _ => p1).lookup "environments" with
          | some (.arr envs) =>
            jset "environments" (.arr (envs.map (remapEnvironmentTasks srcE tgtE srcT tgtT)))
              (match p1.lookup "environments" with
                | some (.arr envs) =>
                  jset "environments" (.arr (envs.map (remapEnvironmentVarGroups srcV tgtV))) p1
                | _ => p1)
          | _ => (match p1.lookup "environments" with
                | some (.arr envs) =>
                  jset "environments" (.arr (envs.map (remapEnvironmentVarGroups srcV tgtV))) p1
                | _ => p1)).lookup "variableGroups" = p1.lookup "variableGroups" := by
    intro p1
    have inner : (match p1.lookup "environments" with
                | some (.arr envs) =>
                  jset "environments" (.arr (envs.map (remapEnvironmentVarGroups srcV tgtV))) p1
                | _ => p1).lookup "variableGroups" = p1.lookup "variableGroups" := by
      split
      · exact lookup_jset_ne _ _ _ _ hk
      · rfl
    split
    · rw [lookup_jset_ne _ _ _ _ hk, inner]
    · exact inner
  unfold RemapReleaseDefinitionRefsByName
  simp only [h]
  rw [key, setReleaseVariableGroups, lookup_jset_eq]

theorem environmentVarGroups_remap (srcE tgtE : String → Option String)
    (srcV : Int → Option String) (tgtV : String → Option Int)
    (srcT tgtT : String → Option String) (e : JVal) (evgs : List JVal)
    (h : environmentVarGroups e = some (.arr evgs)) :
    environmentVarGroups
      (remapEnvironmentTasks srcE tgtE srcT tgtT (remapEnvironmentVarGroups srcV tgtV e)) =
      some (.ints (remapReleaseVarGroupIDs srcV tgtV evgs)) := by
  have hk : ("variableGroups" : String) ≠ "deployPhases" := by decide
  cases e with
  | obj env =>
    simp only [environmentVarGroups] at h
    simp only [remapEnvironmentVarGroups, h, remapEnvironmentTasks]
    split
    · simp only [environmentVarGroups]
      rw [lookup_jset_ne _ _ _ _ hk, lookup_jset_eq]
    · simp only [environmentVarGroups]
      rw [lookup_jset_eq]
  | _ => simp [environmentVarGroups] at h

/-! ## Lemmas on the JSON round trip and the sanitizer -/

mutual
theorem jsonRoundTrip_of_isJSON : (v : JVal) → isJSON v = true → jsonRoundTrip v = v
  | .null, _ => by simp [jsonRoundTrip]
  | .bool _, _ => by simp [jsonRoundTrip]
  | .num _, _ => by simp [jsonRoundTrip]
  | .str _, _ => by simp [jsonRoundTrip]
  | .int _, h => by simp [isJSON] at h
  | .ints _, h => by simp [isJSON] at h
  | .arr xs, h => by
    simp only [isJSON] at h
    simp only [jsonRoundTrip, jsonRoundTripList_of_isJSON xs h]
  | .obj kvs, h => by
    simp only [isJSON] at h
    simp only [jsonRoundTrip, jsonRoundTripFields_of_isJSON kvs h]
theorem jsonRoundTripList_of_isJSON :
    (xs : List JVal) → isJSONList xs = true → jsonRoundTripList xs = xs
  | [], _ => by simp [jsonRoundTripList]
  | x :: xs, h => by
    simp only [isJSONList, Bool.and_eq_true] at h
    simp only [jsonRoundTripList, jsonRoundTrip_of_isJSON x h.1,
      jsonRoundTripList_of_isJSON xs h.2]
theorem jsonRoundTripFields_of_isJSON :
    (kvs : List (String × JVal)) → isJSONFields kvs = true → jsonRoundTripFields kvs = kvs
  | [], _ => by simp [jsonRoundTripFields]
  | (k, v) :: rest, h => by
    simp only [isJSONFields, Bool.and_eq_true] at h
    simp only [jsonRoundTripFields, jsonRoundTrip_of_isJSON v h.1,
      jsonRoundTripFields_of_isJSON rest h.2]
end

theorem lookup_jdel_self (k : String) (m : JObj) : (jdel k m).lookup k = none := by
  induction m with
  | nil => simp [jdel]
  | cons kv rest ih =>
    obtain ⟨k1, v1⟩ := kv
    by_cases h1 : k1 = k
    · subst h1
      have : jdel k1 ((k1, v1) :: rest) = jdel k1 rest := by simp [jdel]
      rw [this, ih]
    · have : jdel k ((k1, v1) :: rest) = (k1, v1) :: jdel k rest := by simp [jdel, h1]
      have hkb : (k == k1) = false := by simpa using (Ne.symm h1)
      rw [this]
      simp only [List.lookup, hkb]
      exact ih

theorem jdel_comm (a b : String) (m : JObj) : jdel a (jdel b m) = jdel b (jdel a m) := by
  simp only [jdel, List.filter_filter]
  congr 1
  funext kv
  exact Bool.and_comm _ _

theorem jdel_idem (a : String) (m : JObj) : jdel a (jdel a m) = jdel a m := by
  simp only [jdel, List.filter_filter, Bool.and_self]

/-- The deletions of `SanitizePolicyForCreate` as one filter. -/
theorem sanitizePolicy_eq_filter (d : JObj) :
    SanitizePolicyForCreate d =
      (deepCopyMapPolicy d).filter (fun kv => !(policyServerFields.contains kv.1)) := by
  simp only [SanitizePolicyForCreate, jdel, List.filter_filter]
  congr 1
  funext kv
  simp only [policyServerFields, List.contains_cons, List.contains_nil, Bool.or_false,
    Bool.not_or]
  generalize (kv.1 == "id") = b1
  generalize (kv.1 == "revision") = b2
  generalize (kv.1 == "url") = b3
  generalize (kv.1 == "_links") = b4
  generalize (kv.1 == "createdBy") = b5
  generalize (kv.1 == "createdDate") = b6
  generalize (kv.1 == "modifiedBy") = b7
  generalize (kv.1 == "modifiedDate") = b8
  generalize (kv.1 == "isEnterpriseManaged") = b9
  cases b1 <;> cases b2 <;> cases b3 <;> cases b4 <;> cases b5 <;> cases b6 <;>
    cases b7 <;> cases b8 <;> cases b9 <;> rfl

theorem lookup_filter_keys (keep : String → Bool) (m : JObj) (k : String) :
    (m.filter (fun kv => keep kv.1)).lookup k = if keep k then m.lookup k else none := by
  induction m with
  | nil => simp
  | cons kv rest ih =>
    obtain ⟨k1, v1⟩ := kv
    by_cases hk : k = k1
    · subst hk
      by_cases hkeep : keep k = true
      · simp [List.filter_cons, hkeep, List.lookup]
      · simp only [List.filter_cons, hkeep, Bool.false_eq_true, if_false]
        rw [ih]
        simp [hkeep]
    · have hkb : (k == k1) = false := by simpa using hk
      by_cases hkeep1 : keep k1 = true
      · simp only [List.filter_cons, hkeep1, if_true, List.lookup, hkb]
        exact ih
      · simp only [List.filter_cons, hkeep1, Bool.false_eq_true, if_false, List.lookup, hkb]
        exact ih

theorem isJSONFields_filter (keep : String × JVal → Bool) (m : JObj)
    (h : isJSONFields m = true) : isJSONFields (m.filter keep) = true := by
  induction m with
  | nil => simp [isJSONFields]
  | cons kv rest ih =>
    obtain ⟨k1, v1⟩ := kv
    simp only [isJSONFields, Bool.and_eq_true] at h
    by_cases hk : keep (k1, v1) = true
    · simp only [List.filter_cons, hk, if_true, isJSONFields, Bool.and_eq_true]
      exact ⟨h.1, ih h.2⟩
    · simp only [List.filter_cons, hk, Bool.false_eq_true, if_false]
      exact ih h.2

/-- On a JSON object the sanitizer is the filter that drops the server fields. -/
theorem sanitizePolicy_of_isJSON (d : JObj) (hd : isJSONFields d = true) :
    SanitizePolicyForCreate d =
      d.filter (fun kv => !(policyServerFields.contains kv.1)) := by
  rw [sanitizePolicy_eq_filter, deepCopyMapPolicy, jsonRoundTripFields_of_isJSON d hd]

/-! ## Lemmas on selection -/

theorem contains_iff_mem (l : List String) (x : String) : contains l x = true ↔ x ∈ l := by
  induction l with
  | nil => simp [contains]
  | cons a rest ih =>
    by_cases h : a = x
    · subst h
      simp [contains]
    · have hb : (a == x) = false := by simpa using h
      simp only [contains, hb, Bool.false_eq_true, if_false, List.mem_cons, ih]
      constructor
      · intro hm
        exact Or.inr hm
      · rintro (hm | hm)
        · exact absurd hm.symm h
        · exact hm

theorem restoreAll_iff (selected : List String) (key : String → Bool) :
    (selected.length == 1 && key (selected.headD "")) = true ↔
      ∃ a, selected = [a] ∧ key a = true := by
  cases selected with
  | nil => simp
  | cons a rest =>
    cases rest with
    | nil => simp
    | cons b rest2 => simp

theorem selectsFileB_iff (selected : List String) (F : String) :
    selectsFileB selected F = true ↔ SelectsFile selected F := by
  unfold selectsFileB SelectsFile
  simp only [Bool.and_eq_true, Bool.or_eq_true, contains_iff_mem]
  rw [← Bool.and_eq_true, restoreAll_iff selected (fun a => equalFold a "all")]
  constructor
  · rintro ⟨h1, (h2 | h2) | h2⟩
    · exact ⟨h1, Or.inl h2⟩
    · exact ⟨h1, Or.inr (Or.inl h2)⟩
    · exact ⟨h1, Or.inr (Or.inr h2)⟩
  · rintro ⟨h1, h2 | h2 | h2⟩
    · exact ⟨h1, Or.inl (Or.inl h2)⟩
    · exact ⟨h1, Or.inl (Or.inr h2)⟩
    · exact ⟨h1, Or.inr h2⟩

/-- The guard of the three loops, as one test. -/
theorem selection_guard (selected : List String) (F : String) {α : Type} (skip go : α) :
    (if (!hasSuffix F ".json") = true then skip
      else if (!(selected.length == 1 && equalFold (selected.headD "") "all") &&
          !contains selected F && !contains selected (trimSuffix F ".json")) = true then skip
      else go) = if selectsFileB selected F = true then go else skip := by
  unfold selectsFileB
  cases hasSuffix F ".json" <;>
    cases (selected.length == 1 && equalFold (selected.headD "") "all") <;>
    cases contains selected F <;> cases contains selected (trimSuffix F ".json") <;> rfl

/-- From "the names are the selected entries" to the membership form. -/
theorem mem_selected_names {α : Type} (name : α → String) (files : List α)
    (selected : List String) (F : String) :
    F ∈ (files.map name).filter (selectsFileB selected) ↔
      (∃ f ∈ files, name f = F) ∧ SelectsFile selected F := by
  rw [List.mem_filter, List.mem_map, selectsFileB_iff]

theorem restorePolicyFiles_names (sourceProject : String)
    (src tgt : String → Option String) (targetExisting : List JObj)
    (find : IdentityHint → Option String) (findBuildDefinition : String → Option Int)
    (create : JObj → Option Int) (selected : List String) (files : List SnapshotFile) :
    (restorePolicyFiles sourceProject src tgt targetExisting find findBuildDefinition create
        selected files).1.map Prod.fst <+:
      (files.map (fun f => f.name)).filter (selectsFileB selected) ∧
    ((restorePolicyFiles sourceProject src tgt targetExisting find findBuildDefinition create
        selected files).2 = none →
      (restorePolicyFiles sourceProject src tgt targetExisting find findBuildDefinition create
        selected files).1.map Prod.fst =
      (files.map (fun f => f.name)).filter (selectsFileB selected)) := by
  induction files with
  | nil => simp [restorePolicyFiles]
  | cons f rest ih =>
    simp only [restorePolicyFiles, selection_guard, List.map_cons, List.filter_cons]
    by_cases hsel : selectsFileB selected f.name = true
    · simp only [hsel, if_true]
      cases hc : f.content with
      | none => simp
      | some raw =>
        simp only [List.map_cons]
        exact ⟨(List.prefix_cons_inj _).mpr ih.1, fun h => by rw [ih.2 h]⟩
    · simp only [hsel, Bool.false_eq_true, if_false]
      exact ih

theorem restoreFeedFiles_names (targetFeeds : List Feed) (create : JObj → Option Feed)
    (selected : List String) (files : List FeedFile) :
    (restoreFeedFiles targetFeeds create selected files).1.map Prod.fst <+:
      (files.map (fun f => f.name)).filter (selectsFileB selected) ∧
    ((restoreFeedFiles targetFeeds create selected files).2 = none →
      (restoreFeedFiles targetFeeds create selected files).1.map Prod.fst =
      (files.map (fun f => f.name)).filter (selectsFileB selected)) := by
  induction files with
  | nil => simp [restoreFeedFiles]
  | cons f rest ih =>
    simp only [restoreFeedFiles, selection_guard, List.map_cons, List.filter_cons]
    by_cases hsel : selectsFileB selected f.name = true
    · simp only [hsel, if_true]
      cases hc : f.content with
      | none => simp
      | some feed =>
        simp only []
        split
        · simp only [List.map_cons]
          exact ⟨(List.prefix_cons_inj _).mpr ih.1, fun h => by rw [ih.2 h]⟩
        · split
          · simp only [List.map_cons]
            exact ⟨(List.prefix_cons_inj _).mpr ih.1, fun h => by rw [ih.2 h]⟩
          · simp only [List.map_cons]
            exact ⟨(List.prefix_cons_inj _).mpr ih.1, fun h => by rw [ih.2 h]⟩
    · simp only [hsel, Bool.false_eq_true, if_false]
      exact ih

theorem restoreWikiFiles_names (src tgt : String → Option String) (targetWikis : List Wiki)
    (calls : WikiCalls) (selected : List String) (files : List SnapshotFile) :
    (restoreWikiFiles src tgt targetWikis calls selected files).1.map Prod.fst <+:
      (files.map (fun f => f.name)).filter (selectsFileB selected) ∧
    ((restoreWikiFiles src tgt targetWikis calls selected files).2 = none →
      (restoreWikiFiles src tgt targetWikis calls selected files).1.map Prod.fst =
      (files.map (fun f => f.name)).filter (selectsFileB selected)) := by
  induction files with
  | nil => simp [restoreWikiFiles]
  | cons f rest ih =>
    simp only [restoreWikiFiles, selection_guard, List.map_cons, List.filter_cons]
    by_cases hsel : selectsFileB selected f.name = true
    · simp only [hsel, if_true]
      cases hc : f.content with
      | none => simp
      | some m =>
        simp only []
        split
        · simp only [List.map_cons]
          exact ⟨(List.prefix_cons_inj _).mpr ih.1, fun h => by rw [ih.2 h]⟩
        · split
          · simp
          · simp only [List.map_cons]
            exact ⟨(List.prefix_cons_inj _).mpr ih.1, fun h => by rw [ih.2 h]⟩
    · simp only [hsel, Bool.false_eq_true, if_false]
      exact ih

theorem restorePolicyFiles_outcomes (sourceProject : String)
    (src tgt : String → Option String) (targetExisting : List JObj)
    (find : IdentityHint → Option String) (findBuildDefinition : String → Option Int)
    (create : JObj → Option Int) (selected : List String) (files : List SnapshotFile) :
    (∀ p ∈ (restorePolicyFiles sourceProject src tgt targetExisting find findBuildDefinition
        create selected files).1,
      ∃ f ∈ files, f.name = p.1 ∧ ∃ raw, f.content = some raw ∧
        p.2 = restorePolicySnapshot sourceProject src tgt targetExisting find
          findBuildDefinition create raw) ∧
    (∀ e, (restorePolicyFiles sourceProject src tgt targetExisting find findBuildDefinition
        create selected files).2 = some e →
      ∃ f ∈ files, selectsFileB selected f.name = true ∧ f.content = none ∧
        e = .snapshotUnreadable f.name) := by
  induction files with
  | nil => simp [restorePolicyFiles]
  | cons f rest ih =>
    simp only [restorePolicyFiles, selection_guard]
    by_cases hsel : selectsFileB selected f.name = true
    · simp only [hsel, if_true]
      cases hc : f.content with
      | none =>
        refine ⟨by simp, ?_⟩
        intro e he
        simp only [Option.some.injEq] at he
        exact ⟨f, List.mem_cons_self _ _, hsel, hc, he.symm⟩
      | some raw =>
        simp only []
        constructor
        · intro p hp
          rcases List.mem_cons.mp hp with hp | hp
          · subst hp
            exact ⟨f, List.mem_cons_self _ _, rfl, raw, hc, rfl⟩
          · obtain ⟨g, hg, h⟩ := ih.1 p hp
            exact ⟨g, List.mem_cons_of_mem _ hg, h⟩
        · intro e he
          obtain ⟨g, hg, h⟩ := ih.2 e he
          exact ⟨g, List.mem_cons_of_mem _ hg, h⟩
    · simp only [hsel, Bool.false_eq_true, if_false]
      constructor
      · intro p hp
        obtain ⟨g, hg, h⟩ := ih.1 p hp
        exact ⟨g, List.mem_cons_of_mem _ hg, h⟩
      · intro e he
        obtain ⟨g, hg, h⟩ := ih.2 e he
        exact ⟨g, List.mem_cons_of_mem _ hg, h⟩

theorem restoreFeedFiles_outcomes (targetFeeds : List Feed) (create : JObj → Option Feed)
    (selected : List String) (files : List FeedFile) :
    (∀ p ∈ (restoreFeedFiles targetFeeds create selected files).1,
      ∃ f ∈ files, f.name = p.1 ∧ ∃ feed, f.content = some feed ∧
        p.2 = (match FindFeedByName targetFeeds feed.Name with
          | some _ => FeedOutcome.existsSkipped
          | none =>
            match create (feedCreatePayload feed) with
            | none => FeedOutcome.createFailed
            | some created => FeedOutcome.created created.Name)) ∧
    (∀ e, (restoreFeedFiles targetFeeds create selected files).2 = some e →
      ∃ f ∈ files, selectsFileB selected f.name = true ∧ f.content = none ∧
        e = .snapshotUnreadable f.name) := by
  induction files with
  | nil => simp [restoreFeedFiles]
  | cons f rest ih =>
    simp only [restoreFeedFiles, selection_guard]
    by_cases hsel : selectsFileB selected f.name = true
    · simp only [hsel, if_true]
      cases hc : f.content with
      | none =>
        refine ⟨by simp, ?_⟩
        intro e he
        simp only [Option.some.injEq] at he
        exact ⟨f, List.mem_cons_self _ _, hsel, hc, he.symm⟩
      | some feed =>
        simp only []
        have hstep : ∀ o : FeedOutcome,
            o = (match FindFeedByName targetFeeds feed.Name with
              | some _ => FeedOutcome.existsSkipped
              | none =>
                match create (feedCreatePayload feed) with
                | none => FeedOutcome.createFailed
                | some created => FeedOutcome.created created.Name) →
            (∀ p ∈ (f.name, o) :: (restoreFeedFiles targetFeeds create selected rest).1,
              ∃ g ∈ f :: rest, g.name = p.1 ∧ ∃ feed, g.content = some feed ∧
                p.2 = (match FindFeedByName targetFeeds feed.Name with
                  | some _ => FeedOutcome.existsSkipped
                  | none =>
                    match create (feedCreatePayload feed) with
                    | none => FeedOutcome.createFailed
                    | some created => FeedOutcome.created created.Name)) ∧
            (∀ e, (restoreFeedFiles targetFeeds create selected rest).2 = some e →
              ∃ g ∈ f :: rest, selectsFileB selected g.name = true ∧ g.content = none ∧
                e = .snapshotUnreadable g.name) := by
          intro o ho
          constructor
          · intro p hp
            rcases List.mem_cons.mp hp with hp | hp
            · subst hp
              exact ⟨f, List.mem_cons_self _ _, rfl, feed, hc, ho⟩
            · obtain ⟨g, hg, h⟩ := ih.1 p hp
              exact ⟨g, List.mem_cons_of_mem _ hg, h⟩
          · intro e he
            obtain ⟨g, hg, h⟩ := ih.2 e he
            exact ⟨g, List.mem_cons_of_mem _ hg, h⟩
        cases hfind : FindFeedByName targetFeeds feed.Name with
        | some x => exact hstep _ (by rw [hfind])
        | none =>
          cases hcr : create (feedCreatePayload feed) with
          | none => exact hstep _ (by rw [hfind, hcr])
          | some created => exact hstep _ (by rw [hfind, hcr])
    · simp only [hsel, Bool.false_eq_true, if_false]
      constructor
      · intro p hp
        obtain ⟨g, hg, h⟩ := ih.1 p hp
        exact ⟨g, List.mem_cons_of_mem _ hg, h⟩
      · intro e he
        obtain ⟨g, hg, h⟩ := ih.2 e he
        exact ⟨g, List.mem_cons_of_mem _ hg, h⟩

theorem restoreWikiFiles_outcomes (src tgt : String → Option String) (targetWikis : List Wiki)
    (calls : WikiCalls) (selected : List String) (files : List SnapshotFile) :
    (∀ p ∈ (restoreWikiFiles src tgt targetWikis calls selected files).1,
      ∃ f ∈ files, f.name = p.1 ∧ ∃ m, f.content = some m ∧
        ((∃ w, FindWikiByName targetWikis (decodeWiki m).Name = some w ∧
            p.2 = .existsSkipped) ∨
          (FindWikiByName targetWikis (decodeWiki m).Name = none ∧
            ∃ pid, calls.projectId = some pid ∧
              p.2 = restoreWiki src tgt calls pid (decodeWiki m)))) ∧
    (∀ e, (restoreWikiFiles src tgt targetWikis calls selected files).2 = some e →
      ∃ f ∈ files, selectsFileB selected f.name = true ∧
        ((f.content = none ∧ e = .snapshotUnreadable f.name) ∨
          (∃ m, f.content = some m ∧
            FindWikiByName targetWikis (decodeWiki m).Name = none ∧
            calls.projectId = none ∧ e = .lookupFailed f.name))) := by
  induction files with
  | nil => simp [restoreWikiFiles]
  | cons f rest ih =>
    simp only [restoreWikiFiles, selection_guard]
    have hrest : (∀ p ∈ (restoreWikiFiles src tgt targetWikis calls selected rest).1,
        ∃ g ∈ f :: rest, g.name = p.1 ∧ ∃ m, g.content = some m ∧
          ((∃ w, FindWikiByName targetWikis (decodeWiki m).Name = some w ∧
              p.2 = .existsSkipped) ∨
            (FindWikiByName targetWikis (decodeWiki m).Name = none ∧
              ∃ pid, calls.projectId = some pid ∧
                p.2 = restoreWiki src tgt calls pid (decodeWiki m)))) ∧
        (∀ e, (restoreWikiFiles src tgt targetWikis calls selected rest).2 = some e →
          ∃ g ∈ f :: rest, selectsFileB selected g.name = true ∧
            ((g.content = none ∧ e = .snapshotUnreadable g.name) ∨
              (∃ m, g.content = some m ∧
                FindWikiByName targetWikis (decodeWiki m).Name = none ∧
                calls.projectId = none ∧ e = .lookupFailed g.name))) := by
      constructor
      · intro p hp
        obtain ⟨g, hg, h⟩ := ih.1 p hp
        exact ⟨g, List.mem_cons_of_mem _ hg, h⟩
      · intro e he
        obtain ⟨g, hg, h⟩ := ih.2 e he
        exact ⟨g, List.mem_cons_of_mem _ hg, h⟩
    by_cases hsel : selectsFileB selected f.name = true
    · simp only [hsel, if_true]
      cases hc : f.content with
      | none =>
        refine ⟨by simp, ?_⟩
        intro e he
        simp only [Option.some.injEq] at he
        exact ⟨f, List.mem_cons_self _ _, hsel, Or.inl ⟨hc, he.symm⟩⟩
      | some m =>
        simp only []
        cases hfind : FindWikiByName targetWikis (decodeWiki m).Name with
        | some w =>
          simp only []
          refine ⟨?_, hrest.2⟩
          intro p hp
          rcases List.mem_cons.mp hp with hp | hp
          · subst hp
            exact ⟨f, List.mem_cons_self _ _, rfl, m, hc, Or.inl ⟨w, hfind, rfl⟩⟩
          · exact hrest.1 p hp
        | none =>
          simp only []
          cases hpid : calls.projectId with
          | none =>
            refine ⟨by simp, ?_⟩
            intro e he
            simp only [Option.some.injEq] at he
            exact ⟨f, List.mem_cons_self _ _, hsel,
              Or.inr ⟨m, hc, hfind, rfl, he.symm⟩⟩
          | some pid =>
            simp only []
            rw [hpid] at hrest
            refine ⟨?_, hrest.2⟩
            intro p hp
            rcases List.mem_cons.mp hp with hp | hp
            · subst hp
              exact ⟨f, List.mem_cons_self _ _, rfl, m, hc, Or.inr ⟨hfind, pid, rfl, rfl⟩⟩
            · exact hrest.1 p hp
    · simp only [hsel, Bool.false_eq_true, if_false]
      exact hrest

/-! ## Lemmas on agent queues -/

theorem resolveBuildQueue_fst (s : String) (m : String → Option String)
    (t : String → Option Int) (d0 : String) :
    (resolveBuildQueue s m t d0).1 =
      if (if buildQueueCandidate s m = "" then (0 : Int)
          else (t (buildQueueCandidate s m)).getD 0) = 0 ∧ d0 ≠ "" then (t d0).getD 0
      else (if buildQueueCandidate s m = "" then (0 : Int)
          else (t (buildQueueCandidate s m)).getD 0) := by
  have hname : (if (s != "") = true then
      (match m s with
        | some mapped => mapped
        | none => s) else "") = buildQueueCandidate s m := by
    unfold buildQueueCandidate
    by_cases hs : s = ""
    · simp [hs]
    · simp [hs]
  have hid : ∀ n : String, (if (n != "") = true then
      (match t n with
        | some id => id
        | none => (0 : Int)) else 0) = if n = "" then (0 : Int) else (t n).getD 0 := by
    intro n
    by_cases hn : n = ""
    · simp [hn]
    · cases ht : t n <;> simp [hn, ht]
  unfold resolveBuildQueue
  simp only [hname, hid]
  by_cases hq : (if buildQueueCandidate s m = "" then (0 : Int)
      else (t (buildQueueCandidate s m)).getD 0) = 0
  · by_cases hd : d0 = ""
    · simp [hq, hd]
    · simp [hq, hd]
  · simp [hq]

theorem queueResolves_iff (t : String → Option Int) (n : String) :
    (∃ id, QueueResolves t n id) ↔ (if n = "" then (0 : Int) else (t n).getD 0) ≠ 0 := by
  unfold QueueResolves
  by_cases hn : n = ""
  · simp [hn]
  · cases ht : t n with
    | none => simp [hn, ht]
    | some id => simp [hn, ht]

theorem queueResolves_value (t : String → Option Int) (n : String) (id : Int)
    (h : QueueResolves t n id) : (if n = "" then (0 : Int) else (t n).getD 0) = id := by
  obtain ⟨hn, ht, _⟩ := h
  simp [hn, ht]

/-! ## Lemmas on the queue of deploy phases -/

theorem phaseQueueId_setPhaseQueueID (q : Int) (dp dp1 : JVal)
    (h : setPhaseQueueID q dp = some dp1) : phaseQueueId dp1 = some (.int q) := by
  cases dp with
  | obj m =>
    simp only [setPhaseQueueID] at h
    split at h
    · injection h with h
      subst h
      simp [phaseQueueId, lookup_jset_eq]
    · injection h with h
      subst h
      simp [phaseQueueId, lookup_jset_eq, List.lookup]
  | _ => simp [setPhaseQueueID] at h

theorem setPhasesQueueID_spec (q : Int) (dps dps1 : List JVal)
    (h : setPhasesQueueID q dps = some dps1) :
    (∀ dp ∈ dps1, phaseQueueId dp = some (.int q)) ∧ dps1.length = dps.length := by
  induction dps generalizing dps1 with
  | nil =>
    simp only [setPhasesQueueID] at h
    injection h with h
    subst h
    simp
  | cons dp rest ih =>
    simp only [setPhasesQueueID] at h
    cases h1 : setPhaseQueueID q dp with
    | none => simp [h1] at h
    | some dp1 =>
      cases h2 : setPhasesQueueID q rest with
      | none => simp [h1, h2] at h
      | some rest1 =>
        simp only [h1, h2] at h
        injection h with h
        subst h
        obtain ⟨ihq, ihl⟩ := ih rest1 h2
        refine ⟨?_, by simp [ihl]⟩
        intro x hx
        rcases List.mem_cons.mp hx with hx | hx
        · subst hx
          exact phaseQueueId_setPhaseQueueID q dp x h1
        · exact ihq x hx

theorem setEnvironmentQueueID_spec (q : Int) (e e1 : JVal)
    (h : setEnvironmentQueueID q e = some e1) :
    (∀ dp ∈ deployPhases e1, phaseQueueId dp = some (.int q)) ∧
      (deployPhases e1).length = (deployPhases e).length := by
  cases e with
  | obj env =>
    simp only [setEnvironmentQueueID] at h
    cases hl : env.lookup "deployPhases" with
    | none =>
      simp only [hl] at h
      injection h with h
      subst h
      simp [deployPhases, hl]
    | some v =>
      cases v with
      | arr dps =>
        simp only [hl] at h
        cases h2 : setPhasesQueueID q dps with
        | none => simp [h2] at h
        | some dps1 =>
          simp only [h2] at h
          injection h with h
          subst h
          have := setPhasesQueueID_spec q dps dps1 h2
          simpa [deployPhases, lookup_jset_eq, hl] using this
      | _ =>
        simp only [hl] at h
        injection h with h
        subst h
        simp [deployPhases, hl]
  | _ =>
    simp only [setEnvironmentQueueID] at h
    injection h with h
    subst h
    simp [deployPhases]

theorem setEnvironmentsQueueID_spec (q : Int) (envs envs1 : List JVal)
    (h : setEnvironmentsQueueID q envs = some envs1) :
    (∀ e ∈ envs1, ∀ dp ∈ deployPhases e, phaseQueueId dp = some (.int q)) ∧
      envs1.map (fun e => (deployPhases e).length) =
        envs.map (fun e => (deployPhases e).length) := by
  induction envs generalizing envs1 with
  | nil =>
    simp only [setEnvironmentsQueueID] at h
    injection h with h
    subst h
    simp
  | cons e rest ih =>
    simp only [setEnvironmentsQueueID] at h
    cases h1 : setEnvironmentQueueID q e with
    | none => simp [h1] at h
    | some e1 =>
      cases h2 : setEnvironmentsQueueID q rest with
      | none => simp [h1, h2] at h
      | some rest1 =>
        simp only [h1, h2] at h
        injection h with h
        subst h
        obtain ⟨ihq, ihl⟩ := ih rest1 h2
        obtain ⟨hq, hlen⟩ := setEnvironmentQueueID_spec q e e1 h1
        refine ⟨?_, by simp [ihl, hlen]⟩
        intro x hx
        rcases List.mem_cons.mp hx with hx | hx
        · subst hx
          exact hq
        · exact ihq x hx

theorem setReleaseQueueID_spec (payload p1 : JObj) (q : Int)
    (h : setReleaseQueueID payload q = some p1) :
    (∀ e ∈ releaseEnvironments p1, ∀ dp ∈ deployPhases e, phaseQueueId dp = some (.int q)) ∧
      phaseCounts p1 = phaseCounts payload := by
  simp only [setReleaseQueueID] at h
  cases hl : payload.lookup "environments" with
  | none =>
    simp only [hl] at h
    injection h with h
    subst h
    simp [releaseEnvironments, hl]
  | some v =>
    cases v with
    | arr envs =>
      simp only [hl] at h
      cases h2 : setEnvironmentsQueueID q envs with
      | none => simp [h2] at h
      | some envs1 =>
        simp only [h2] at h
        injection h with h
        subst h
        have := setEnvironmentsQueueID_spec q envs envs1 h2
        simpa [phaseCounts, releaseEnvironments, lookup_jset_eq, hl] using this
    | _ =>
      simp only [hl] at h
      injection h with h
      subst h
      simp [releaseEnvironments, hl]

/-! ## Lemmas on decimal numerals -/

theorem digitChar_isDigit (k : Nat) (h : k < 10) :
    (Nat.digitChar k).isDigit = true ∧ (Nat.digitChar k).toNat - 48 = k := by
  interval_cases k <;> exact ⟨by decide, by decide⟩

theorem decimalValue_append (X : List Char) (d : Char) :
    decimalValue (X ++ [d]) = 10 * decimalValue X + (d.toNat - 48) := by
  simp [decimalValue, List.foldl_append]

theorem toDigitsCore_spec (fuel : Nat) : ∀ (n : Nat) (ds : List Char), n < fuel →
    ∃ X, Nat.toDigitsCore 10 fuel n ds = X ++ ds ∧ X ≠ [] ∧
      (∀ c ∈ X, c.isDigit = true) ∧ decimalValue X = n := by
  induction fuel with
  | zero => intro n ds h; omega
  | succ fuel ih =>
    intro n ds h
    have hd := digitChar_isDigit (n % 10) (Nat.mod_lt _ (by decide))
    by_cases h0 : n / 10 = 0
    · refine ⟨[Nat.digitChar (n % 10)], ?_, by simp, ?_, ?_⟩
      · simp [Nat.toDigitsCore, h0]
      · intro c hc
        simp only [List.mem_singleton] at hc
        subst hc
        exact hd.1
      · have : n % 10 = n := Nat.mod_eq_of_lt (by omega)
        have h2 := hd.2
        rw [this] at h2
        simp [decimalValue, this, h2]
    · obtain ⟨X, hX, _, hdig, hval⟩ := ih (n / 10) (Nat.digitChar (n % 10) :: ds) (by omega)
      refine ⟨X ++ [Nat.digitChar (n % 10)], ?_, by simp, ?_, ?_⟩
      · simp [Nat.toDigitsCore, h0, hX]
      · intro c hc
        rcases List.mem_append.mp hc with hc | hc
        · exact hdig c hc
        · simp only [List.mem_singleton] at hc
          subst hc
          exact hd.1
      · rw [decimalValue_append, hval, hd.2]
        omega

theorem natRepr_spec (n : Nat) :
    (Nat.repr n).data ≠ [] ∧ (∀ c ∈ (Nat.repr n).data, c.isDigit = true) ∧
      decimalValue (Nat.repr n).data = n := by
  obtain ⟨X, hX, hne, hdig, hval⟩ := toDigitsCore_spec (n + 1) n [] (by omega)
  have : (Nat.repr n).data = X := by
    simp [Nat.repr, Nat.toDigits, hX, List.asString]
  rw [this]
  exact ⟨hne, hdig, hval⟩

theorem natRepr_injective (n m : Nat) (h : Nat.repr n = Nat.repr m) : n = m := by
  have h1 := (natRepr_spec n).2.2
  rw [h, (natRepr_spec m).2.2] at h1
  exact h1.symm

theorem fmtInt_ofNat (m : Nat) : fmtInt (Int.ofNat m) = Nat.repr m := rfl

theorem fmtInt_negSucc (m : Nat) : fmtInt (Int.negSucc m) = "-" ++ Nat.repr (m + 1) := rfl

theorem fmtInt_data_negSucc (m : Nat) :
    (fmtInt (Int.negSucc m)).data = '-' :: (Nat.repr (m + 1)).data := by
  rw [fmtInt_negSucc, String.data_append]
  rfl

theorem fmtInt_chars (n : Int) :
    (fmtInt n).data ≠ [] ∧ ∀ c ∈ (fmtInt n).data, c.isDigit = true ∨ c = '-' := by
  cases n with
  | ofNat m =>
    rw [fmtInt_ofNat]
    exact ⟨(natRepr_spec m).1, fun c hc => Or.inl ((natRepr_spec m).2.1 c hc)⟩
  | negSucc m =>
    rw [fmtInt_data_negSucc]
    refine ⟨by simp, fun c hc => ?_⟩
    rcases List.mem_cons.mp hc with hc | hc
    · exact Or.inr hc
    · exact Or.inl ((natRepr_spec (m + 1)).2.1 c hc)

theorem fmtInt_ne_empty (n : Int) : fmtInt n ≠ "" := by
  intro h
  have := (fmtInt_chars n).1
  rw [h] at this
  exact this rfl

theorem fmtInt_injective (a b : Int) (h : fmtInt a = fmtInt b) : a = b := by
  have hd : (fmtInt a).data = (fmtInt b).data := by rw [h]
  cases a with
  | ofNat m =>
    cases b with
    | ofNat k =>
      rw [fmtInt_ofNat, fmtInt_ofNat] at h
      rw [natRepr_injective m k h]
    | negSucc k =>
      rw [fmtInt_data_negSucc, fmtInt_ofNat] at hd
      have := (natRepr_spec m).2.1 '-' (by rw [hd]; simp)
      exact absurd this (by decide)
  | negSucc m =>
    cases b with
    | ofNat k =>
      rw [fmtInt_data_negSucc, fmtInt_ofNat] at hd
      have := (natRepr_spec k).2.1 '-' (by rw [← hd]; simp)
      exact absurd this (by decide)
    | negSucc k =>
      rw [fmtInt_data_negSucc, fmtInt_data_negSucc] at hd
      have h2 : Nat.repr (m + 1) = Nat.repr (k + 1) := by
        apply String.ext
        exact (List.cons.inj hd).2
      have := natRepr_injective _ _ h2
      have hmk : m = k := by omega
      rw [hmk]

theorem truncate_intCast (n : Int) : truncate (n : ℚ) = n := by
  unfold truncate
  simp only [Rat.intCast_num, Rat.intCast_den, Nat.div_one]
  split
  · rename_i h
    exact Int.natAbs_of_nonneg h
  · rename_i h
    have : n < 0 := by omega
    omega

theorem goInt_intCast (n : Int) (h1 : minInt ≤ n) (h2 : n < intLimit) :
    goInt (n : ℚ) = n := by
  unfold goInt
  rw [truncate_intCast, if_pos ⟨h1, h2⟩]

theorem goInt_range (q : ℚ) : minInt ≤ goInt q ∧ goInt q < intLimit := by
  unfold goInt
  split
  · assumption
  · exact ⟨le_refl _, by decide⟩

/-! ## Lemmas on the text of a signature -/

theorem string_append_left_cancel (a b c : String) : a ++ b = a ++ c ↔ b = c := by
  constructor
  · intro h
    apply String.ext
    have := congrArg String.data h
    simpa [String.data_append] using this
  · intro h
    rw [h]

theorem string_append_right_cancel (a b c : String) : a ++ c = b ++ c ↔ a = b := by
  constructor
  · intro h
    apply String.ext
    have := congrArg String.data h
    simpa [String.data_append] using this
  · intro h
    rw [h]

theorem append_split (l1 : List Char) : ∀ (l2 r1 r2 : List Char),
    (∀ c ∈ l1, c ≠ '|') → (∀ c ∈ l2, c ≠ '|') →
    (r1 = [] ∨ r1.head? = some '|') → (r2 = [] ∨ r2.head? = some '|') →
    l1 ++ r1 = l2 ++ r2 → l1 = l2 ∧ r1 = r2 := by
  induction l1 with
  | nil =>
    intro l2 r1 r2 _ h2 hr1 _ h
    cases l2 with
    | nil => exact ⟨rfl, by simpa using h⟩
    | cons c l2 =>
      simp only [List.nil_append, List.cons_append] at h
      rcases hr1 with hr1 | hr1
      · rw [hr1] at h
        exact absurd h (by simp)
      · rw [h] at hr1
        simp only [List.head?_cons, Option.some.injEq] at hr1
        exact absurd hr1 (h2 c (by simp))
  | cons c l1 ih =>
    intro l2 r1 r2 h1 h2 hr1 hr2 h
    cases l2 with
    | nil =>
      simp only [List.nil_append, List.cons_append] at h
      rcases hr2 with hr2 | hr2
      · rw [hr2] at h
        exact absurd h (by simp)
      · rw [← h] at hr2
        simp only [List.head?_cons, Option.some.injEq] at hr2
        exact absurd hr2 (h1 c (by simp))
    | cons c2 l2 =>
      simp only [List.cons_append, List.cons.injEq] at h
      obtain ⟨hc, ht⟩ := h
      obtain ⟨hl, hr⟩ := ih l2 r1 r2 (fun x hx => h1 x (by simp [hx]))
        (fun x hx => h2 x (by simp [hx])) hr1 hr2 ht
      exact ⟨by rw [hc, hl], hr⟩

theorem fmtInt_no_bar (n : Int) : ∀ c ∈ (fmtInt n).data, c ≠ '|' := by
  intro c hc
  rcases (fmtInt_chars n).2 c hc with h | h
  · intro hb
    rw [hb] at h
    exact absurd h (by decide)
  · rw [h]
    decide

theorem tailText_head (b c : Option Bool) :
    ((tailText b c).data = [] ∨ (tailText b c).data.head? = some '|') ∧
      (tailText b c).data.take 3 ≠ ['|', '|', 'm'] := by
  rcases b with _ | _ | _ <;> rcases c with _ | _ | _ <;> decide

theorem tailText_injective (b c b1 c1 : Option Bool) (h : tailText b c = tailText b1 c1) :
    b = b1 ∧ c = c1 := by
  revert h
  rcases b with _ | _ | _ <;> rcases c with _ | _ | _ <;> rcases b1 with _ | _ | _ <;>
    rcases c1 with _ | _ | _ <;> decide

theorem suffixText_none (b c : Option Bool) : suffixText none b c = tailText b c := by
  simp [suffixText, tailText]

theorem suffixText_some (n : Int) (b c : Option Bool) :
    suffixText (some n) b c = "||min=" ++ (fmtInt n ++ tailText b c) := by
  simp [suffixText, tailText, String.append_assoc]

theorem suffixText_some_take (n : Int) (b c : Option Bool) :
    (suffixText (some n) b c).data.take 3 = ['|', '|', 'm'] := by
  rw [suffixText_some, String.data_append]
  rfl

theorem suffixText_injective (a a1 : Option Int) (b b1 c c1 : Option Bool)
    (h : suffixText a b c = suffixText a1 b1 c1) : a = a1 ∧ b = b1 ∧ c = c1 := by
  cases a with
  | none =>
    cases a1 with
    | none =>
      rw [suffixText_none, suffixText_none] at h
      exact ⟨rfl, tailText_injective b c b1 c1 h⟩
    | some y =>
      have h1 := suffixText_some_take y b1 c1
      rw [← h, suffixText_none] at h1
      exact absurd h1 (tailText_head b c).2
  | some x =>
    cases a1 with
    | none =>
      have h1 := suffixText_some_take x b c
      rw [h, suffixText_none] at h1
      exact absurd h1 (tailText_head b1 c1).2
    | some y =>
      rw [suffixText_some, suffixText_some, string_append_left_cancel] at h
      have hd := congrArg String.data h
      rw [String.data_append, String.data_append] at hd
      obtain ⟨hl, hr⟩ := append_split _ _ _ _ (fmtInt_no_bar x) (fmtInt_no_bar y)
        (tailText_head b c).1 (tailText_head b1 c1).1 hd
      have hxy : x = y := fmtInt_injective x y (String.ext hl)
      exact ⟨by rw [hxy], tailText_injective b c b1 c1 (String.ext hr)⟩

theorem settingsSuffix_eq_suffixText (s : JObj) :
    settingsSuffix s = suffixText (approverCountOf s) (boolSetting s "allowDownvotes")
      (boolSetting s "creatorVoteCounts") := by
  unfold settingsSuffix suffixText approverCountOf boolSetting
  simp only
  congr 1
  · congr 1
    · split <;> simp_all
    · split <;> simp_all
  · split <;> simp_all

theorem policySignature_of_settings (d settings : JObj)
    (hs : d.lookup "settings" = some (.obj settings)) :
    PolicySignature d = policyTypeDisplayName d ++ "||" ++
      (match settings.lookup "scope" with
        | some (.arr scopes) => String.intercalate "," (scopeParts scopes)
        | _ => "") ++ settingsSuffix settings := by
  simp only [PolicySignature, hs]

theorem settingsSuffix_jset (k : String) (v : JVal) (s : JObj)
    (h1 : k ≠ "minimumApproverCount") (h2 : k ≠ "allowDownvotes")
    (h3 : k ≠ "creatorVoteCounts") : settingsSuffix (jset k v s) = settingsSuffix s := by
  simp only [settingsSuffix, lookup_jset_ne _ k v s (Ne.symm h1),
    lookup_jset_ne _ k v s (Ne.symm h2), lookup_jset_ne _ k v s (Ne.symm h3)]

theorem policyTypeDisplayName_jset_settings (d : JObj) (v : JVal) :
    policyTypeDisplayName (jset "settings" v d) = policyTypeDisplayName d := by
  simp only [policyTypeDisplayName, lookup_jset_ne "type" "settings" v d (by decide)]

/-! ## Lemmas on file names -/

theorem collapseRuns_mem (p : Char → Bool) (r : Char) : ∀ (l : List Char) (b : Bool) (c : Char),
    c ∈ collapseRuns p r b l → c = r ∨ (c ∈ l ∧ p c = false) := by
  intro l
  induction l with
  | nil => intro b c h; simp [collapseRuns] at h
  | cons x rest ih =>
    intro b c h
    simp only [collapseRuns] at h
    by_cases hp : p x = true
    · simp only [hp, if_true] at h
      cases b with
      | true =>
        simp only [if_true] at h
        rcases ih true c h with h1 | h1
        · exact Or.inl h1
        · exact Or.inr ⟨List.mem_cons_of_mem _ h1.1, h1.2⟩
      | false =>
        simp only [Bool.false_eq_true, if_false, List.mem_cons] at h
        rcases h with h | h
        · exact Or.inl h
        · rcases ih true c h with h1 | h1
          · exact Or.inl h1
          · exact Or.inr ⟨List.mem_cons_of_mem _ h1.1, h1.2⟩
    · simp only [hp, Bool.false_eq_true, if_false, List.mem_cons] at h
      rcases h with h | h
      · subst h
        exact Or.inr ⟨List.mem_cons_self _ _, by simpa using hp⟩
      · rcases ih false c h with h1 | h1
        · exact Or.inl h1
        · exact Or.inr ⟨List.mem_cons_of_mem _ h1.1, h1.2⟩

theorem collapseRuns_id (p : Char → Bool) (r : Char) : ∀ (l : List Char) (b : Bool),
    (∀ c ∈ l, p c = false) → collapseRuns p r b l = l := by
  intro l
  induction l with
  | nil => intro b _; simp [collapseRuns]
  | cons x rest ih =>
    intro b h
    have hx : p x = false := h x (List.mem_cons_self _ _)
    simp only [collapseRuns, hx, Bool.false_eq_true, if_false]
    rw [ih false (fun c hc => h c (List.mem_cons_of_mem _ hc))]

theorem collapseRuns_keeps (p : Char → Bool) (r : Char) : ∀ (l : List Char) (b : Bool) (c : Char),
    c ∈ l → p c = false → c ∈ collapseRuns p r b l := by
  intro l
  induction l with
  | nil => intro b c h; simp at h
  | cons x rest ih =>
    intro b c h hc
    simp only [collapseRuns]
    rcases List.mem_cons.mp h with h | h
    · subst h
      simp [hc]
    · by_cases hp : p x = true
      · simp only [hp, if_true]
        cases b with
        | true => simpa using ih true c h hc
        | false =>
          simp only [Bool.false_eq_true, if_false]
          exact List.mem_cons_of_mem _ (ih true c h hc)
      · simp only [hp, Bool.false_eq_true, if_false]
        exact List.mem_cons_of_mem _ (ih false c h hc)

theorem collapseRuns_inRun (p : Char → Bool) (r : Char) (l : List Char) :
    collapseRuns p r true l = collapseRuns p r false (l.dropWhile p) := by
  induction l with
  | nil => rfl
  | cons x rest ih =>
    by_cases hp : p x = true
    · simp only [collapseRuns, hp, if_true, List.dropWhile]
      exact ih
    · have hf : p x = false := by simpa using hp
      simp only [collapseRuns, hf, Bool.false_eq_true, if_false, List.dropWhile]

theorem collapseRuns_eq_replaceRuns (p : Char → Bool) (r : Char) : ∀ (n : Nat) (l : List Char),
    l.length ≤ n → collapseRuns p r false l = replaceRuns p r l := by
  intro n
  induction n with
  | zero =>
    intro l hl
    have : l = [] := List.length_eq_zero.mp (Nat.le_zero.mp hl)
    subst this
    simp [collapseRuns, replaceRuns]
  | succ n ih =>
    intro l hl
    cases l with
    | nil => simp [collapseRuns, replaceRuns]
    | cons x rest =>
      have hrest : rest.length ≤ n := by
        simp only [List.length_cons] at hl
        omega
      rw [replaceRuns]
      by_cases hp : p x = true
      · simp only [collapseRuns, hp, if_true, Bool.false_eq_true, if_false]
        rw [collapseRuns_inRun, ih _ (le_trans (List.dropWhile_sublist p).length_le hrest)]
      · have hf : p x = false := by simpa using hp
        simp only [collapseRuns, hf, Bool.false_eq_true, if_false]
        rw [ih _ hrest]

theorem replaceRuns_eq_nil (p : Char → Bool) (r : Char) (l : List Char) :
    replaceRuns p r l = [] ↔ l = [] := by
  cases l with
  | nil => simp [replaceRuns]
  | cons x rest =>
    rw [replaceRuns]
    by_cases hp : p x = true <;> simp [hp]

theorem dropWhile_id (p : Char → Bool) (l : List Char) (h : ∀ c ∈ l, p c = false) :
    l.dropWhile p = l := by
  cases l with
  | nil => rfl
  | cons x rest => simp [List.dropWhile, h x (List.mem_cons_self _ _)]

theorem trimSpace_id (s : String) (h : ∀ c ∈ s.data, isSpace c = false) : trimSpace s = s := by
  unfold trimSpace
  rw [dropWhile_id _ _ h, dropWhile_id _ _ (fun c hc => h c (List.mem_reverse.mp hc)),
    List.reverse_reverse]

theorem mem_trimSpace (s : String) (c : Char) (h : c ∈ (trimSpace s).data) : c ∈ s.data := by
  unfold trimSpace at h
  simp only at h
  have h1 := List.mem_reverse.mp h
  have h2 := (List.dropWhile_sublist _).subset h1
  have h3 := List.mem_reverse.mp h2
  exact (List.dropWhile_sublist _).subset h3

theorem isSpace_of_isReSpace (c : Char) (h : isSpace c = false) : isReSpace c = false := by
  simp only [isSpace, isReSpace, Bool.or_eq_false_iff, Bool.and_eq_false_iff, beq_eq_false_iff_ne,
    decide_eq_false_iff_not, ne_eq] at h ⊢
  omega

theorem not_isSpace_of_isFeedFileChar (c : Char) (h : isFeedFileChar c = true) :
    isSpace c = false := by
  simp only [isSpace, isFeedFileChar, Bool.or_eq_true, Bool.and_eq_true, beq_iff_eq,
    decide_eq_true_eq, Bool.or_eq_false_iff, Bool.and_eq_false_iff, beq_eq_false_iff_ne,
    decide_eq_false_iff_not, ne_eq] at h ⊢
  omega

/-! ## Lemmas on the queue rename table -/

theorem splitFirstEq_none (l : List Char) : splitFirstEq l = none ↔ l.contains '=' = false := by
  induction l with
  | nil => simp [splitFirstEq]
  | cons c rest ih =>
    by_cases hc : c = '='
    · subst hc
      simp [splitFirstEq]
    · have hb : (c == '=') = false := by simpa using hc
      have hb2 : ('=' == c) = false := by simpa using fun h => hc h.symm
      simp only [splitFirstEq, hb, Bool.false_eq_true, if_false, List.contains_cons, hb2,
        Bool.false_or]
      rw [← ih]
      cases splitFirstEq rest with
      | none => simp
      | some ab => simp

theorem splitFirstEq_some (l a b : List Char) (h : splitFirstEq l = some (a, b)) :
    a = l.takeWhile (fun c => c != '=') ∧ b = (l.dropWhile (fun c => c != '=')).drop 1 := by
  induction l generalizing a b with
  | nil => simp [splitFirstEq] at h
  | cons c rest ih =>
    by_cases hc : c = '='
    · subst hc
      simp only [splitFirstEq, beq_self_eq_true, if_true, Option.some.injEq,
        Prod.mk.injEq] at h
      obtain ⟨ha, hb⟩ := h
      subst ha hb
      simp [List.takeWhile, List.dropWhile]
    · have hb : (c == '=') = false := by simpa using hc
      simp only [splitFirstEq, hb, Bool.false_eq_true, if_false] at h
      cases hs : splitFirstEq rest with
      | none => simp [hs] at h
      | some ab =>
        obtain ⟨a1, b1⟩ := ab
        simp only [hs, Option.some.injEq, Prod.mk.injEq] at h
        obtain ⟨ha, hb1⟩ := h
        obtain ⟨iha, ihb⟩ := ih a1 b1 hs
        subst ha hb1
        have hne : (c != '=') = true := by simpa using hc
        simp only [List.takeWhile, List.dropWhile, hne]
        exact ⟨by rw [iha], ihb⟩

theorem parseKeyValuePair_blank (p : String) (h : trimSpace p = "") :
    parseKeyValuePair p = .ok none := by
  simp [parseKeyValuePair, h]

theorem parseKeyValuePair_invalid (p : String) (h : invalidPair p = true) :
    ∃ e, parseKeyValuePair p = .error e := by
  simp only [invalidPair, Bool.and_eq_true, bne_iff_ne, ne_eq, Bool.or_eq_true,
    Bool.not_eq_true', beq_iff_eq] at h
  obtain ⟨hnb, hbad⟩ := h
  have hb : (trimSpace p == "") = false := by simpa using hnb
  simp only [parseKeyValuePair, hb, Bool.false_eq_true, if_false]
  cases hs : splitFirstEq p.data with
  | none => exact ⟨_, rfl⟩
  | some ab =>
    obtain ⟨a, b⟩ := ab
    obtain ⟨ha, hb1⟩ := splitFirstEq_some _ _ _ hs
    have hc : p.data.contains '=' = true := by
      by_contra hcon
      have := (splitFirstEq_none p.data).mpr (by simpa using hcon)
      rw [this] at hs
      exact absurd hs (by simp)
    have hside : trimSpace ⟨a⟩ = "" ∨ trimSpace ⟨b⟩ = "" := by
      rcases hbad with (h1 | h1) | h1
      · rw [hc] at h1
        exact absurd h1 (by simp)
      · left
        rw [ha]
        exact h1
      · right
        rw [hb1]
        exact h1
    have : (trimSpace ⟨a⟩ == "" || trimSpace ⟨b⟩ == "") = true := by
      simpa using hside
    simp only [this, if_true]
    exact ⟨_, rfl⟩

theorem parseKeyValuePair_valid (p : String) (hnb : trimSpace p ≠ "")
    (h : invalidPair p = false) :
    parseKeyValuePair p = .ok (some (trimSpace (sourceText p), trimSpace (targetText p))) := by
  have hb : (trimSpace p == "") = false := by simpa using hnb
  have hb2 : (trimSpace p != "") = true := by simpa using hnb
  simp only [invalidPair, hb2, Bool.true_and, Bool.or_eq_false_iff, Bool.not_eq_false',
    beq_eq_false_iff_ne, ne_eq] at h
  obtain ⟨⟨hc, hsrc⟩, htgt⟩ := h
  simp only [parseKeyValuePair, hb, Bool.false_eq_true, if_false]
  cases hs : splitFirstEq p.data with
  | none =>
    have := (splitFirstEq_none p.data).mp hs
    rw [hc] at this
    exact absurd this (by simp)
  | some ab =>
    obtain ⟨a, b⟩ := ab
    obtain ⟨ha, hb1⟩ := splitFirstEq_some _ _ _ hs
    have e1 : trimSpace ⟨a⟩ = trimSpace (sourceText p) := by rw [ha]; rfl
    have e2 : trimSpace ⟨b⟩ = trimSpace (targetText p) := by rw [hb1]; rfl
    have : (trimSpace (sourceText p) == "" || trimSpace (targetText p) == "") = false := by
      simp [hsrc, htgt]
    simp only [e1, e2, this, Bool.false_eq_true, if_false]

theorem invalidPair_blank (p : String) (h : trimSpace p = "") : invalidPair p = false := by
  simp [invalidPair, h]

theorem parseKeyValueEntries_spec (pairs : List String) :
    ((∃ e, parseKeyValueEntries pairs = .error e) ↔ ∃ p ∈ pairs, invalidPair p = true) ∧
      ((∀ p ∈ pairs, invalidPair p = false) →
        parseKeyValueEntries pairs = .ok (pairEntries pairs)) := by
  induction pairs with
  | nil => simp [parseKeyValueEntries, pairEntries]
  | cons p rest ih =>
    obtain ⟨ih1, ih2⟩ := ih
    by_cases hblank : trimSpace p = ""
    · have hp := parseKeyValuePair_blank p hblank
      have hi := invalidPair_blank p hblank
      have hf : pairEntries (p :: rest) = pairEntries rest := by
        simp [pairEntries, List.filter, hblank]
      simp only [parseKeyValueEntries, hp, hf, List.mem_cons, exists_eq_or_imp, hi,
        Bool.false_eq_true, false_or, forall_eq_or_imp, true_and]
      exact ⟨ih1, ih2⟩
    · cases hinv : invalidPair p with
      | true =>
        obtain ⟨e, he⟩ := parseKeyValuePair_invalid p hinv
        simp only [parseKeyValueEntries, he, List.mem_cons, exists_eq_or_imp, hinv, true_or,
          iff_true, forall_eq_or_imp, Bool.true_eq_false, false_and, false_implies, and_true]
        exact ⟨e, rfl⟩
      | false =>
        have hp := parseKeyValuePair_valid p hblank hinv
        have hb2 : (trimSpace p != "") = true := by simpa using hblank
        have hf : pairEntries (p :: rest) =
            (trimSpace (sourceText p), trimSpace (targetText p)) :: pairEntries rest := by
          simp [pairEntries, List.filter, hb2]
        simp only [parseKeyValueEntries, hp, hf, List.mem_cons, exists_eq_or_imp, hinv,
          Bool.false_eq_true, false_or, forall_eq_or_imp, true_and]
        constructor
        · rw [← ih1]
          cases parseKeyValueEntries rest with
          | error e => simp
          | ok l => simp
        · intro hall
          rw [ih2 hall]

theorem lookup_append_of_no_key (k : String) (l1 l2 : List (String × String))
    (h : ∀ e ∈ l1, e.1 ≠ k) : (l1 ++ l2).lookup k = l2.lookup k := by
  induction l1 with
  | nil => rfl
  | cons e rest ih =>
    obtain ⟨a, b⟩ := e
    have hne : (k == a) = false := by
      simpa using fun hk => h (a, b) (List.mem_cons_self _ _) hk.symm
    simp only [List.cons_append, List.lookup, hne]
    exact ih (fun e he => h e (List.mem_cons_of_mem _ he))

theorem lookup_eq_none_of_no_key (k : String) (l : List (String × String))
    (h : ∀ e ∈ l, e.1 ≠ k) : l.lookup k = none := by
  have := lookup_append_of_no_key k l [] h
  simpa using this

theorem pairEntries_append (l1 l2 : List String) :
    pairEntries (l1 ++ l2) = pairEntries l1 ++ pairEntries l2 := by
  simp [pairEntries]

theorem pairEntries_cons_nonblank (p : String) (rest : List String) (h : trimSpace p ≠ "") :
    pairEntries (p :: rest) =
      (trimSpace (sourceText p), trimSpace (targetText p)) :: pairEntries rest := by
  have hb2 : (trimSpace p != "") = true := by simpa using h
  simp [pairEntries, List.filter, hb2]

theorem mem_pairEntries (e : String × String) (l : List String) (h : e ∈ pairEntries l) :
    ∃ q ∈ l, trimSpace q ≠ "" ∧ e.1 = trimSpace (sourceText q) := by
  simp only [pairEntries, List.mem_map, List.mem_filter, bne_iff_ne, ne_eq] at h
  obtain ⟨q, ⟨hq, hnb⟩, he⟩ := h
  exact ⟨q, hq, hnb, by rw [← he]⟩

/-! ## Lemmas on the identity search -/

theorem identityLoop_eq (hint : IdentityHint) (val : List JVal) : ∀ bestId : String,
    identityLoop hint bestId val =
      match val.find? (uniqueNameMatches hint) with
      | some r => .returned (resultId r)
      | none =>
        .finished (if bestId ≠ "" then bestId
          else match val.find? (displayNameMatches hint) with
            | some r => resultId r
            | none => "") := by
  induction val with
  | nil =>
    intro bestId
    by_cases hb : bestId = "" <;> simp [identityLoop, hb]
  | cons r rest ih =>
    intro bestId
    cases r with
    | obj m =>
      by_cases hu : (hint.UniqueName != "" &&
          equalFold (stringField m "uniqueName") hint.UniqueName) = true
      · simp [identityLoop, List.find?, uniqueNameMatches, hu, resultId]
      · have hu2 : uniqueNameMatches hint (.obj m) = false := by
          simpa [uniqueNameMatches] using hu
        simp only [identityLoop, hu, Bool.false_eq_true, if_false, List.find?, hu2]
        by_cases hd : (hint.DisplayName != "" &&
            equalFold (stringField m "displayName") hint.DisplayName) = true
        · by_cases hb : bestId = ""
          · subst hb
            have hc : (("" : String) == "" && hint.DisplayName != "" &&
                equalFold (stringField m "displayName") hint.DisplayName) = true := by
              simpa using hd
            simp only [hc, if_true, ih]
            by_cases hid : stringField m "id" = ""
            · have hdm : displayNameMatches hint (.obj m) = false := by
                simp [displayNameMatches, hid]
              simp [hdm, hid]
            · have hdm : displayNameMatches hint (.obj m) = true := by
                have : (stringField m "id" != "") = true := by simpa using hid
                simp only [displayNameMatches, this, Bool.true_and]
                exact hd
              simp [hdm, hid, resultId]
          · have hc : (bestId == "" && hint.DisplayName != "" &&
                equalFold (stringField m "displayName") hint.DisplayName) = false := by
              simp [hb]
            simp only [hc, Bool.false_eq_true, if_false, ih]
            simp [hb]
        · have hc : (bestId == "" && hint.DisplayName != "" &&
              equalFold (stringField m "displayName") hint.DisplayName) = false := by
            rw [Bool.and_assoc]
            simp only [Bool.not_eq_true] at hd
            rw [hd, Bool.and_false]
          have hdm : displayNameMatches hint (.obj m) = false := by
            simp only [displayNameMatches]
            rw [Bool.and_assoc]
            simp only [Bool.not_eq_true] at hd
            rw [hd, Bool.and_false]
          simp only [hc, Bool.false_eq_true, if_false, ih, hdm]
    | _ =>
      simp only [identityLoop, List.find?, uniqueNameMatches, displayNameMatches, ih]

/-! ## Theorems -/

/-- C3: the signature of a policy document does not depend on the value of its
top-level `id` field: setting `id` to any two values gives the same signature. -/
theorem policySignature_id_irrelevant (d : JObj) (a b : JVal) :
    PolicySignature (jset "id" a d) = PolicySignature (jset "id" b d) := by
  have ht : ∀ v, (jset "id" v d).lookup "type" = d.lookup "type" :=
    fun v => lookup_jset_ne "type" "id" v d (by decide)
  have hs : ∀ v, (jset "id" v d).lookup "settings" = d.lookup "settings" :=
    fun v => lookup_jset_ne "settings" "id" v d (by decide)
  simp only [PolicySignature, policyTypeDisplayName, ht, hs]

/-- C1: reference integrity of `RemapPolicyScopeRepoIDs`. When the call returns
no error, every entry of `settings.scope` whose `repositoryId` was a non-blank
string `s` has, at the same position of the resulting payload, the `repositoryId`
`targetRepoIDByName[lower(sourceRepoNameByID[lower(trim(s))])]`, and that id is
not empty. -/
theorem remapPolicyScopeRepoIDs_reference_integrity (payload : JObj) (sourceProject : String)
    (sourceRepoNameByID targetRepoIDByName : String → Option String)
    (hok : (RemapPolicyScopeRepoIDs payload sourceProject
      sourceRepoNameByID targetRepoIDByName).2 = none)
    (i : Nat) (e : JVal) (s : String)
    (he : (policyScope payload)[i]? = some e)
    (hs : repositoryIdOf e = .str s) (hb : trimSpace s ≠ "") :
    ∃ e1, (policyScope (RemapPolicyScopeRepoIDs payload sourceProject
        sourceRepoNameByID targetRepoIDByName).1)[i]? = some e1 ∧
      repositoryIdOf e1 = .str ((targetRepoIDByName
        (toLower ((sourceRepoNameByID (toLower (trimSpace s))).getD ""))).getD "") ∧
      (targetRepoIDByName
        (toLower ((sourceRepoNameByID (toLower (trimSpace s))).getD ""))).getD "" ≠ "" := by
  obtain ⟨h1, h2⟩ := policyScope_remap payload sourceProject sourceRepoNameByID targetRepoIDByName
  rw [h2] at hok
  refine ⟨remapScopeEntry sourceRepoNameByID targetRepoIDByName e, ?_, ?_, ?_⟩
  · rw [h1]
    exact remapScopeEntries_ok_get _ _ _ _ hok i e he
  · exact repositoryIdOf_remapScopeEntry _ _ e s hs hb
  · intro hempty
    have hfail : (remapScopeEntries sourceProject sourceRepoNameByID targetRepoIDByName
        (policyScope payload)).2.isSome = true := by
      rw [remapScopeEntries_error_iff]
      exact ⟨e, List.getElem?_mem he, s, hs, hb, Or.inr hempty⟩
    rw [hok] at hfail
    simp at hfail

/-- Witness for C1: the sample policy, whose first scope entry names the source
repository ` SRC-1 `, is rewritten to the target id `tgt-9`. The policy scoped to
the source repository `ÉCOLE`, against a target that has `École` and `école`, is
rewritten to `tgt-B`, the id that the table holds under the key `école`. -/
theorem remapPolicyScopeRepoIDs_reference_integrity_witness :
    (∃ e1, (policyScope (RemapPolicyScopeRepoIDs samplePolicy "P"
        sampleSourceRepos sampleTargetRepos).1)[0]? = some e1 ∧
      repositoryIdOf e1 = .str ((sampleTargetRepos
        (toLower ((sampleSourceRepos (toLower (trimSpace " SRC-1 "))).getD ""))).getD "") ∧
      (sampleTargetRepos
        (toLower ((sampleSourceRepos (toLower (trimSpace " SRC-1 "))).getD ""))).getD "" ≠
        "") ∧
    (∃ e1, (policyScope (RemapPolicyScopeRepoIDs accentPolicy "P"
        (sourceRepoNameByID accentSourceRepoList)
        (targetRepoIDByName accentTargetRepoList)).1)[0]? = some e1 ∧
      repositoryIdOf e1 = .str "tgt-B" ∧ "tgt-B" ≠ "") ∧
    (policyScope (RemapPolicyScopeRepoIDs accentPolicy "P"
        (sourceRepoNameByID accentSourceRepoList)
        (targetRepoIDByName accentTargetRepoList)).1).map repositoryIdOf = [.str "tgt-B"] :=
  ⟨remapPolicyScopeRepoIDs_reference_integrity samplePolicy "P" sampleSourceRepos
      sampleTargetRepos (by decide) 0
      (.obj [("repositoryId", .str " SRC-1 "), ("refName", .str "refs/heads/main"),
        ("matchKind", .str "Exact")])
      " SRC-1 " rfl rfl (by decide),
    remapPolicyScopeRepoIDs_reference_integrity accentPolicy "P"
      (sourceRepoNameByID accentSourceRepoList) (targetRepoIDByName accentTargetRepoList)
      (by decide) 0
      (.obj [("repositoryId", .str "src-É"), ("refName", .str "refs/heads/main"),
        ("matchKind", .str "Exact")])
      "src-É" rfl rfl (by decide),
    rfl⟩

/-- C4: `RemapPolicyScopeRepoIDs` returns an error exactly when some entry of
`settings.scope` has a non-blank string `repositoryId` `s` for which the source
table gives no (or an empty) name, or the target table gives no (or an empty) id
for that name lower-cased; and an entry whose `repositoryId` is `null` is left
as it is, whatever the call returns. -/
theorem remapPolicyScopeRepoIDs_error_iff (payload : JObj) (sourceProject : String)
    (sourceRepoNameByID targetRepoIDByName : String → Option String) :
    ((RemapPolicyScopeRepoIDs payload sourceProject
        sourceRepoNameByID targetRepoIDByName).2.isSome = true ↔
      ∃ e ∈ policyScope payload, ∃ s, repositoryIdOf e = .str s ∧ trimSpace s ≠ "" ∧
        ((sourceRepoNameByID (toLower (trimSpace s))).getD "" = "" ∨
         (targetRepoIDByName
            (toLower ((sourceRepoNameByID (toLower (trimSpace s))).getD ""))).getD "" = "")) ∧
    (∀ (i : Nat) (e : JVal), (policyScope payload)[i]? = some e → repositoryIdOf e = .null →
      (policyScope (RemapPolicyScopeRepoIDs payload sourceProject
        sourceRepoNameByID targetRepoIDByName).1)[i]? = some e) := by
  obtain ⟨h1, h2⟩ := policyScope_remap payload sourceProject sourceRepoNameByID targetRepoIDByName
  refine ⟨?_, ?_⟩
  · rw [h2, remapScopeEntries_error_iff]
    rfl
  · intro i e he hnull
    rw [h1]
    exact remapScopeEntries_null_get _ _ _ _ i e he hnull

/-- Witness for C4: the policy scoped to the source repository `ÉCOLE` resolves
against a target that has `école`, and the call returns no error; the sample
policy against an empty target table has the unresolved entry ` SRC-1 `, and the
call returns an error. -/
theorem remapPolicyScopeRepoIDs_error_iff_witness :
    (RemapPolicyScopeRepoIDs accentPolicy "P" (sourceRepoNameByID accentSourceRepoList)
      (targetRepoIDByName accentTargetRepoList)).2.isSome = false ∧
    (RemapPolicyScopeRepoIDs samplePolicy "P" sampleSourceRepos (tableOf [])).2.isSome = true ∧
    (policyScope (RemapPolicyScopeRepoIDs samplePolicy "P" sampleSourceRepos
      (tableOf [])).1)[1]? =
      some (.obj [("repositoryId", .null), ("refName", .str "refs/heads/release"),
        ("matchKind", .str "Prefix")]) :=
  ⟨by decide,
    (remapPolicyScopeRepoIDs_error_iff samplePolicy "P" sampleSourceRepos (tableOf [])).1.mpr
      ⟨.obj [("repositoryId", .str " SRC-1 "), ("refName", .str "refs/heads/main"),
          ("matchKind", .str "Exact")], by simp [policyScope, samplePolicy, List.lookup],
        " SRC-1 ", rfl, by decide, Or.inr (by decide)⟩,
    (remapPolicyScopeRepoIDs_error_iff samplePolicy "P" sampleSourceRepos (tableOf [])).2 1 _
      rfl rfl⟩

/-- C6: evaluation at the failing input. The policy has a non-empty
`requiredReviewerIds`, the payload has no identity hints, and
`RemapPolicyIdentityIDs` returns no error and leaves the payload, with its
source reviewer id, as it is. -/
theorem remapPolicyIdentityIDs_no_hints_returns_nil :
    policySetting reviewerPolicyNoHints "requiredReviewerIds" = some (.arr [.str "src-user-1"]) ∧
    (readPolicyHints reviewerPolicyNoHints).Identities = [] ∧
    (RemapPolicyIdentityIDs reviewerPolicyNoHints findNobody).2 = none ∧
    (RemapPolicyIdentityIDs reviewerPolicyNoHints findNobody).1 = reviewerPolicyNoHints :=
  ⟨rfl, rfl, rfl, rfl⟩

/-- C7 (amended): partially resolved reviewer lists. For a payload that has a
`settings` object and identity hints, with `idMap` the source ids whose hint
resolves in the target to a non-blank id: (a) the call fails if `idMap` is
empty; (b) it fails if `requiredReviewerIds` is a non-empty list none of whose
entries is a non-blank string with `trim(s)` in `idMap`; (c) otherwise, when
`requiredReviewerIds` is a list, the call succeeds and replaces it by the list,
in the original order, of `idMap[trim(s)]` for exactly those entries; every
element of the result is an id that the target lookup returned for a hinted
identity, and the result is non-empty when the original list was. -/
theorem remapPolicyIdentityIDs_reviewer_list (payload settings : JObj)
    (find : IdentityHint → Option String)
    (hset : payload.lookup "settings" = some (.obj settings))
    (hh : (readPolicyHints payload).Identities ≠ []) :
    (policyIdMap find payload = [] →
      (RemapPolicyIdentityIDs payload find).2 = some .noIdentitiesMapped) ∧
    (∀ arr, settings.lookup "requiredReviewerIds" = some (.arr arr) → arr ≠ [] →
      (∀ v ∈ arr, reviewerTarget (policyIdMap find payload) v = none) →
      (RemapPolicyIdentityIDs payload find).2.isSome = true) ∧
    (∀ arr, settings.lookup "requiredReviewerIds" = some (.arr arr) →
      policyIdMap find payload ≠ [] →
      (arr = [] ∨ ∃ v ∈ arr, (reviewerTarget (policyIdMap find payload) v).isSome = true) →
      (RemapPolicyIdentityIDs payload find).2 = none ∧
      policySetting (RemapPolicyIdentityIDs payload find).1 "requiredReviewerIds" =
        some (.arr ((arr.filterMap (reviewerTarget (policyIdMap find payload))).map JVal.str)) ∧
      (∀ t ∈ arr.filterMap (reviewerTarget (policyIdMap find payload)),
        ∃ srcId hint, (srcId, hint) ∈ (readPolicyHints payload).Identities ∧
          find hint = some t ∧ trimSpace t ≠ "") ∧
      (arr ≠ [] → arr.filterMap (reviewerTarget (policyIdMap find payload)) ≠ [])) := by
  have hU := remapPolicyIdentityIDs_unfold payload settings find hset hh
  have hne : ∀ k t, (policyIdMap find payload).lookup k = some t → t ≠ "" :=
    fun k t h => buildIdMap_lookup_ne_empty find _ k t h
  refine ⟨?_, ?_, ?_⟩
  · intro hnil
    rw [hU, hnil]
    simp
  · intro arr harr hne0 hall
    rw [hU]
    by_cases hm : (policyIdMap find payload).length = 0
    · simp [hm]
    · have hnew : remapReviewerIds (policyIdMap find payload) arr = [] := by
        rw [remapReviewerIds_eq _ hne]
        have : arr.filterMap (reviewerTarget (policyIdMap find payload)) = [] := by
          rw [List.filterMap_eq_nil_iff]
          exact hall
        rw [this]
        rfl
      have hpos : 0 < arr.length := List.length_pos.mpr hne0
      simp [hm, harr, hnew, hpos]
  · intro arr harr hmne hsome
    have hm : ¬ (policyIdMap find payload).length = 0 := by
      intro h0
      exact hmne (List.length_eq_zero.mp h0)
    have hnonempty : arr ≠ [] → arr.filterMap (reviewerTarget (policyIdMap find payload)) ≠ [] := by
      intro hne0 hfm
      rcases hsome with h | ⟨v, hv, hvs⟩
      · exact hne0 h
      · rw [List.filterMap_eq_nil_iff] at hfm
        rw [hfm v hv] at hvs
        simp at hvs
    have hcond : (decide (arr.length > 0) &&
        (remapReviewerIds (policyIdMap find payload) arr).length == 0) = false := by
      rw [remapReviewerIds_eq _ hne]
      by_cases h0 : arr = []
      · subst h0
        simp
      · have := hnonempty h0
        have hl : ((arr.filterMap (reviewerTarget (policyIdMap find payload))).map
            JVal.str).length ≠ 0 := by
          rw [List.length_map]
          intro hz
          exact this (List.length_eq_zero.mp hz)
        rw [beq_false_of_ne hl, Bool.and_false]
    have hres : RemapPolicyIdentityIDs payload find =
        (jset "settings" (.obj
          (match (jset "requiredReviewerIds"
              (.arr (remapReviewerIds (policyIdMap find payload) arr)) settings).lookup
              "requiredReviewers" with
            | some (.arr a2) =>
              if a2.length > 0 &&
                  (remapReviewerObjects (policyIdMap find payload) a2).length == 0
              then jdel "requiredReviewers" (jset "requiredReviewerIds"
                (.arr (remapReviewerIds (policyIdMap find payload) arr)) settings)
              else jset "requiredReviewers"
                (.arr (remapReviewerObjects (policyIdMap find payload) a2))
                (jset "requiredReviewerIds"
                  (.arr (remapReviewerIds (policyIdMap find payload) arr)) settings)
            | _ => jset "requiredReviewerIds"
                (.arr (remapReviewerIds (policyIdMap find payload) arr)) settings)) payload,
          none) := by
      rw [hU]
      simp only [harr, hcond]
      simp [hm]
    refine ⟨?_, ?_, ?_, hnonempty⟩
    · rw [hres]
    · rw [hres]
      simp only [policySetting, lookup_jset_eq]
      have hk : ("requiredReviewerIds" : String) ≠ "requiredReviewers" := by decide
      split
      · split
        · rw [lookup_jdel_ne _ _ _ hk, lookup_jset_eq, remapReviewerIds_eq _ hne]
        · rw [lookup_jset_ne _ _ _ _ hk, lookup_jset_eq, remapReviewerIds_eq _ hne]
      · rw [lookup_jset_eq, remapReviewerIds_eq _ hne]
    · intro t ht
      rw [List.mem_filterMap] at ht
      obtain ⟨v, _, hv⟩ := ht
      cases v with
      | str s0 =>
        simp only [reviewerTarget] at hv
        split at hv
        · simp at hv
        · obtain ⟨hint, hmem, hf, hb⟩ :=
            buildIdMap_mem find _ _ t (mem_of_lookup_eq_some _ _ t hv)
          exact ⟨_, hint, hmem, hf, hb⟩
      | _ => simp [reviewerTarget] at hv

/-- Witness for C7: of the three reviewers of the sample policy only Ann
resolves in the target; the call succeeds and leaves her target id alone in
the list. -/
theorem remapPolicyIdentityIDs_reviewer_list_witness :
    (RemapPolicyIdentityIDs reviewerPolicy findAnn).2 = none ∧
    policySetting (RemapPolicyIdentityIDs reviewerPolicy findAnn).1 "requiredReviewerIds" =
      some (.arr [.str "tgt-ann"]) :=
  have h := (remapPolicyIdentityIDs_reviewer_list reviewerPolicy
    [("requiredReviewerIds", .arr [.str " src-user-2 ", .str "src-user-1", .str "src-user-3"])]
    findAnn rfl (by decide)).2.2
      [.str " src-user-2 ", .str "src-user-1", .str "src-user-3"] rfl (by decide)
      (Or.inr ⟨.str "src-user-1", by simp, rfl⟩)
  ⟨h.1, h.2.1⟩

/-- C7, counterexample to the claim as stated. (a) A payload with identity hints
and no `settings`: no hint resolves, `idMap` is empty, and the call returns no
error. (c) A payload whose `requiredReviewerIds` is the empty list: `idMap` is
non-empty, the call succeeds, and the resulting list holds no target id. -/
theorem remapPolicyIdentityIDs_reviewer_list_counterexample :
    ((readPolicyHints hintsOnlyPolicy).Identities ≠ [] ∧
      policyIdMap findNobody hintsOnlyPolicy = [] ∧
      (RemapPolicyIdentityIDs hintsOnlyPolicy findNobody).2 = none) ∧
    ((readPolicyHints emptyReviewersPolicy).Identities ≠ [] ∧
      policyIdMap findAnn emptyReviewersPolicy ≠ [] ∧
      policySetting emptyReviewersPolicy "requiredReviewerIds" = some (.arr []) ∧
      (RemapPolicyIdentityIDs emptyReviewersPolicy findAnn).2 = none ∧
      policySetting (RemapPolicyIdentityIDs emptyReviewersPolicy findAnn).1
        "requiredReviewerIds" = some (.arr [])) :=
  ⟨⟨by decide, rfl, rfl⟩, ⟨by decide, by decide, rfl, rfl, rfl⟩⟩

/-- C10: service-connection references in the step inputs of a build
definition. For the input `(k, v)` of any step of any phase,
`RemapBuildDefinitionRefsByName` sets the input to `id` when `IsEndpointKey(k)`
holds, `v` is a non-empty string, `srcEndpointIDToName[lower(v)] = n` exists and
`tgtEndpointNameToID[n] = id` exists; in every other case the input keeps its
value. -/
theorem remapBuildDefinition_step_inputs (d : JObj)
    (srcEndpointIDToName tgtEndpointNameToID : String → Option String)
    (srcVarGroupIDToName : Int → Option String) (tgtVarGroupNameToID : String → Option Int)
    (srcTaskGroupIDToName tgtTaskGroupNameToID : String → Option String)
    (i j : Nat) (k : String) (v : JVal) (hv : buildStepInput d i j k = some v) :
    (∀ s n id, v = .str s → s ≠ "" → IsEndpointKey k = true →
      srcEndpointIDToName (toLower s) = some n → tgtEndpointNameToID n = some id →
      buildStepInput (RemapBuildDefinitionRefsByName d srcEndpointIDToName tgtEndpointNameToID
        srcVarGroupIDToName tgtVarGroupNameToID srcTaskGroupIDToName tgtTaskGroupNameToID)
        i j k = some (.str id)) ∧
    ((¬ ∃ s n id, v = .str s ∧ s ≠ "" ∧ IsEndpointKey k = true ∧
        srcEndpointIDToName (toLower s) = some n ∧ tgtEndpointNameToID n = some id) →
      buildStepInput (RemapBuildDefinitionRefsByName d srcEndpointIDToName tgtEndpointNameToID
        srcVarGroupIDToName tgtVarGroupNameToID srcTaskGroupIDToName tgtTaskGroupNameToID)
        i j k = some v) := by
  have hres : buildStepInput (RemapBuildDefinitionRefsByName d srcEndpointIDToName
      tgtEndpointNameToID srcVarGroupIDToName tgtVarGroupNameToID srcTaskGroupIDToName
      tgtTaskGroupNameToID) i j k =
      some (remapEndpointInput srcEndpointIDToName tgtEndpointNameToID k v) := by
    unfold buildStepInput at hv ⊢
    rw [buildPhases_remap, List.getElem?_map]
    cases hp : (buildPhases d)[i]? with
    | none => simp [hp] at hv
    | some ph =>
      simp only [hp, Option.map_some'] at hv ⊢
      rw [phaseSteps_remapBuildPhase, List.getElem?_map]
      cases hst : (phaseSteps ph)[j]? with
      | none => simp [hst] at hv
      | some st =>
        simp only [hst, Option.map_some'] at hv ⊢
        rw [stepInputs_remapBuildStep, remapStepInputs, lookup_map_value, hv]
        rfl
  rw [hres]
  refine ⟨?_, ?_⟩
  · intro s n id hs hne hkey hsrc htgt
    subst hs
    simp [remapEndpointInput, hne, hkey, hsrc, htgt]
  · intro hnot
    congr 1
    cases v with
    | str s =>
      by_cases hne : s = ""
      · simp [remapEndpointInput, hne]
      · by_cases hkey : IsEndpointKey k = true
        · cases hsrc : srcEndpointIDToName (toLower s) with
          | none => simp [remapEndpointInput, hne, hkey, hsrc]
          | some n =>
            cases htgt : tgtEndpointNameToID n with
            | none => simp [remapEndpointInput, hne, hkey, hsrc, htgt]
            | some id => exact absurd ⟨s, n, id, rfl, hne, hkey, hsrc, htgt⟩ hnot
        · simp [remapEndpointInput, hne, hkey]
    | _ => simp [remapEndpointInput]

/-- Witness for C10: in the sample build definition the input
`ConnectedServiceName = EP-1` is rewritten to the target id `ep-900`, and the
input `script`, whose key is not on the allow-list, keeps the same string. An
input whose key is `KubernetesServiceEndpoint` written with the Kelvin sign, and
whose value `EP-É` lower-cases to the source id `ep-é`, is rewritten as well. -/
theorem remapBuildDefinition_step_inputs_witness :
    buildStepInput (RemapBuildDefinitionRefsByName sampleBuildDefinition sampleSourceEndpoints
      sampleTargetEndpoints sampleSourceVarGroups sampleTargetVarGroups sampleSourceTaskGroups
      sampleTargetTaskGroups) 0 0 "ConnectedServiceName" = some (.str "ep-900") ∧
    buildStepInput (RemapBuildDefinitionRefsByName sampleBuildDefinition sampleSourceEndpoints
      sampleTargetEndpoints sampleSourceVarGroups sampleTargetVarGroups sampleSourceTaskGroups
      sampleTargetTaskGroups) 0 0 "script" = some (.str "EP-1") ∧
    buildStepInput (RemapBuildDefinitionRefsByName accentBuildDefinition accentSourceEndpoints
      accentTargetEndpoints sampleSourceVarGroups sampleTargetVarGroups sampleSourceTaskGroups
      sampleTargetTaskGroups) 0 0 "\u212AubernetesServiceEndpoint" = some (.str "ep-901") :=
  ⟨(remapBuildDefinition_step_inputs sampleBuildDefinition sampleSourceEndpoints
      sampleTargetEndpoints sampleSourceVarGroups sampleTargetVarGroups sampleSourceTaskGroups
      sampleTargetTaskGroups 0 0 "ConnectedServiceName" (.str "EP-1") rfl).1
      "EP-1" "Azure Prod" "ep-900" rfl (by decide) (by decide) rfl rfl,
   (remapBuildDefinition_step_inputs sampleBuildDefinition sampleSourceEndpoints
      sampleTargetEndpoints sampleSourceVarGroups sampleTargetVarGroups sampleSourceTaskGroups
      sampleTargetTaskGroups 0 0 "script" (.str "EP-1") rfl).2
      (by
        rintro ⟨s, n, id, hs, -, hkey, -⟩
        revert hkey
        decide),
   (remapBuildDefinition_step_inputs accentBuildDefinition accentSourceEndpoints
      accentTargetEndpoints sampleSourceVarGroups sampleTargetVarGroups sampleSourceTaskGroups
      sampleTargetTaskGroups 0 0 "\u212AubernetesServiceEndpoint" (.str "EP-É") rfl).1
      "EP-É" "Cluster" "ep-901" rfl (by decide) (by decide) rfl rfl⟩

/-- C8: evaluation at the failing input. Variable group 5 has no name in the
source table; `RemapBuildDefinitionRefsByName` keeps the entry with the source
id 5, next to the resolved entry 70. -/
theorem remapBuildDefinition_keeps_unresolved_variableGroup :
    sampleSourceVarGroups 5 = none ∧
    (RemapBuildDefinitionRefsByName sampleBuildDefinition sampleSourceEndpoints
      sampleTargetEndpoints sampleSourceVarGroups sampleTargetVarGroups sampleSourceTaskGroups
      sampleTargetTaskGroups).lookup "variableGroups" =
      some (.arr [.obj [("id", .int 5)], .obj [("id", .int 70)]]) :=
  ⟨rfl, rfl⟩

/-- C9: variable-group lists in release definitions. After
`RemapReleaseDefinitionRefsByName`, `payload.variableGroups` and the
`variableGroups` of each environment are, in the original order, the ids
`tgtVarGroupNameToID[lower(srcVarGroupIDToName[id])]` of exactly those entries
whose id is non-zero, whose source name exists and is non-blank, and whose
target id exists and is non-zero; every id of the result is a non-zero value of
the target table. -/
theorem remapReleaseDefinition_variableGroups (payload : JObj)
    (srcEndpointIDToName tgtEndpointNameToID : String → Option String)
    (srcVarGroupIDToName : Int → Option String) (tgtVarGroupNameToID : String → Option Int)
    (srcTaskGroupIDToName tgtTaskGroupNameToID : String → Option String) :
    (∀ vgs, payload.lookup "variableGroups" = some (.arr vgs) →
      (RemapReleaseDefinitionRefsByName payload srcEndpointIDToName tgtEndpointNameToID
        srcVarGroupIDToName tgtVarGroupNameToID srcTaskGroupIDToName
        tgtTaskGroupNameToID).lookup "variableGroups" =
        some (.ints (vgs.filterMap
          (resolvedVarGroupID srcVarGroupIDToName tgtVarGroupNameToID)))) ∧
    (∀ (i : Nat) (e : JVal) (evgs : List JVal), (releaseEnvironments payload)[i]? = some e →
      environmentVarGroups e = some (.arr evgs) →
      ∃ e1, (releaseEnvironments (RemapReleaseDefinitionRefsByName payload srcEndpointIDToName
          tgtEndpointNameToID srcVarGroupIDToName tgtVarGroupNameToID srcTaskGroupIDToName
          tgtTaskGroupNameToID))[i]? = some e1 ∧
        environmentVarGroups e1 = some (.ints (evgs.filterMap
          (resolvedVarGroupID srcVarGroupIDToName tgtVarGroupNameToID)))) ∧
    (∀ (vgs : List JVal) (t : Int),
      t ∈ vgs.filterMap (resolvedVarGroupID srcVarGroupIDToName tgtVarGroupNameToID) →
      t ≠ 0 ∧ ∃ x ∈ vgs, ∃ id name, varGroupEntryId x = some id ∧ id ≠ 0 ∧
        srcVarGroupIDToName id = some name ∧ trimSpace name ≠ "" ∧
        tgtVarGroupNameToID (toLower name) = some t) := by
  refine ⟨?_, ?_, ?_⟩
  · intro vgs h
    rw [lookup_variableGroups_remapRelease _ _ _ _ _ _ _ vgs h, remapReleaseVarGroupIDs_eq]
  · intro i e evgs he hv
    refine ⟨remapEnvironmentTasks srcEndpointIDToName tgtEndpointNameToID srcTaskGroupIDToName
      tgtTaskGroupNameToID (remapEnvironmentVarGroups srcVarGroupIDToName tgtVarGroupNameToID e),
      ?_, ?_⟩
    · rw [releaseEnvironments_remap, List.getElem?_map, he]
      rfl
    · rw [environmentVarGroups_remap _ _ _ _ _ _ e evgs hv, remapReleaseVarGroupIDs_eq]
  · intro vgs t ht
    rw [List.mem_filterMap] at ht
    obtain ⟨x, hx, hr⟩ := ht
    unfold resolvedVarGroupID at hr
    cases hid : varGroupEntryId x with
    | none => simp [hid] at hr
    | some id =>
      simp only [hid] at hr
      by_cases h0 : id = 0
      · simp [h0] at hr
      · simp only [h0, if_false] at hr
        cases hs : srcVarGroupIDToName id with
        | none => simp [hs] at hr
        | some name =>
          simp only [hs] at hr
          by_cases hb : trimSpace name = ""
          · simp [hb] at hr
          · simp only [hb, if_false] at hr
            cases htg : tgtVarGroupNameToID (toLower name) with
            | none => simp [htg] at hr
            | some t1 =>
              simp only [htg] at hr
              by_cases ht0 : t1 = 0
              · simp [ht0] at hr
              · simp only [ht0, if_false, Option.some.injEq] at hr
                subst hr
                exact ⟨ht0, x, hx, id, name, hid, h0, hs, hb, htg⟩

/-- C9 at a release definition whose definition-level list names the source
groups 9 (`École`), 7 (`Shared`, as an object), 8 (`Legacy`, missing in the
target), 5 (unknown in the source), a string and 0, and whose stage names 8, 7
and 9: the lists become `[90, 70]` and `[70, 90]`, the target ids of `école`
and `shared` in the original order, and no source id survives. -/
theorem remapReleaseDefinition_variableGroups_witness :
    (RemapReleaseDefinitionRefsByName mixedVarGroupsRelease sampleSourceEndpoints
      sampleTargetEndpoints accentSourceVarGroups accentTargetVarGroups sampleSourceTaskGroups
      sampleTargetTaskGroups).lookup "variableGroups" = some (.ints [90, 70]) ∧
    (∃ e1, (releaseEnvironments (RemapReleaseDefinitionRefsByName mixedVarGroupsRelease
        sampleSourceEndpoints sampleTargetEndpoints accentSourceVarGroups accentTargetVarGroups
        sampleSourceTaskGroups sampleTargetTaskGroups))[0]? = some e1 ∧
      environmentVarGroups e1 = some (.ints [70, 90])) ∧
    readVarGroupIDAny (.obj [("id", .num 7)]) = 7 :=
  ⟨(remapReleaseDefinition_variableGroups mixedVarGroupsRelease sampleSourceEndpoints
      sampleTargetEndpoints accentSourceVarGroups accentTargetVarGroups sampleSourceTaskGroups
      sampleTargetTaskGroups).1 _ rfl,
    (remapReleaseDefinition_variableGroups mixedVarGroupsRelease sampleSourceEndpoints
      sampleTargetEndpoints accentSourceVarGroups accentTargetVarGroups sampleSourceTaskGroups
      sampleTargetTaskGroups).2.1 0 _ _ rfl rfl,
    by decide⟩

/-- C2: evaluation at the failing input. The backup holds one policy scoped to
the source repository `src-1`, which exists in the target as `tgt-9`; every
reference resolves. The first restore creates one policy. The second restore,
against the target produced by the first, finds no equal signature (the
snapshot's signature names `src-1`, the created policy's names `tgt-9`) and
creates the policy again. For the project-wide variant of the same policy the
second restore creates nothing. -/
theorem restoreBranchPolicies_second_run_creates_again :
    ((restoreOnePolicy repoScopedPolicy [] 101).2 = none ∧
      (createdPolicies (restoreOnePolicy repoScopedPolicy [] 101).1).length = 1) ∧
    ((restoreOnePolicy repoScopedPolicy (targetAfterFirstRestore repoScopedPolicy) 102).2 = none ∧
      (createdPolicies (restoreOnePolicy repoScopedPolicy
        (targetAfterFirstRestore repoScopedPolicy) 102).1).length = 1 ∧
      existingPolicies (restoreOnePolicy repoScopedPolicy
        (targetAfterFirstRestore repoScopedPolicy) 102).1 = []) ∧
    (PolicySignature repoScopedPolicy =
        "Minimum number of reviewers||src-1|refs/heads/main|Exact||min=2" ∧
      (targetAfterFirstRestore repoScopedPolicy).map PolicySignature =
        ["Minimum number of reviewers||tgt-9|refs/heads/main|Exact||min=2"]) ∧
    ((createdPolicies (restoreOnePolicy projectWidePolicy [] 101).1).length = 1 ∧
      (createdPolicies (restoreOnePolicy projectWidePolicy
        (targetAfterFirstRestore projectWidePolicy) 102).1).length = 0 ∧
      existingPolicies (restoreOnePolicy projectWidePolicy
        (targetAfterFirstRestore projectWidePolicy) 102).1 =
        ["17_Minimum_number_of_reviewers.json"]) := by
  refine ⟨⟨?_, ?_⟩, ⟨?_, ?_, ?_⟩, ⟨?_, ?_⟩, ⟨?_, ?_, ?_⟩⟩ <;> decide

/-- C5: evaluation at the failing input. Two snapshots are selected and the
creation call fails for the first. The task-group restore and the
variable-group restore return that failure as the error of the run and do not
process the second snapshot; the branch-policy restore reports the failure,
goes on to create the second policy, and returns no error. -/
theorem restore_create_failure_stops_named_runs :
    restoreTaskGroupFiles sampleSourceEndpoints sampleTargetEndpoints
      createTaskGroupExceptBuild ["all"] [] taskGroupBackup =
      ([], some (.createFailed "Build.json")) ∧
    restoreVariableGroupFiles createVariableGroupExceptBuild (fun _ _ _ => true)
      (fun _ _ _ => true) ["all"] [] variableGroupBackup =
      ([], some (.createFailed "Build.json")) ∧
    ((RestoreBranchPoliciesFromBackup "P" policyBackup ["all"] targetRepoList sourceRepoList []
        findNobody (fun _ => none) createPolicyExceptMain).2 = none ∧
      (RestoreBranchPoliciesFromBackup "P" policyBackup ["all"] targetRepoList sourceRepoList []
        findNobody (fun _ => none) createPolicyExceptMain).1.map (fun o => o.1) =
        ["17_Minimum_number_of_reviewers.json", "18_Minimum_number_of_reviewers.json"] ∧
      (createdPolicies (RestoreBranchPoliciesFromBackup "P" policyBackup ["all"] targetRepoList
        sourceRepoList [] findNobody (fun _ => none) createPolicyExceptMain).1).map
        PolicySignature =
        ["Minimum number of reviewers||null|refs/heads/release|Exact||min=1"]) := by
  refine ⟨?_, ?_, ?_, ?_, ?_⟩ <;> decide

/-- C15: result of the policy sanitizer. For a policy document `d` that is a
JSON object, `SanitizePolicyForCreate d` has none of the top-level keys `id`,
`revision`, `url`, `_links`, `createdBy`, `createdDate`, `modifiedBy`,
`modifiedDate`, `isEnterpriseManaged`; every other top-level key has the value
it has in `d`, nested values included; and sanitizing the result again changes
nothing. -/
theorem sanitizePolicyForCreate_result (d : JObj) (hd : isJSONFields d = true) :
    (∀ k ∈ policyServerFields, (SanitizePolicyForCreate d).lookup k = none) ∧
    (∀ k, k ∉ policyServerFields → (SanitizePolicyForCreate d).lookup k = d.lookup k) ∧
    SanitizePolicyForCreate (SanitizePolicyForCreate d) = SanitizePolicyForCreate d := by
  have hS := sanitizePolicy_of_isJSON d hd
  refine ⟨?_, ?_, ?_⟩
  · intro k hk
    rw [hS, lookup_filter_keys (fun k => !(policyServerFields.contains k))]
    have : policyServerFields.contains k = true := by simpa using hk
    simp only [this, Bool.not_true, Bool.false_eq_true, if_false]
  · intro k hk
    rw [hS, lookup_filter_keys (fun k => !(policyServerFields.contains k))]
    have : policyServerFields.contains k = false := by simpa using hk
    simp only [this, Bool.not_false, if_true]
  · have hJ : isJSONFields (SanitizePolicyForCreate d) = true := by
      rw [hS]
      exact isJSONFields_filter _ d hd
    rw [sanitizePolicy_of_isJSON _ hJ, hS, List.filter_filter]
    congr 1
    funext kv
    exact Bool.and_self _

/-- Witness for C15: the sample policy is a JSON object; its sanitized payload
has no `id`, keeps its `settings`, and is a fixed point of the sanitizer. -/
theorem sanitizePolicyForCreate_result_witness :
    (SanitizePolicyForCreate samplePolicy).lookup "id" = none ∧
    (SanitizePolicyForCreate samplePolicy).lookup "settings" = samplePolicy.lookup "settings" ∧
    SanitizePolicyForCreate (SanitizePolicyForCreate samplePolicy) =
      SanitizePolicyForCreate samplePolicy :=
  have h := sanitizePolicyForCreate_result samplePolicy (by decide)
  ⟨h.1 "id" (by decide), h.2.1 "settings" (by decide), h.2.2⟩

/-- C17 (amended): backup hints never reach the creation call. Whatever payload
the branch-policy restore hands to `CreatePolicyConfiguration` for a snapshot
has no top-level key `_backupHints`: the restore deletes the key after the
remapping steps have read it. -/
theorem restorePolicySnapshot_strips_backupHints (sourceProject : String)
    (sourceRepoNameByID targetRepoIDByName : String → Option String)
    (targetExisting : List JObj) (find : IdentityHint → Option String)
    (findBuildDefinition : String → Option Int) (create : JObj → Option Int)
    (raw payload : JObj)
    (h : submittedPayload (restorePolicySnapshot sourceProject sourceRepoNameByID
      targetRepoIDByName targetExisting find findBuildDefinition create raw) = some payload) :
    payload.lookup "_backupHints" = none := by
  unfold restorePolicySnapshot at h
  simp only at h
  split at h
  · simp [submittedPayload] at h
  · split at h
    · simp [submittedPayload] at h
    · split at h
      · simp [submittedPayload] at h
      · split at h
        · simp only [submittedPayload, Option.some.injEq] at h
          rw [← h]
          exact lookup_jdel_self _ _
        · simp only [submittedPayload, Option.some.injEq] at h
          rw [← h]
          exact lookup_jdel_self _ _

/-- Witness for C17: the restore of the reviewer policy, whose snapshot carries
hints, submits a payload without them. -/
theorem restorePolicySnapshot_strips_backupHints_witness :
    (jdel "_backupHints" (RemapPolicyScopeRepoIDs (RemapBuildValidationDefinition
      (RemapPolicyIdentityIDs (SanitizePolicyForCreate reviewerPolicy) findAnn).1
      (fun _ => none)).1 "P" sampleSourceRepos sampleTargetRepos).1).lookup
      "_backupHints" = none :=
  restorePolicySnapshot_strips_backupHints "P" sampleSourceRepos sampleTargetRepos []
    findAnn (fun _ => none) (fun _ => some 101) reviewerPolicy _ rfl

/-- C17, counterexample to the claim as stated: the snapshot of the reviewer
policy holds the key `_backupHints`, and so does the payload that
`SanitizePolicyForCreate` returns for it. -/
theorem sanitizePolicyForCreate_keeps_backupHints :
    reviewerPolicy.lookup "_backupHints" = some sampleHints ∧
    (SanitizePolicyForCreate reviewerPolicy).lookup "_backupHints" = some sampleHints :=
  ⟨rfl, rfl⟩

/-- The names of the entries that the three runs process: only selected
entries, and every selected entry when the run returns no error. -/
theorem restore_selection_names (selected : List String) (F : String)
    (sourceProject : String) (policyFiles : List SnapshotFile)
    (targetRepos sourceRepos : List Repo) (targetExisting : List JObj)
    (find : IdentityHint → Option String) (findBuildDefinition : String → Option Int)
    (createPolicy : JObj → Option Int)
    (feedFiles : List FeedFile) (targetFeeds : List Feed) (createFeed : JObj → Option Feed)
    (wikiFiles : List SnapshotFile) (targetWikis : List Wiki) (calls : WikiCalls) :
    ((F ∈ (RestoreBranchPoliciesFromBackup sourceProject policyFiles selected targetRepos
          sourceRepos targetExisting find findBuildDefinition createPolicy).1.map Prod.fst →
        (∃ f ∈ policyFiles, f.name = F) ∧ SelectsFile selected F) ∧
      ((RestoreBranchPoliciesFromBackup sourceProject policyFiles selected targetRepos
          sourceRepos targetExisting find findBuildDefinition createPolicy).2 = none →
        (∃ f ∈ policyFiles, f.name = F) → SelectsFile selected F →
        F ∈ (RestoreBranchPoliciesFromBackup sourceProject policyFiles selected targetRepos
          sourceRepos targetExisting find findBuildDefinition createPolicy).1.map Prod.fst)) ∧
    ((F ∈ (RestoreArtifactsFeedsFromBackup feedFiles selected targetFeeds
          createFeed).1.map Prod.fst →
        (∃ f ∈ feedFiles, f.name = F) ∧ SelectsFile selected F) ∧
      ((RestoreArtifactsFeedsFromBackup feedFiles selected targetFeeds createFeed).2 = none →
        (∃ f ∈ feedFiles, f.name = F) → SelectsFile selected F →
        F ∈ (RestoreArtifactsFeedsFromBackup feedFiles selected targetFeeds
          createFeed).1.map Prod.fst)) ∧
    ((F ∈ (RestoreWikisFromBackup wikiFiles selected targetWikis sourceRepos targetRepos
          calls).1.map Prod.fst →
        (∃ f ∈ wikiFiles, f.name = F) ∧ SelectsFile selected F) ∧
      ((RestoreWikisFromBackup wikiFiles selected targetWikis sourceRepos targetRepos
          calls).2 = none →
        (∃ f ∈ wikiFiles, f.name = F) → SelectsFile selected F →
        F ∈ (RestoreWikisFromBackup wikiFiles selected targetWikis sourceRepos targetRepos
          calls).1.map Prod.fst)) := by
  have hp := restorePolicyFiles_names sourceProject (sourceRepoNameByID sourceRepos)
    (targetRepoIDByName targetRepos) targetExisting find findBuildDefinition createPolicy
    selected policyFiles
  have hf := restoreFeedFiles_names targetFeeds createFeed selected feedFiles
  have hw := restoreWikiFiles_names (sourceRepoNameByID sourceRepos)
    (targetRepoIDByName targetRepos) targetWikis calls selected wikiFiles
  refine ⟨⟨?_, ?_⟩, ⟨?_, ?_⟩, ⟨?_, ?_⟩⟩
  · intro hm
    exact (mem_selected_names _ _ _ _).mp (hp.1.subset hm)
  · intro hok hex hsel
    unfold RestoreBranchPoliciesFromBackup at hok ⊢
    rw [hp.2 hok]
    exact (mem_selected_names _ _ _ _).mpr ⟨hex, hsel⟩
  · intro hm
    exact (mem_selected_names _ _ _ _).mp (hf.1.subset hm)
  · intro hok hex hsel
    unfold RestoreArtifactsFeedsFromBackup at hok ⊢
    rw [hf.2 hok]
    exact (mem_selected_names _ _ _ _).mpr ⟨hex, hsel⟩
  · intro hm
    exact (mem_selected_names _ _ _ _).mp (hw.1.subset hm)
  · intro hok hex hsel
    unfold RestoreWikisFromBackup at hok ⊢
    rw [hw.2 hok]
    exact (mem_selected_names _ _ _ _).mpr ⟨hex, hsel⟩

/-- C20 (amended): selection matching in the branch-policy, feed and wiki
restore. In each of the three runs a directory entry named `F` is processed
only if `F` ends in `.json` and the selection is the single element `all`
(ignoring case), or contains `F` exactly, or contains `F` without its `.json`
suffix; when the run returns no error, every such entry of the directory is
processed. The entries processed are an initial segment, in directory order, of
the selected entries; a run that returns an error stopped at a selected entry
that could not be read or decoded (in the wiki restore also at one whose
project lookup failed); and a processed entry got the result of the loop body
for the object it holds. -/
theorem restore_selection_matching (selected : List String) (F : String)
    (sourceProject : String) (policyFiles : List SnapshotFile)
    (targetRepos sourceRepos : List Repo) (targetExisting : List JObj)
    (find : IdentityHint → Option String) (findBuildDefinition : String → Option Int)
    (createPolicy : JObj → Option Int)
    (feedFiles : List FeedFile) (targetFeeds : List Feed) (createFeed : JObj → Option Feed)
    (wikiFiles : List SnapshotFile) (targetWikis : List Wiki) (calls : WikiCalls) :
    (((F ∈ (RestoreBranchPoliciesFromBackup sourceProject policyFiles selected targetRepos
          sourceRepos targetExisting find findBuildDefinition createPolicy).1.map Prod.fst →
        (∃ f ∈ policyFiles, f.name = F) ∧ SelectsFile selected F) ∧
      ((RestoreBranchPoliciesFromBackup sourceProject policyFiles selected targetRepos
          sourceRepos targetExisting find findBuildDefinition createPolicy).2 = none →
        (∃ f ∈ policyFiles, f.name = F) → SelectsFile selected F →
        F ∈ (RestoreBranchPoliciesFromBackup sourceProject policyFiles selected targetRepos
          sourceRepos targetExisting find findBuildDefinition createPolicy).1.map Prod.fst)) ∧
    ((F ∈ (RestoreArtifactsFeedsFromBackup feedFiles selected targetFeeds
          createFeed).1.map Prod.fst →
        (∃ f ∈ feedFiles, f.name = F) ∧ SelectsFile selected F) ∧
      ((RestoreArtifactsFeedsFromBackup feedFiles selected targetFeeds createFeed).2 = none →
        (∃ f ∈ feedFiles, f.name = F) → SelectsFile selected F →
        F ∈ (RestoreArtifactsFeedsFromBackup feedFiles selected targetFeeds
          createFeed).1.map Prod.fst)) ∧
    ((F ∈ (RestoreWikisFromBackup wikiFiles selected targetWikis sourceRepos targetRepos
          calls).1.map Prod.fst →
        (∃ f ∈ wikiFiles, f.name = F) ∧ SelectsFile selected F) ∧
      ((RestoreWikisFromBackup wikiFiles selected targetWikis sourceRepos targetRepos
          calls).2 = none →
        (∃ f ∈ wikiFiles, f.name = F) → SelectsFile selected F →
        F ∈ (RestoreWikisFromBackup wikiFiles selected targetWikis sourceRepos targetRepos
          calls).1.map Prod.fst))) ∧
    ((RestoreBranchPoliciesFromBackup sourceProject policyFiles selected targetRepos
          sourceRepos targetExisting find findBuildDefinition createPolicy).1.map Prod.fst <+:
        (policyFiles.map (fun f => f.name)).filter (selectsFileB selected) ∧
      (RestoreArtifactsFeedsFromBackup feedFiles selected targetFeeds
          createFeed).1.map Prod.fst <+:
        (feedFiles.map (fun f => f.name)).filter (selectsFileB selected) ∧
      (RestoreWikisFromBackup wikiFiles selected targetWikis sourceRepos targetRepos
          calls).1.map Prod.fst <+:
        (wikiFiles.map (fun f => f.name)).filter (selectsFileB selected)) ∧
    ((∀ e, (RestoreBranchPoliciesFromBackup sourceProject policyFiles selected targetRepos
          sourceRepos targetExisting find findBuildDefinition createPolicy).2 = some e →
        ∃ f ∈ policyFiles, selectsFileB selected f.name = true ∧ f.content = none ∧
          e = .snapshotUnreadable f.name) ∧
      (∀ e, (RestoreArtifactsFeedsFromBackup feedFiles selected targetFeeds
          createFeed).2 = some e →
        ∃ f ∈ feedFiles, selectsFileB selected f.name = true ∧ f.content = none ∧
          e = .snapshotUnreadable f.name) ∧
      (∀ e, (RestoreWikisFromBackup wikiFiles selected targetWikis sourceRepos targetRepos
          calls).2 = some e →
        ∃ f ∈ wikiFiles, selectsFileB selected f.name = true ∧
          ((f.content = none ∧ e = .snapshotUnreadable f.name) ∨
            (∃ m, f.content = some m ∧
              FindWikiByName targetWikis (decodeWiki m).Name = none ∧
              calls.projectId = none ∧ e = .lookupFailed f.name)))) ∧
    ((∀ p ∈ (RestoreBranchPoliciesFromBackup sourceProject policyFiles selected targetRepos
          sourceRepos targetExisting find findBuildDefinition createPolicy).1,
        ∃ f ∈ policyFiles, f.name = p.1 ∧ ∃ raw, f.content = some raw ∧
          p.2 = restorePolicySnapshot sourceProject (sourceRepoNameByID sourceRepos)
            (targetRepoIDByName targetRepos) targetExisting find findBuildDefinition
            createPolicy raw) ∧
      (∀ p ∈ (RestoreArtifactsFeedsFromBackup feedFiles selected targetFeeds createFeed).1,
        ∃ f ∈ feedFiles, f.name = p.1 ∧ ∃ feed, f.content = some feed ∧
          p.2 = (match FindFeedByName targetFeeds feed.Name with
            | some _ => FeedOutcome.existsSkipped
            | none =>
              match createFeed (feedCreatePayload feed) with
              | none => FeedOutcome.createFailed
              | some created => FeedOutcome.created created.Name)) ∧
      (∀ p ∈ (RestoreWikisFromBackup wikiFiles selected targetWikis sourceRepos targetRepos
          calls).1,
        ∃ f ∈ wikiFiles, f.name = p.1 ∧ ∃ m, f.content = some m ∧
          ((∃ w, FindWikiByName targetWikis (decodeWiki m).Name = some w ∧
              p.2 = .existsSkipped) ∨
            (FindWikiByName targetWikis (decodeWiki m).Name = none ∧
              ∃ pid, calls.projectId = some pid ∧
                p.2 = restoreWiki (sourceRepoNameByID sourceRepos)
                  (targetRepoIDByName targetRepos) calls pid (decodeWiki m))))) := by
  have hp := restorePolicyFiles_names sourceProject (sourceRepoNameByID sourceRepos)
    (targetRepoIDByName targetRepos) targetExisting find findBuildDefinition createPolicy
    selected policyFiles
  have hf := restoreFeedFiles_names targetFeeds createFeed selected feedFiles
  have hw := restoreWikiFiles_names (sourceRepoNameByID sourceRepos)
    (targetRepoIDByName targetRepos) targetWikis calls selected wikiFiles
  have op := restorePolicyFiles_outcomes sourceProject (sourceRepoNameByID sourceRepos)
    (targetRepoIDByName targetRepos) targetExisting find findBuildDefinition createPolicy
    selected policyFiles
  have of := restoreFeedFiles_outcomes targetFeeds createFeed selected feedFiles
  have ow := restoreWikiFiles_outcomes (sourceRepoNameByID sourceRepos)
    (targetRepoIDByName targetRepos) targetWikis calls selected wikiFiles
  exact ⟨restore_selection_names selected F sourceProject policyFiles targetRepos sourceRepos
      targetExisting find findBuildDefinition createPolicy feedFiles targetFeeds createFeed
      wikiFiles targetWikis calls,
    ⟨hp.1, hf.1, hw.1⟩, ⟨op.2, of.2, ow.2⟩, ⟨op.1, of.1, ow.1⟩⟩

/-- Witness for C20 (amended): with the selection `w1_Docs` the wiki restore of
the sample directory runs without error and processes the snapshot
`w1_Docs.json`, the stray file is not processed, and the selection `W1_DOCS`,
which differs in case, selects nothing. With the selection `ci` the feed restore
of a directory that holds `CI.json` and `ci.json` creates the feed of `ci.json`
only, and with the selection `ci.json`, `CI` it creates both; with the selection
`ALL` the policy restore processes both snapshots of its directory, with the
name of the first without `.json` that one only. -/
theorem restore_selection_matching_witness :
    "w1_Docs.json" ∈ (RestoreWikisFromBackup wikiBackup ["w1_Docs"] [] sourceRepoList
      targetRepoList wikiCallsOk).1.map Prod.fst ∧
    (RestoreWikisFromBackup wikiBackup ["w1_Docs"] [] sourceRepoList targetRepoList
      wikiCallsOk).1.map Prod.fst = ["w1_Docs.json"] ∧
    (RestoreWikisFromBackup wikiBackup ["W1_DOCS"] [] sourceRepoList targetRepoList
      wikiCallsOk).1.map Prod.fst = [] ∧
    "ci.json" ∈ (RestoreArtifactsFeedsFromBackup feedBackup ["ci"] [] createFeedOk).1.map
      Prod.fst ∧
    RestoreArtifactsFeedsFromBackup feedBackup ["ci"] [] createFeedOk =
      ([("ci.json", .created "ci")], none) ∧
    RestoreArtifactsFeedsFromBackup feedBackup ["ci.json", "CI"] [] createFeedOk =
      ([("CI.json", .created "CI"), ("ci.json", .created "ci")], none) ∧
    "18_Minimum_number_of_reviewers.json" ∈ (RestoreBranchPoliciesFromBackup "P" policyBackup
      ["ALL"] targetRepoList sourceRepoList [] findNobody (fun _ => none)
      (fun _ => some 201)).1.map Prod.fst ∧
    (RestoreBranchPoliciesFromBackup "P" policyBackup ["17_Minimum_number_of_reviewers"]
      targetRepoList sourceRepoList [] findNobody (fun _ => none)
      (fun _ => some 201)).1.map Prod.fst = ["17_Minimum_number_of_reviewers.json"] :=
  ⟨((restore_selection_matching ["w1_Docs"] "w1_Docs.json" "P" [] targetRepoList sourceRepoList
      [] findNobody (fun _ => none) (fun _ => none) [] [] (fun _ => none) wikiBackup []
      wikiCallsOk).1.2.2.2 (by decide)
      ⟨SnapshotFile.mk "w1_Docs.json" (some [("id", .str "w1"), ("name", .str "Docs"),
        ("type", .str "codeWiki"), ("repositoryId", .str "SRC-1"),
        ("mappedPath", .str "/docs")]), List.mem_cons_self _ _, rfl⟩
      ((selectsFileB_iff _ _).mp (by decide))),
    by decide, by decide,
    ((restore_selection_matching ["ci"] "ci.json" "P" [] targetRepoList sourceRepoList
      [] findNobody (fun _ => none) (fun _ => none) feedBackup [] createFeedOk [] []
      wikiCallsOk).1.2.1.2 (by decide)
      ⟨FeedFile.mk "ci.json" (some feedLowerCI), by simp [feedBackup], rfl⟩
      ((selectsFileB_iff _ _).mp (by decide))),
    by decide, by decide,
    ((restore_selection_matching ["ALL"] "18_Minimum_number_of_reviewers.json" "P" policyBackup
      targetRepoList sourceRepoList [] findNobody (fun _ => none) (fun _ => some 201) [] []
      (fun _ => none) [] [] wikiCallsOk).1.1.2 (by decide)
      ⟨_, List.mem_cons_of_mem _ (List.mem_cons_self _ _), rfl⟩
      ((selectsFileB_iff _ _).mp (by decide))),
    by decide⟩

/-- C20, counterexample to the claim as stated: the first entry of each
directory is selected and cannot be read, so the run returns an error there. The
second entry ends in `.json` and is selected by `all` (or by its name), and it is
not processed. -/
theorem restore_stops_before_selected_entry :
    (RestoreBranchPoliciesFromBackup "P"
        (SnapshotFile.mk "16_Build.json" none :: policyBackup) ["all"] targetRepoList
        sourceRepoList [] findNobody (fun _ => none) (fun _ => some 201) =
        ([], some (.snapshotUnreadable "16_Build.json")) ∧
      selectsFileB ["all"] "17_Minimum_number_of_reviewers.json" = true) ∧
    (RestoreArtifactsFeedsFromBackup (FeedFile.mk "broken.json" none :: feedBackup)
        ["broken", "ci"] [] createFeedOk = ([], some (.snapshotUnreadable "broken.json")) ∧
      selectsFileB ["broken", "ci"] "ci.json" = true) ∧
    (RestoreWikisFromBackup (SnapshotFile.mk "w0_Home.json" none :: wikiBackup) ["all"] []
        sourceRepoList targetRepoList wikiCallsOk =
        ([], some (.snapshotUnreadable "w0_Home.json")) ∧
      selectsFileB ["all"] "w1_Docs.json" = true) := by
  refine ⟨⟨?_, ?_⟩, ⟨?_, ?_⟩, ⟨?_, ?_⟩⟩ <;> first | decide | rfl

/-- The queue block of the loop body: the id of the candidate name when it
resolves, else the id of the default queue when that resolves, else the
definition is skipped; the id is written to `def.queue.id`. -/
theorem applyBuildQueue_cases (d : JObj) (queueMap : String → Option String)
    (targetQueueIDByName : String → Option Int) (defaultQueue : String) :
    (∀ id, QueueResolves targetQueueIDByName
        (buildQueueCandidate (extractBuildQueueName d) queueMap) id →
      applyBuildQueue d queueMap targetQueueIDByName defaultQueue =
        some (setBuildQueueID d id)) ∧
    (∀ id, (¬ ∃ i, QueueResolves targetQueueIDByName
        (buildQueueCandidate (extractBuildQueueName d) queueMap) i) →
      QueueResolves targetQueueIDByName defaultQueue id →
      applyBuildQueue d queueMap targetQueueIDByName defaultQueue =
        some (setBuildQueueID d id)) ∧
    (applyBuildQueue d queueMap targetQueueIDByName defaultQueue = none ↔
      (¬ ∃ i, QueueResolves targetQueueIDByName
        (buildQueueCandidate (extractBuildQueueName d) queueMap) i) ∧
      (¬ ∃ i, QueueResolves targetQueueIDByName defaultQueue i)) ∧
    (∀ id, buildQueueId (setBuildQueueID d id) = some (.int id)) := by
  have hfst := resolveBuildQueue_fst (extractBuildQueueName d) queueMap targetQueueIDByName
    defaultQueue
  refine ⟨?_, ?_, ?_, ?_⟩
  · intro id h
    have hv := queueResolves_value _ _ _ h
    have hne : id ≠ 0 := h.2.2
    simp only [applyBuildQueue, hfst, hv]
    simp [hne]
  · intro id hno h
    have hq := (not_congr (queueResolves_iff targetQueueIDByName _)).mp hno
    have hq0 : (if buildQueueCandidate (extractBuildQueueName d) queueMap = "" then (0 : Int)
        else (targetQueueIDByName
          (buildQueueCandidate (extractBuildQueueName d) queueMap)).getD 0) = 0 :=
      not_not.mp hq
    obtain ⟨hd, ht, hne⟩ := h
    simp only [applyBuildQueue, hfst, hq0]
    simp [hd, ht, hne]
  · simp only [applyBuildQueue, hfst, queueResolves_iff]
    by_cases hq : (if buildQueueCandidate (extractBuildQueueName d) queueMap = "" then (0 : Int)
        else (targetQueueIDByName
          (buildQueueCandidate (extractBuildQueueName d) queueMap)).getD 0) = 0
    · by_cases hd : defaultQueue = ""
      · simp [hq, hd]
      · simp [hq, hd]
    · simp [hq]
  · intro id
    unfold setBuildQueueID
    cases hq : d.lookup "queue" with
    | none => simp [buildQueueId, lookup_jset_eq, List.lookup]
    | some v =>
      cases v with
      | obj q => simp [buildQueueId, lookup_jset_eq]
      | _ => simp [buildQueueId, lookup_jset_eq, List.lookup]

/-- C13 (amended): agent-queue resolution order in the build-definition
restore. When the default queue is not empty and is not a queue of the target,
the run returns an error before it reads a snapshot. Otherwise the run is the
loop, and in its body, with `s` the source queue name of the definition and `n`
the rename table's entry for `s` when there is one, else `s` itself: the queue
id written into the definition is the id of `n` when `n` resolves in the target
(to a non-zero id); otherwise the id of the default queue when that resolves;
and the definition is skipped exactly when neither resolves. The id is written
to `def.queue.id`. -/
theorem restoreBuildDefinitions_queue_order (env : BuildRestoreEnv) (selected : List String)
    (target : List JObj) (files : List SnapshotFile) (d : JObj) :
    (env.defaultQueue ≠ "" → env.targetQueueIDByName env.defaultQueue = none →
      RestoreBuildDefinitionsFromBackup env selected target files =
        ([], some (.defaultQueueNotFound env.defaultQueue))) ∧
    ((env.defaultQueue = "" ∨ ∃ id, env.targetQueueIDByName env.defaultQueue = some id) →
      RestoreBuildDefinitionsFromBackup env selected target files =
        restoreBuildFiles env selected target files) ∧
    (∀ id, QueueResolves env.targetQueueIDByName
        (buildQueueCandidate (extractBuildQueueName d) env.queueMap) id →
      applyBuildQueue d env.queueMap env.targetQueueIDByName env.defaultQueue =
        some (setBuildQueueID d id)) ∧
    (∀ id, (¬ ∃ i, QueueResolves env.targetQueueIDByName
        (buildQueueCandidate (extractBuildQueueName d) env.queueMap) i) →
      QueueResolves env.targetQueueIDByName env.defaultQueue id →
      applyBuildQueue d env.queueMap env.targetQueueIDByName env.defaultQueue =
        some (setBuildQueueID d id)) ∧
    (applyBuildQueue d env.queueMap env.targetQueueIDByName env.defaultQueue = none ↔
      (¬ ∃ i, QueueResolves env.targetQueueIDByName
        (buildQueueCandidate (extractBuildQueueName d) env.queueMap) i) ∧
      (¬ ∃ i, QueueResolves env.targetQueueIDByName env.defaultQueue i)) ∧
    (∀ id, buildQueueId (setBuildQueueID d id) = some (.int id)) ∧
    (∀ (name : String) (raw : JObj) (x : String × String),
      hasSuffix name ".json" = true → selected = ["all"] →
      FindBuildDefinitionByName target (stringField raw "name") = none →
      remapBuildDefinitionRepo raw env.getRepoNameByID env.targetRepoIDByName = (d, .ok x) →
      (restoreBuildFiles env selected target [SnapshotFile.mk name (some raw)] =
          ([(name, .queueNotResolved)], none) ↔
        applyBuildQueue d env.queueMap env.targetQueueIDByName env.defaultQueue = none)) := by
  obtain ⟨h1, h2, h3, h4⟩ := applyBuildQueue_cases d env.queueMap env.targetQueueIDByName
    env.defaultQueue
  refine ⟨?_, ?_, h1, h2, h3, h4, ?_⟩
  · intro hd ht
    have hb : (env.defaultQueue != "") = true := by simpa using hd
    simp [RestoreBuildDefinitionsFromBackup, hb, ht]
  · intro h
    rcases h with h | ⟨id, h⟩
    · simp [RestoreBuildDefinitionsFromBackup, h]
    · simp [RestoreBuildDefinitionsFromBackup, h]
  · intro name raw x hsuf hsel hfind hrepo
    subst hsel
    simp only [restoreBuildFiles, hsuf, hfind, hrepo]
    cases ha : applyBuildQueue d env.queueMap env.targetQueueIDByName env.defaultQueue with
    | none => simp
    | some raw1 =>
      simp only [reduceCtorEq, iff_false]
      cases hc : CreateBuildDefinition (RemapBuildDefinitionRefsByName raw1
        env.srcEndpointIDToName env.tgtEndpointNameToID env.srcVarGroupIDToName
        env.tgtVarGroupNameToID env.srcTaskGroupIDToName env.tgtTaskGroupNameToID)
        env.post with
      | mk body r =>
        cases r with
        | none => simp
        | some id => simp

/-- Witness for C13 (amended): the sample definition runs on `Old`. With the
default queue `Missing`, which the target does not have, the run returns an
error and processes nothing, although `Old` is a queue of the target. With the
rename of `Old` to `New` and the default queue `Default` the definition is
created on the queue 6 of `New`; with the rename to `Gone`, which the target
does not have, on the queue 9 of `Default`; and with that rename and no default
queue the definition is skipped. -/
theorem restoreBuildDefinitions_queue_order_witness :
    RestoreBuildDefinitionsFromBackup (queueBuildEnv (tableOf []) "Missing") ["all"] []
      buildBackup = ([], some (.defaultQueueNotFound "Missing")) ∧
    RestoreBuildDefinitionsFromBackup (queueBuildEnv renameOldToNew "Default") ["all"] []
      buildBackup = ([("ci.json", .created 6)], none) ∧
    RestoreBuildDefinitionsFromBackup (queueBuildEnv renameOldToGone "Default") ["all"] []
      buildBackup = ([("ci.json", .created 9)], none) ∧
    RestoreBuildDefinitionsFromBackup (queueBuildEnv renameOldToGone "") ["all"] []
      buildBackup = ([("ci.json", .queueNotResolved)], none) ∧
    applyBuildQueue queuedBuildDefinition renameOldToNew sampleTargetQueues "Default" =
      some (setBuildQueueID queuedBuildDefinition 6) ∧
    applyBuildQueue queuedBuildDefinition renameOldToGone sampleTargetQueues "Default" =
      some (setBuildQueueID queuedBuildDefinition 9) :=
  ⟨(restoreBuildDefinitions_queue_order (queueBuildEnv (tableOf []) "Missing") ["all"] []
      buildBackup queuedBuildDefinition).1 (by decide) rfl,
   by decide, by decide, by decide,
   (restoreBuildDefinitions_queue_order (queueBuildEnv renameOldToNew "Default") [] [] []
      queuedBuildDefinition).2.2.1 6 ⟨by decide, rfl, by decide⟩,
   (restoreBuildDefinitions_queue_order (queueBuildEnv renameOldToGone "Default") [] [] []
      queuedBuildDefinition).2.2.2.1 9
      ((not_congr (queueResolves_iff _ _)).mpr (by decide))
      ⟨by decide, rfl, by decide⟩⟩

/-- C13, counterexample to the claim as stated: the source queue `Old` is in the
rename table, its entry `Gone` does not resolve, `Old` itself resolves in the
target (to 5), and no default queue is given; the claim's order gives the id 5,
the code skips the definition. -/
theorem applyBuildQueue_rename_miss_skips :
    extractBuildQueueName queuedBuildDefinition = "Old" ∧
    renameOldToGone "Old" = some "Gone" ∧ sampleTargetQueues "Gone" = none ∧
    sampleTargetQueues "Old" = some 5 ∧
    applyBuildQueue queuedBuildDefinition renameOldToGone sampleTargetQueues "" = none :=
  ⟨by decide, by decide, by decide, by decide, rfl⟩

/-- C14: evaluation at the failing input. The release definition runs on the
source queue `Old`, the rename table sends `Old` to `New`, and the target has
both `New` (id 6) and `Old` (id 5). Without a default queue
`remapReleaseQueues` returns `New` with id 6; with the default queue `Default`
(id 9) supplied it returns and writes `Default` with id 9, and with an empty
rename table it does so too, although `Old` exists in the target. -/
theorem remapReleaseQueues_default_overrides :
    returnedQueue (remapReleaseQueues queuedReleaseDefinition sampleSourceQueues
      sampleTargetQueues renameOldToNew "") = some ("New", 6) ∧
    returnedQueue (remapReleaseQueues queuedReleaseDefinition sampleSourceQueues
      sampleTargetQueues renameOldToNew "Default") = some ("Default", 9) ∧
    returnedQueue (remapReleaseQueues queuedReleaseDefinition sampleSourceQueues
      sampleTargetQueues (tableOf []) "Default") = some ("Default", 9) ∧
    (remapReleaseQueues queuedReleaseDefinition sampleSourceQueues
      sampleTargetQueues renameOldToNew "Default").map (fun r => extractReleaseQueueIDs r.1) =
      some [9] := by
  refine ⟨?_, ?_, ?_, ?_⟩ <;> decide

/-- C11: evaluation at the failing input. The source service connection `Prod`
and the target connection `prod` have names that are equal ignoring case; the
target table of `BuildEndpointMaps` is keyed by the name as listed, so the
lookup of `Prod` misses and the step input keeps the source id. The same holds
for the task-group table, for the queue table (`Old` against a target queue
`old`) and for the repository table of the YAML-pipeline restore (`Repo`
against `repo`: the pipeline is skipped). The variable-group table and the
repository table of the branch-policy restore are keyed by the lower-cased name
and do resolve. -/
theorem name_tables_case_sensitive :
    (equalFold "Prod" "prod" = true ∧
      (BuildEndpointMaps sourceListingProd targetListingProd).1 (toLower "EP-1") = some "Prod" ∧
      (BuildEndpointMaps sourceListingProd targetListingProd).2 "Prod" = none ∧
      remapEndpointInput (BuildEndpointMaps sourceListingProd targetListingProd).1
        (BuildEndpointMaps sourceListingProd targetListingProd).2
        "connectedServiceName" (.str "EP-1") = .str "EP-1") ∧
    (BuildTaskGroupMaps sourceListingProd targetListingProd).2 "Prod" = none ∧
    (buildServiceConnectionMaps sourceListingProd targetListingProd).2 "Prod" = none ∧
    applyBuildQueue queuedBuildDefinition (tableOf [])
      (targetQueueIDByName [{ ID := 5, Name := "old" }]) "" = none ∧
    (equalFold "Repo" "repo" = true ∧
      restoreYamlFiles targetRepoListLower (fun _ => none) (fun _ => some 1) ["all"] []
        yamlPipelineBackup = ([("ci.json", .targetRepoNotFound "Repo")], none)) ∧
    ((BuildVarGroupMaps [{ Id := 7, Name := "Prod", Variables := [] }]
        [{ Id := 70, Name := "prod", Variables := [] }]).2 (toLower "Prod") = some 70 ∧
      targetRepoIDByName targetRepoListLower (toLower "Repo") = some "r9") := by
  refine ⟨⟨?_, ?_, ?_, ?_⟩, ?_, ?_, ?_, ⟨?_, ?_⟩, ⟨?_, ?_⟩⟩ <;> first | decide | rfl

/-- C12: evaluation at the failing input. The target lists one object named
`CI`; the snapshot's name is `ci`, equal ignoring case. The find-by-name lookups
of build definitions, release definitions, service connections, task groups,
variable groups and YAML pipelines compare with `==` and return none; those of
feeds and wikis ignore case and return the object. -/
theorem find_by_name_case_sensitive :
    equalFold "CI" "ci" = true ∧
    (FindBuildDefinitionByName targetListingCI "ci").isSome = false ∧
    (FindReleaseDefinitionByName targetListingCI "ci").isSome = false ∧
    (FindServiceConnectionByName targetListingCI "ci").isSome = false ∧
    (FindTaskGroupByName targetListingCI "ci").isSome = false ∧
    (FindVariableGroupByName [{ Id := 1, Name := "CI", Variables := [] }] "ci").isSome = false ∧
    (FindPipelineByName targetListingCI "ci").isSome = false ∧
    (FindFeedByName [feedCI] "ci").isSome = true ∧
    (FindWikiByName [decodeWiki [("id", .str "w1"), ("name", .str "CI")]] "ci").isSome = true := by
  refine ⟨?_, ?_, ?_, ?_, ?_, ?_, ?_, ?_, ?_⟩ <;> decide

/-- C16: evaluation at the failing input. The build definition held by the
restore has the keys `id` and `revision`; after `CreateBuildDefinition` the same
map has neither. The service connection held by the restore has `id` and
`owner`; after `CreateServiceConnection` it has neither, and has gained
`serviceEndpointProjectReferences`. The policy and release sanitizers return a
copy: the results lack `id`, the documents passed in are values that the calls
cannot change. -/
theorem create_calls_mutate_their_document :
    (queuedBuildDefinition.lookup "id" = some (.num 12) ∧
      queuedBuildDefinition.lookup "revision" = some (.num 3) ∧
      (CreateBuildDefinition queuedBuildDefinition (fun _ => some 40)).1.lookup "id" = none ∧
      (CreateBuildDefinition queuedBuildDefinition (fun _ => some 40)).1.lookup "revision" =
        none) ∧
    (serviceConnectionDocument.lookup "id" = some (.str "EP-1") ∧
      serviceConnectionDocument.lookup "owner" = some (.str "library") ∧
      (CreateServiceConnection serviceConnectionDocument "Prod" "production" "Target" "proj-9"
        (fun _ => some "ep-9")).1.lookup "id" = none ∧
      (CreateServiceConnection serviceConnectionDocument "Prod" "production" "Target" "proj-9"
        (fun _ => some "ep-9")).1.lookup "owner" = none ∧
      ((CreateServiceConnection serviceConnectionDocument "Prod" "production" "Target" "proj-9"
        (fun _ => some "ep-9")).1.lookup "serviceEndpointProjectReferences").isSome = true) ∧
    ((SanitizePolicyForCreate samplePolicy).lookup "id" = none ∧
      (sanitizeReleaseDefinitionForCreate releaseDocument).lookup "id" = none ∧
      (sanitizeReleaseDefinitionForCreate releaseDocument).lookup "name" =
        some (.str "deploy")) :=
  ⟨⟨rfl, rfl, rfl, rfl⟩, ⟨rfl, rfl, rfl, rfl, rfl⟩, ⟨rfl, rfl, rfl⟩⟩

/-- C18: evaluation at the failing input. The variable group returned by the
source API has the fields `isShared` and `createdBy`; decoded into
`VariableGroup` and encoded again it has neither. The feed has `description`
and `badgesEnabled`; decoded into `Feed` and encoded again it has neither. A
document of a kind that keeps `Raw` is written back as it was read. -/
theorem typed_snapshots_drop_unknown_fields :
    (variableGroupDocument.lookup "createdBy" =
        some (.obj [("displayName", .str "Ann")]) ∧
      (decodeVariableGroup variableGroupDocument).map
        (fun g => (encodeVariableGroup g).lookup "createdBy") = some none ∧
      (decodeVariableGroup variableGroupDocument).map
        (fun g => (encodeVariableGroup g).lookup "isShared") = some none ∧
      (decodeVariableGroup variableGroupDocument).map
        (fun g => (encodeVariableGroup g).lookup "name") = some (some (.str "Shared"))) ∧
    (feedDocument.lookup "description" = some (.str "Team feed") ∧
      (decodeFeed feedDocument).map (fun f => (encodeFeed f).lookup "description") =
        some none ∧
      (decodeFeed feedDocument).map (fun f => (encodeFeed f).lookup "badgesEnabled") =
        some none ∧
      (decodeFeed feedDocument).map (fun f => (encodeFeed f).lookup "name") =
        some (some (.str "packages"))) ∧
    reencodeRaw samplePolicy = samplePolicy :=
  ⟨⟨rfl, rfl, rfl, rfl⟩, ⟨rfl, rfl, rfl, rfl⟩, rfl⟩

/-- C19: evaluation at the failing input. With the selection `ALL` the restore
of task groups, of variable groups, of build definitions and of YAML pipelines
processes no snapshot of its backup directory, while the restore of branch
policies processes every one; with `all` each of them processes its snapshots. -/
theorem restore_all_sentinel_case :
    (restoreTaskGroupFiles sampleSourceEndpoints sampleTargetEndpoints
        (fun _ => some "tg-new") ["ALL"] [] taskGroupBackup = ([], none) ∧
      (restoreTaskGroupFiles sampleSourceEndpoints sampleTargetEndpoints
        (fun _ => some "tg-new") ["all"] [] taskGroupBackup).1.map Prod.fst =
        ["Build.json", "Deploy.json"]) ∧
    (restoreVariableGroupFiles (fun _ _ => some 70) (fun _ _ _ => true) (fun _ _ _ => true)
        ["ALL"] [] variableGroupBackup = ([], none) ∧
      (restoreVariableGroupFiles (fun _ _ => some 70) (fun _ _ _ => true) (fun _ _ _ => true)
        ["all"] [] variableGroupBackup).1.map Prod.fst = ["Build.json", "Deploy.json"]) ∧
    (restoreBuildFiles sampleBuildEnv ["ALL"] [] buildBackup = ([], none) ∧
      restoreBuildFiles sampleBuildEnv ["all"] [] buildBackup =
        ([("ci.json", .created 40)], none)) ∧
    (restoreYamlFiles targetRepoListLower (fun _ => none) (fun _ => some 1) ["ALL"] []
        yamlPipelineBackup = ([], none) ∧
      (restoreYamlFiles targetRepoListLower (fun _ => none) (fun _ => some 1) ["all"] []
        yamlPipelineBackup).1.map Prod.fst = ["ci.json"]) ∧
    (RestoreBranchPoliciesFromBackup "P" policyBackup ["ALL"] targetRepoList sourceRepoList []
        findNobody (fun _ => none) (fun _ => some 201)).1.map Prod.fst =
      ["17_Minimum_number_of_reviewers.json", "18_Minimum_number_of_reviewers.json"] := by
  refine ⟨⟨?_, ?_⟩, ⟨?_, ?_⟩, ⟨?_, ?_⟩, ⟨?_, ?_⟩, ?_⟩ <;> decide

/-- C30: whenever `remapReleaseQueues` succeeds with the returned id `q`, every
deploy phase of every stage of the payload has `deploymentInput.queueId = q`
(the stages keep their number of phases, a `deploymentInput` being created
where it was missing); with a default queue `q` is the target id of that queue,
and with no default queue `q` is the target id of the renamed source queue of
the first non-zero `queueId` of the payload, whatever the other phases used. -/
theorem remapReleaseQueues_collapses_phases (payload p1 : JObj)
    (s : Int → Option String) (t : String → Option Int) (qm : String → Option String)
    (dq name : String) (q : Int)
    (h : remapReleaseQueues payload s t qm dq = some (p1, .ok (name, q))) :
    (∀ e ∈ releaseEnvironments p1, ∀ dp ∈ deployPhases e,
        phaseQueueId dp = some (.int q)) ∧
      phaseCounts p1 = phaseCounts payload ∧
      setReleaseQueueID payload q = some p1 ∧
      (dq ≠ "" → name = dq ∧ t dq = some q) ∧
      (dq = "" → ∃ first rest srcName,
        extractReleaseQueueIDs payload = first :: rest ∧ s first = some srcName ∧
        name = (match qm srcName with
          | some mapped => if mapped != "" then mapped else srcName
          | none => srcName) ∧
        t name = some q) := by
  have key : setReleaseQueueID payload q = some p1 ∧
      (dq ≠ "" → name = dq ∧ t dq = some q) ∧
      (dq = "" → ∃ first rest srcName,
        extractReleaseQueueIDs payload = first :: rest ∧ s first = some srcName ∧
        name = (match qm srcName with
          | some mapped => if mapped != "" then mapped else srcName
          | none => srcName) ∧
        t name = some q) := by
    unfold remapReleaseQueues at h
    by_cases hd : dq = ""
    · subst hd
      simp only [bne_self_eq_false, Bool.false_eq_true, if_false] at h
      cases hx : extractReleaseQueueIDs payload with
      | nil => simp [hx] at h
      | cons first rest =>
        simp only [hx] at h
        cases hs : s first with
        | none => simp [hs] at h
        | some srcName =>
          simp only [hs, Option.getD_some] at h
          split at h
          · simp at h
          · generalize hT : (match qm srcName with
              | some mapped => if mapped != "" then mapped else srcName
              | none => srcName) = T at h
            cases ht : t T with
            | none => simp [ht] at h
            | some tid =>
              simp only [ht, Option.getD_some] at h
              split at h
              · simp at h
              · cases hset : setReleaseQueueID payload tid with
                | none => simp [hset] at h
                | some p2 =>
                  simp only [hset, Option.some.injEq, Prod.mk.injEq, Except.ok.injEq] at h
                  obtain ⟨hp, hn, hq⟩ := h
                  subst hp hq hn
                  refine ⟨hset, fun hne => absurd rfl hne, fun _ => ?_⟩
                  exact ⟨first, rest, srcName, rfl, hs, hT.symm, ht⟩
    · have hb : (dq != "") = true := by simpa using hd
      simp only [hb, if_true] at h
      cases ht : t dq with
      | none => simp [ht] at h
      | some tid =>
        simp only [ht, Option.getD_some] at h
        split at h
        · simp at h
        · cases hset : setReleaseQueueID payload tid with
          | none => simp [hset] at h
          | some p2 =>
            simp only [hset, Option.some.injEq, Prod.mk.injEq, Except.ok.injEq] at h
            obtain ⟨hp, hn, hq⟩ := h
            subst hp hq hn
            exact ⟨hset, fun _ => ⟨rfl, rfl⟩, fun he => absurd he hd⟩
  obtain ⟨hset, h1, h2⟩ := key
  obtain ⟨ha, hb⟩ := setReleaseQueueID_spec payload p1 q hset
  exact ⟨ha, hb, hset, h1, h2⟩

/-- C30 at a release definition whose phases use the source queues 3 and 4 and
none: with the rename of `Old` to `New` and no default queue all three phases
end on the target queue 6, the id of `New`, derived from the queue 3 alone. -/
theorem remapReleaseQueues_collapses_phases_witness :
    remapReleaseQueues twoQueueReleaseDefinition sampleSourceQueues sampleTargetQueues
        renameOldToNew "" = some (twoQueueReleaseDefinitionOnNew, .ok ("New", 6)) ∧
      extractReleaseQueueIDs twoQueueReleaseDefinition = [3, 4] ∧
      (∀ e ∈ releaseEnvironments twoQueueReleaseDefinitionOnNew, ∀ dp ∈ deployPhases e,
        phaseQueueId dp = some (.int 6)) ∧
      phaseCounts twoQueueReleaseDefinitionOnNew = [2, 1] :=
  have h : remapReleaseQueues twoQueueReleaseDefinition sampleSourceQueues sampleTargetQueues
      renameOldToNew "" = some (twoQueueReleaseDefinitionOnNew, .ok ("New", 6)) := by rfl
  ⟨h, by decide,
    (remapReleaseQueues_collapses_phases twoQueueReleaseDefinition
      twoQueueReleaseDefinitionOnNew sampleSourceQueues sampleTargetQueues renameOldToNew
      "" "New" 6 h).1, by decide⟩

/-- C25: the build-definition reference of a build-validation policy. When
`RemapBuildValidationDefinition` returns an error the payload is unchanged;
when it returns without error and the hints name the source build definition
(under the id `int(v)` of a JSON number `v`, or under a Go `int`),
the lookup of that name succeeded and `settings.buildDefinitionId` is the
target id it found; and in the restore of a snapshot an error of it does not
skip the policy: when the scope remapping that follows succeeds, the payload
reaches the creation call. -/
theorem remapBuildValidationDefinition_atomic (payload : JObj)
    (findBuildDefinition : String → Option Int) :
    ((RemapBuildValidationDefinition payload findBuildDefinition).2 ≠ none →
      (RemapBuildValidationDefinition payload findBuildDefinition).1 = payload) ∧
    (∀ (srcId : Int) (name : String),
      ((∃ v : ℚ, policySetting payload "buildDefinitionId" = some (.num v) ∧
          goInt v = srcId) ∨
        policySetting payload "buildDefinitionId" = some (.int srcId)) →
      (readPolicyHints payload).BuildDefinitions.lookup (fmtInt srcId) = some name →
      name ≠ "" →
      (RemapBuildValidationDefinition payload findBuildDefinition).2 = none →
      ∃ targetId, findBuildDefinition name = some targetId ∧
        policySetting (RemapBuildValidationDefinition payload findBuildDefinition).1
          "buildDefinitionId" = some (.int targetId)) ∧
    (∀ (sourceProject : String) (s t : String → Option String) (targetExisting : List JObj)
      (find : IdentityHint → Option String) (create : JObj → Option Int) (raw : JObj),
      FindPolicyConfigBySignature targetExisting (PolicySignature raw) = none →
      RemapPolicyIdentityIDs (SanitizePolicyForCreate raw) find = (payload, none) →
      (RemapBuildValidationDefinition payload findBuildDefinition).2 ≠ none →
      (RemapPolicyScopeRepoIDs payload sourceProject s t).2 = none →
      submittedPayload (restorePolicySnapshot sourceProject s t targetExisting find
        findBuildDefinition create raw) =
        some (jdel "_backupHints" (RemapPolicyScopeRepoIDs payload sourceProject s t).1)) := by
  have hunch : (RemapBuildValidationDefinition payload findBuildDefinition).2 ≠ none →
      (RemapBuildValidationDefinition payload findBuildDefinition).1 = payload := by
    unfold RemapBuildValidationDefinition
    simp only
    split
    · intro _; rfl
    · split
      · split
        · intro _; rfl
        · split
          · intro _; rfl
          · split
            · intro _; rfl
            · intro h; exact absurd rfl h
      · intro _; rfl
  refine ⟨hunch, ?_, ?_⟩
  · intro srcId name hid hhint hname hok
    have hlen : ((readPolicyHints payload).BuildDefinitions.length == 0) = false := by
      cases hb : (readPolicyHints payload).BuildDefinitions with
      | nil => rw [hb] at hhint; simp at hhint
      | cons a l => simp
    obtain ⟨settings, hs, hsrc⟩ : ∃ settings, payload.lookup "settings" = some (.obj settings) ∧
        (match settings.lookup "buildDefinitionId" with
          | some (.num v) => fmtInt (goInt v)
          | some (.int v) => fmtInt v
          | _ => "") = fmtInt srcId := by
      unfold policySetting at hid
      cases hl : payload.lookup "settings" with
      | none => simp [hl] at hid
      | some v =>
        cases v with
        | obj settings =>
          refine ⟨settings, rfl, ?_⟩
          simp only [hl] at hid
          rcases hid with ⟨v, hid, hv⟩ | hid
          · simp only [hid, hv]
          · simp only [hid]
        | _ => simp [hl] at hid
    have hne : (fmtInt srcId == "") = false := by
      simpa using fmtInt_ne_empty srcId
    have hname2 : (name == "") = false := by simpa using hname
    unfold RemapBuildValidationDefinition at hok ⊢
    simp only [hlen, hs, hsrc, hne, hhint, Option.getD_some, hname2, Bool.false_eq_true,
      if_false] at hok ⊢
    cases hf : findBuildDefinition name with
    | none => simp [hf] at hok
    | some targetId =>
      refine ⟨targetId, rfl, ?_⟩
      simp [policySetting, lookup_jset_eq]
  · intro sourceProject s t targetExisting find create raw hfind hident herr hrepo
    have hp := hunch herr
    unfold restorePolicySnapshot
    simp only [hfind, hident, hp]
    cases hr : RemapPolicyScopeRepoIDs payload sourceProject s t with
    | mk p2 e2 =>
      rw [hr] at hrepo
      simp only at hrepo
      subst hrepo
      simp only
      cases create (jdel "_backupHints" p2) <;> rfl

/-- C25 at the build-validation policy for the build definition 12 with the hint
`CI`: against a target where `CI` has the id 40 the payload gets the id 40;
against a target where the lookup fails the call returns an error, leaves the
payload as it was, and the restore still hands the payload to the creation
call. -/
theorem remapBuildValidationDefinition_atomic_witness :
    (∃ targetId, findBuildCI "CI" = some targetId ∧
      policySetting (RemapBuildValidationDefinition buildValidationPolicy findBuildCI).1
        "buildDefinitionId" = some (.int targetId)) ∧
    (RemapBuildValidationDefinition (SanitizePolicyForCreate buildValidationPolicy)
      (fun _ => none)).2 = some (.lookupFailed "CI") ∧
    (RemapBuildValidationDefinition (SanitizePolicyForCreate buildValidationPolicy)
      (fun _ => none)).1 = SanitizePolicyForCreate buildValidationPolicy ∧
    submittedPayload (restorePolicySnapshot "P" sampleSourceRepos sampleTargetRepos []
      findNobody (fun _ => none) (fun _ => some 101) buildValidationPolicy) =
      some (jdel "_backupHints" (RemapPolicyScopeRepoIDs
        (SanitizePolicyForCreate buildValidationPolicy) "P" sampleSourceRepos
        sampleTargetRepos).1) :=
  ⟨(remapBuildValidationDefinition_atomic buildValidationPolicy findBuildCI).2.1 12 "CI"
      (Or.inl ⟨12, rfl, by decide⟩) rfl (by decide) rfl,
    by decide,
    (remapBuildValidationDefinition_atomic (SanitizePolicyForCreate buildValidationPolicy)
      (fun _ => none)).1 (by decide),
    (remapBuildValidationDefinition_atomic (SanitizePolicyForCreate buildValidationPolicy)
      (fun _ => none)).2.2 "P" sampleSourceRepos sampleTargetRepos [] findNobody
      (fun _ => some 101) buildValidationPolicy rfl rfl (by decide) rfl⟩

/-- C23 (amended): the signature and the order of the scope entries. For a
policy document `d` and a permutation `ys` of the entries of `d.settings.scope`,
the signature of the document with the scope `ys` equals the signature of `d`
exactly when the comma-joined descriptors `rid|ref|match` of the object entries,
taken in order, are the same text for both; so it is unchanged by a
permutation that keeps the sequence of descriptors, and only by such. -/
theorem policySignature_scope_order (d settings : JObj) (xs ys : List JVal)
    (hs : d.lookup "settings" = some (.obj settings))
    (hx : settings.lookup "scope" = some (.arr xs)) (_hp : List.Perm xs ys) :
    (PolicySignature (setPolicyScope d ys) = PolicySignature d ↔
      String.intercalate "," (scopeParts ys) = String.intercalate "," (scopeParts xs)) ∧
    (scopeParts ys = scopeParts xs →
      PolicySignature (setPolicyScope d ys) = PolicySignature d) := by
  have h1 : (setPolicyScope d ys).lookup "settings" =
      some (.obj (jset "scope" (.arr ys) settings)) := by
    simp only [setPolicyScope, hs, lookup_jset_eq]
  have key : PolicySignature (setPolicyScope d ys) = PolicySignature d ↔
      String.intercalate "," (scopeParts ys) = String.intercalate "," (scopeParts xs) := by
    rw [policySignature_of_settings _ _ h1, policySignature_of_settings _ _ hs,
      lookup_jset_eq, hx,
      settingsSuffix_jset "scope" _ settings (by decide) (by decide) (by decide)]
    have ht : policyTypeDisplayName (setPolicyScope d ys) = policyTypeDisplayName d := by
      simp only [setPolicyScope, hs, policyTypeDisplayName_jset_settings]
    rw [ht]
    simp only [string_append_right_cancel, string_append_left_cancel]
  exact ⟨key, fun h => key.mpr (by rw [h])⟩

/-- C23 (amended) at the policy for `main` and `release`: the permutation that
swaps the two entries changes the sequence of descriptors, and the signature
with it; the identical permutation keeps both. -/
theorem policySignature_scope_order_witness :
    (PolicySignature (setPolicyScope twoBranchPolicy
        [branchScope "refs/heads/release", branchScope "refs/heads/main"]) =
        PolicySignature twoBranchPolicy ↔
      String.intercalate "," (scopeParts
        [branchScope "refs/heads/release", branchScope "refs/heads/main"]) =
      String.intercalate "," (scopeParts
        [branchScope "refs/heads/main", branchScope "refs/heads/release"])) ∧
    PolicySignature (setPolicyScope twoBranchPolicy
        [branchScope "refs/heads/main", branchScope "refs/heads/release"]) =
      PolicySignature twoBranchPolicy :=
  ⟨(policySignature_scope_order twoBranchPolicy _
      [branchScope "refs/heads/main", branchScope "refs/heads/release"]
      [branchScope "refs/heads/release", branchScope "refs/heads/main"] rfl rfl
      (List.Perm.swap _ _ _)).1,
    (policySignature_scope_order twoBranchPolicy _
      [branchScope "refs/heads/main", branchScope "refs/heads/release"]
      [branchScope "refs/heads/main", branchScope "refs/heads/release"] rfl rfl
      (List.Perm.refl _)).2 rfl⟩

/-- C23, counterexample to the claim as stated: swapping the two scope entries
of the policy for `main` and `release` is a permutation of `settings.scope`, and
the two signatures differ, so a target that holds the swapped policy is not
found by the signature of the snapshot. -/
theorem policySignature_scope_order_counterexample :
    List.Perm [branchScope "refs/heads/main", branchScope "refs/heads/release"]
      [branchScope "refs/heads/release", branchScope "refs/heads/main"] ∧
    PolicySignature twoBranchPolicy =
      "Minimum number of reviewers||null|refs/heads/main|Exact,null|refs/heads/release|Exact||min=2" ∧
    PolicySignature (setPolicyScope twoBranchPolicy
        [branchScope "refs/heads/release", branchScope "refs/heads/main"]) =
      "Minimum number of reviewers||null|refs/heads/release|Exact,null|refs/heads/main|Exact||min=2" ∧
    PolicySignature (setPolicyScope twoBranchPolicy
        [branchScope "refs/heads/release", branchScope "refs/heads/main"]) ≠
      PolicySignature twoBranchPolicy ∧
    (FindPolicyConfigBySignature [setPolicyScope twoBranchPolicy
        [branchScope "refs/heads/release", branchScope "refs/heads/main"]]
      (PolicySignature twoBranchPolicy)).isNone = true :=
  ⟨List.Perm.swap _ _ _, by decide, by decide, by decide, by decide⟩

/-- C24 (amended): what the signature distinguishes. For two policy documents
with the same type display name and the same `settings.scope`, the two
signatures differ exactly when the documents differ in `int(minimumApproverCount)`,
in `allowDownvotes` or in `creatorVoteCounts` (each read as a number or boolean,
or as absent); in particular a different integer `minimumApproverCount` in the
range of `int` (in general a different `int(minimumApproverCount)`) or a
different `allowDownvotes` gives different signatures, and then
`FindPolicyConfigBySignature` does not find the one by the signature of the
other. The settings `requiredReviewerIds` and `buildDefinitionId` are not part
of the signature: changing either leaves it as it was. -/
theorem policySignature_distinguishes (d1 d2 s1 s2 : JObj)
    (h1 : d1.lookup "settings" = some (.obj s1)) (h2 : d2.lookup "settings" = some (.obj s2))
    (ht : policyTypeDisplayName d1 = policyTypeDisplayName d2)
    (hscope : s1.lookup "scope" = s2.lookup "scope") :
    (PolicySignature d1 ≠ PolicySignature d2 ↔
      (approverCountOf s1 ≠ approverCountOf s2 ∨
        boolSetting s1 "allowDownvotes" ≠ boolSetting s2 "allowDownvotes" ∨
        boolSetting s1 "creatorVoteCounts" ≠ boolSetting s2 "creatorVoteCounts")) ∧
    (∀ a b : Int, minInt ≤ a → a < intLimit → minInt ≤ b → b < intLimit →
      s1.lookup "minimumApproverCount" = some (.num (a : ℚ)) →
      s2.lookup "minimumApproverCount" = some (.num (b : ℚ)) → a ≠ b →
      PolicySignature d1 ≠ PolicySignature d2) ∧
    (∀ v w : ℚ, s1.lookup "minimumApproverCount" = some (.num v) →
      s2.lookup "minimumApproverCount" = some (.num w) →
      (PolicySignature d1 = PolicySignature d2 → goInt v = goInt w)) ∧
    (∀ a b : Bool, s1.lookup "allowDownvotes" = some (.bool a) →
      s2.lookup "allowDownvotes" = some (.bool b) → a ≠ b →
      PolicySignature d1 ≠ PolicySignature d2) ∧
    (PolicySignature d1 ≠ PolicySignature d2 →
      FindPolicyConfigBySignature [d2] (PolicySignature d1) = none) ∧
    (∀ v, PolicySignature (setPolicySetting d1 "requiredReviewerIds" v) =
      PolicySignature d1) ∧
    (∀ v, PolicySignature (setPolicySetting d1 "buildDefinitionId" v) =
      PolicySignature d1) := by
  have key : PolicySignature d1 = PolicySignature d2 ↔
      (approverCountOf s1 = approverCountOf s2 ∧
        boolSetting s1 "allowDownvotes" = boolSetting s2 "allowDownvotes" ∧
        boolSetting s1 "creatorVoteCounts" = boolSetting s2 "creatorVoteCounts") := by
    rw [policySignature_of_settings _ _ h1, policySignature_of_settings _ _ h2, ht, hscope,
      string_append_left_cancel, settingsSuffix_eq_suffixText, settingsSuffix_eq_suffixText]
    constructor
    · exact suffixText_injective _ _ _ _ _ _
    · rintro ⟨ha, hb, hc⟩
      rw [ha, hb, hc]
  have hset : ∀ (k : String) (v : JVal), k ≠ "minimumApproverCount" → k ≠ "allowDownvotes" →
      k ≠ "creatorVoteCounts" → k ≠ "scope" →
      PolicySignature (setPolicySetting d1 k v) = PolicySignature d1 := by
    intro k v hk1 hk2 hk3 hk4
    have hl : (setPolicySetting d1 k v).lookup "settings" = some (.obj (jset k v s1)) := by
      simp only [setPolicySetting, h1, lookup_jset_eq]
    have htn : policyTypeDisplayName (setPolicySetting d1 k v) = policyTypeDisplayName d1 := by
      simp only [setPolicySetting, h1, policyTypeDisplayName_jset_settings]
    rw [policySignature_of_settings _ _ hl, policySignature_of_settings _ _ h1, htn,
      settingsSuffix_jset k v s1 hk1 hk2 hk3, lookup_jset_ne "scope" k v s1 (Ne.symm hk4)]
  refine ⟨?_, ?_, ?_, ?_, ?_, fun v => hset _ v (by decide) (by decide) (by decide) (by decide),
    fun v => hset _ v (by decide) (by decide) (by decide) (by decide)⟩
  · rw [Ne, key]
    tauto
  · intro a b ha1 ha2 hb1 hb2 ha hb hab hsig
    have := (key.mp hsig).1
    simp only [approverCountOf, ha, hb, goInt_intCast a ha1 ha2, goInt_intCast b hb1 hb2,
      Option.some.injEq] at this
    exact hab this
  · intro v w hv hw hsig
    have := (key.mp hsig).1
    simpa only [approverCountOf, hv, hw, Option.some.injEq] using this
  · intro a b ha hb hab hsig
    have := (key.mp hsig).2.1
    simp only [boolSetting, ha, hb, Option.some.injEq] at this
    exact hab this
  · intro hne
    have : (PolicySignature d2 == PolicySignature d1) = false := by
      simpa using fun h => hne h.symm
    simp [FindPolicyConfigBySignature, List.find?, this]

/-- C24 (amended) at two minimum-reviewers policies for `main`: the counts 1
and 2 give different signatures, so do the two values of `allowDownvotes`, and
neither policy is found by the signature of the other. -/
theorem policySignature_distinguishes_witness :
    PolicySignature (minimumReviewersPolicy 1 true) ≠
      PolicySignature (minimumReviewersPolicy 2 true) ∧
    PolicySignature (minimumReviewersPolicy 1 true) ≠
      PolicySignature (minimumReviewersPolicy 1 false) ∧
    FindPolicyConfigBySignature [minimumReviewersPolicy 2 true]
      (PolicySignature (minimumReviewersPolicy 1 true)) = none :=
  have h := policySignature_distinguishes (minimumReviewersPolicy 1 true)
    (minimumReviewersPolicy 2 true) _ _ rfl rfl rfl rfl
  have g := policySignature_distinguishes (minimumReviewersPolicy 1 true)
    (minimumReviewersPolicy 1 false) _ _ rfl rfl rfl rfl
  ⟨h.2.1 1 2 (by decide) (by decide) (by decide) (by decide) rfl rfl (by decide),
    g.2.2.2.1 true false rfl rfl (by decide),
    h.2.2.2.2.1 (h.2.1 1 2 (by decide) (by decide) (by decide) (by decide) rfl rfl
      (by decide))⟩

/-- C24, counterexample to the claim as stated: two required-reviewers policies
for `main` with different reviewers, and two build-validation policies for
`main` with different build definitions, have the same type and scope and
pairwise the same signature, so `FindPolicyConfigBySignature` takes the one for
the other. -/
theorem policySignature_ignores_reviewers_and_build :
    PolicySignature (requiredReviewersPolicy [.str "ann"]) =
      "Required reviewers||null|refs/heads/main|Exact" ∧
    PolicySignature (requiredReviewersPolicy [.str "bob"]) =
      "Required reviewers||null|refs/heads/main|Exact" ∧
    (FindPolicyConfigBySignature [requiredReviewersPolicy [.str "bob"]]
      (PolicySignature (requiredReviewersPolicy [.str "ann"]))).isSome = true ∧
    PolicySignature (buildPolicy 12) = "Build||null|refs/heads/main|Exact" ∧
    PolicySignature (buildPolicy 13) = "Build||null|refs/heads/main|Exact" ∧
    (FindPolicyConfigBySignature [buildPolicy 13] (PolicySignature (buildPolicy 12))).isSome =
      true :=
  ⟨by decide, by decide, by decide, by decide, by decide, by decide⟩

/-- C26 (amended): the file name of a branch-policy snapshot. For a policy
document whose id is an integer `n` in the range of `int` (a JSON number of that
value or a Go `int`) and whose type display name is `T`, `policyFilename` is
`<n>_<safeFilePart(T)>.json` when `n > 0` and `new_<safeFilePart(T)>.json` when
`n ≤ 0` or the id is missing, where an empty or missing display name is replaced
by `policy`. For any document the id that counts is `intFromAny(raw.id)`: a JSON
number is truncated toward zero, and one whose truncation is outside the range
of `int` gives the name `new_<safeFilePart(T)>.json`. -/
theorem policyFilename_spec (raw : JObj) :
    (∀ n : Int, minInt ≤ n → n < intLimit →
      (raw.lookup "id" = some (.num (n : ℚ)) ∨ raw.lookup "id" = some (.int n)) →
      (0 < n → policyFilename raw =
        fmtInt n ++ "_" ++ safeFilePart (policyFileLabel raw) ++ ".json") ∧
      (n ≤ 0 → policyFilename raw = "new_" ++ safeFilePart (policyFileLabel raw) ++ ".json")) ∧
    (raw.lookup "id" = none →
      policyFilename raw = "new_" ++ safeFilePart (policyFileLabel raw) ++ ".json") ∧
    (policyTypeDisplayName raw = "" →
      policyFileLabel raw = "policy" ∧ safeFilePart (policyFileLabel raw) = "policy") ∧
    (policyTypeDisplayName raw ≠ "" → policyFileLabel raw = policyTypeDisplayName raw) ∧
    (∀ v : ℚ, raw.lookup "id" = some (.num v) →
      ¬ (minInt ≤ truncate v ∧ truncate v < intLimit) →
      policyFilename raw = "new_" ++ safeFilePart (policyFileLabel raw) ++ ".json") ∧
    (∀ v : ℚ, raw.lookup "id" = some (.num v) →
      minInt ≤ truncate v → truncate v < intLimit →
      policyFilename raw =
        (if 0 < truncate v then
          fmtInt (truncate v) ++ "_" ++ safeFilePart (policyFileLabel raw) ++ ".json"
        else "new_" ++ safeFilePart (policyFileLabel raw) ++ ".json")) ∧
    policyFilename raw =
      (if 0 < intFromAny (raw.lookup "id") then
        fmtInt (intFromAny (raw.lookup "id")) ++ "_" ++ safeFilePart (policyFileLabel raw) ++
          ".json"
      else "new_" ++ safeFilePart (policyFileLabel raw) ++ ".json") := by
  have hgen : policyFilename raw =
      (if 0 < intFromAny (raw.lookup "id") then
        fmtInt (intFromAny (raw.lookup "id")) ++ "_" ++ safeFilePart (policyFileLabel raw) ++
          ".json"
      else "new_" ++ safeFilePart (policyFileLabel raw) ++ ".json") := by
    simp only [policyFilename, policyFileLabel, gt_iff_lt]
  refine ⟨?_, ?_, ?_, ?_, ?_, ?_, hgen⟩
  · intro n h1 h2 hn
    have hid : intFromAny (raw.lookup "id") = n := by
      rcases hn with hn | hn
      · rw [hn]
        exact goInt_intCast n h1 h2
      · rw [hn]
        rfl
    rw [hgen, hid]
    constructor
    · intro h
      rw [if_pos h]
    · intro h
      rw [if_neg (by omega)]
  · intro hn
    rw [hgen, hn]
    rfl
  · intro h
    have : policyFileLabel raw = "policy" := by
      simp [policyFileLabel, h]
    rw [this]
    exact ⟨rfl, by decide⟩
  · intro h
    have hb : (policyTypeDisplayName raw == "") = false := by simpa using h
    simp [policyFileLabel, hb]
  · intro v hv hout
    have hid : intFromAny (raw.lookup "id") = minInt := by
      rw [hv]
      simp only [intFromAny, goInt, hout, if_false]
    rw [hgen, hid, if_neg (by decide)]
  · intro v hv h1 h2
    have hid : intFromAny (raw.lookup "id") = truncate v := by
      rw [hv]
      simp only [intFromAny, goInt, h1, h2, and_self, if_true]
    rw [hgen, hid]

/-- C26 (amended) at four documents: the policy with id 18 of type `Minimum number of
reviewers`, the same without an id, one with the id 0 and no type, and one with
the Go `int` id -3. -/
theorem policyFilename_spec_witness :
    policyFilename projectWidePolicy = "18_Minimum_number_of_reviewers.json" ∧
    policyFilename (jdel "id" projectWidePolicy) = "new_Minimum_number_of_reviewers.json" ∧
    policyFilename [("id", .num 0)] = "new_policy.json" ∧
    policyFilename [("id", .int (-3)), ("type", .obj [("displayName", .str "Build")])] =
      "new_Build.json" :=
  ⟨((policyFilename_spec projectWidePolicy).1 18 (by decide) (by decide)
      (Or.inl rfl)).1 (by decide),
    (policyFilename_spec (jdel "id" projectWidePolicy)).2.1 rfl,
    ((policyFilename_spec [("id", .num 0)]).1 0 (by decide) (by decide)
      (Or.inl rfl)).2 (by decide),
    ((policyFilename_spec [("id", .int (-3)),
      ("type", .obj [("displayName", .str "Build")])]).1 (-3) (by decide) (by decide)
      (Or.inr rfl)).2 (by decide)⟩

/-- C26, counterexample to the claim as stated: a policy document of type `Build`
whose id is the JSON number `1e30` (the `float64` of the value
1000000000000000019884624838656). The id is numeric and greater than zero, and
the file name is `new_Build.json`, not the digits of the id followed by
`_Build.json`: the conversion `int(id)` leaves the range of `int`. The id `0.5`
is greater than zero as well and gives `new_Build.json`, since `int(0.5)` is 0. -/
theorem policyFilename_id_out_of_range :
    policyFilename [("id", .num 1000000000000000019884624838656),
      ("type", .obj [("displayName", .str "Build")])] = "new_Build.json" ∧
    policyFilename [("id", .num 1000000000000000019884624838656),
      ("type", .obj [("displayName", .str "Build")])] ≠
      "1000000000000000019884624838656_Build.json" ∧
    (0 : ℚ) < 1000000000000000019884624838656 ∧
    policyFilename [("id", .num (mkRat 1 2)),
      ("type", .obj [("displayName", .str "Build")])] = "new_Build.json" ∧
    (0 : ℚ) < mkRat 1 2 := by
  refine ⟨by decide, by decide, by norm_num, by decide, by decide⟩

/-- C27 (amended): sanitized snapshot file names. For every feed name,
`safeFeedFile` returns `S.json` where `S` is the name trimmed of surrounding
white space with every maximal run of characters other than ASCII letters,
digits, `.`, `_` and `-` replaced by one `_`, or `feed` when the trimmed name is
empty; `S` is not empty and consists of those characters only, and a name made
of them is kept as it is. The name part that `safeFilePart` returns for
branch-policy and wiki file names is the trimmed name with each of the
characters `/ \ : * ? " < > |` replaced by `-` and then every maximal run of
white space of the class `\s` replaced by one `_`, or `policy` when the trimmed
name is empty; it is not empty and contains no reserved character and no such
white space, every other character of the trimmed name is kept, and a name
without reserved characters and white space is returned as it is. -/
theorem snapshot_filenames_sanitized (name : String) :
    safeFeedFile name =
      (if trimSpace name = "" then "feed"
        else ⟨replaceRuns (fun c => !isFeedFileChar c) '_' (trimSpace name).data⟩) ++
        ".json" ∧
    safeFilePart name =
      (if trimSpace name = "" then "policy"
        else ⟨replaceRuns isReSpace '_'
          ((trimSpace name).data.map (fun c => if isReservedFileChar c then '-' else c))⟩) ∧
    (trimSpace name = "" → safeFeedFile name = "feed.json" ∧ safeFilePart name = "policy") ∧
    (∃ stem : String, safeFeedFile name = stem ++ ".json" ∧ stem ≠ "" ∧
      (∀ c ∈ stem.data, isFeedFileChar c = true) ∧
      (name ≠ "" → (∀ c ∈ name.data, isFeedFileChar c = true) → stem = name)) ∧
    (safeFilePart name ≠ "" ∧
      (∀ c ∈ (safeFilePart name).data, isReservedFileChar c = false ∧ isReSpace c = false) ∧
      (∀ c ∈ (trimSpace name).data, isReservedFileChar c = false → isReSpace c = false →
        c ∈ (safeFilePart name).data) ∧
      (name ≠ "" → (∀ c ∈ name.data, isReservedFileChar c = false ∧ isSpace c = false) →
        safeFilePart name = name)) := by
  have hfeed : safeFeedFile name =
      (if trimSpace name = "" then "feed"
        else ⟨replaceRuns (fun c => !isFeedFileChar c) '_' (trimSpace name).data⟩) ++
        ".json" := by
    have hnil : (replaceRuns (fun c => !isFeedFileChar c) '_' (trimSpace name).data).isEmpty =
        true ↔ trimSpace name = "" := by
      rw [List.isEmpty_iff, replaceRuns_eq_nil]
      exact ⟨fun h => String.ext h, fun h => by rw [h]⟩
    simp only [safeFeedFile, collapseRuns_eq_replaceRuns _ _ _ _ (le_refl _)]
    by_cases ht : trimSpace name = ""
    · rw [if_pos (hnil.mpr ht), if_pos ht]
    · rw [if_neg (fun h => ht (hnil.mp h)), if_neg ht]
  have hpart : safeFilePart name =
      (if trimSpace name = "" then "policy"
        else ⟨replaceRuns isReSpace '_'
          ((trimSpace name).data.map (fun c => if isReservedFileChar c then '-' else c))⟩) := by
    have hnil : (replaceRuns isReSpace '_' ((trimSpace name).data.map
        (fun c => if isReservedFileChar c then '-' else c))).isEmpty = true ↔
        trimSpace name = "" := by
      rw [List.isEmpty_iff, replaceRuns_eq_nil, List.map_eq_nil_iff]
      exact ⟨fun h => String.ext h, fun h => by rw [h]⟩
    simp only [safeFilePart, collapseRuns_eq_replaceRuns _ _ _ _ (le_refl _)]
    by_cases ht : trimSpace name = ""
    · rw [if_pos (hnil.mpr ht), if_pos ht]
    · rw [if_neg (fun h => ht (hnil.mp h)), if_neg ht]
  refine ⟨hfeed, hpart, ?_, ?_⟩
  · intro ht
    rw [hfeed, hpart, if_pos ht, if_pos ht]
    exact ⟨rfl, rfl⟩
  constructor
  · by_cases he : (collapseRuns (fun c => !isFeedFileChar c) '_' false
        (trimSpace name).data).isEmpty = true
    · refine ⟨"feed", ?_, by decide, by decide, ?_⟩
      · simp only [safeFeedFile, he, if_true]
      · intro hne hall
        have ht := trimSpace_id name (fun c hc => not_isSpace_of_isFeedFileChar c (hall c hc))
        rw [ht, collapseRuns_id _ _ _ _ (fun c hc => by simp [hall c hc])] at he
        exact absurd (String.ext (List.isEmpty_iff.mp he)) hne
    · refine ⟨⟨collapseRuns (fun c => !isFeedFileChar c) '_' false (trimSpace name).data⟩,
        ?_, ?_, ?_, ?_⟩
      · simp only [safeFeedFile, he, Bool.false_eq_true, if_false]
      · intro h
        apply he
        have := congrArg String.data h
        simp only at this
        rw [this]
        rfl
      · intro c hc
        rcases collapseRuns_mem _ _ _ _ _ hc with h | h
        · rw [h]
          decide
        · simpa using h.2
      · intro _ hall
        have ht := trimSpace_id name (fun c hc => not_isSpace_of_isFeedFileChar c (hall c hc))
        rw [ht, collapseRuns_id _ _ _ _ (fun c hc => by simp [hall c hc])]
  · by_cases he : (collapseRuns isReSpace '_' false ((trimSpace name).data.map
        (fun c => if isReservedFileChar c then '-' else c))).isEmpty = true
    · have hp : safeFilePart name = "policy" := by
        simp only [safeFilePart, he, if_true]
      refine ⟨by rw [hp]; decide, by rw [hp]; decide, ?_, ?_⟩
      · intro c hc hr hs
        have hmem : c ∈ (trimSpace name).data.map
            (fun c => if isReservedFileChar c then '-' else c) :=
          List.mem_map.mpr ⟨c, hc, by simp [hr]⟩
        have := collapseRuns_keeps isReSpace '_' _ false c hmem hs
        rw [List.isEmpty_iff.mp he] at this
        simp at this
      · intro hne hall
        have ht := trimSpace_id name (fun c hc => (hall c hc).2)
        have hm : name.data.map (fun c => if isReservedFileChar c then '-' else c) =
            name.data := by
          conv_rhs => rw [← List.map_id name.data]
          apply List.map_congr_left
          intro c hc
          simp [(hall c hc).1]
        rw [ht, hm, collapseRuns_id _ _ _ _
          (fun c hc => isSpace_of_isReSpace c (hall c hc).2)] at he
        exact absurd (String.ext (List.isEmpty_iff.mp he)) hne
    · have hp : safeFilePart name = ⟨collapseRuns isReSpace '_' false
          ((trimSpace name).data.map (fun c => if isReservedFileChar c then '-' else c))⟩ := by
        simp only [safeFilePart, he, Bool.false_eq_true, if_false]
      refine ⟨?_, ?_, ?_, ?_⟩
      · intro h
        apply he
        rw [hp] at h
        have := congrArg String.data h
        simp only at this
        rw [this]
        rfl
      · intro c hc
        rw [hp] at hc
        rcases collapseRuns_mem _ _ _ _ _ hc with h | h
        · rw [h]
          decide
        · refine ⟨?_, h.2⟩
          obtain ⟨x, _, hx⟩ := List.mem_map.mp h.1
          by_cases hr : isReservedFileChar x = true
          · simp only [hr, if_true] at hx
            rw [← hx]
            decide
          · simp only [hr, Bool.false_eq_true, if_false] at hx
            rw [← hx]
            simpa using hr
      · intro c hc hr hs
        rw [hp]
        exact collapseRuns_keeps isReSpace '_' _ false c
          (List.mem_map.mpr ⟨c, hc, by simp [hr]⟩) hs
      · intro _ hall
        have ht := trimSpace_id name (fun c hc => (hall c hc).2)
        have hm : name.data.map (fun c => if isReservedFileChar c then '-' else c) =
            name.data := by
          conv_rhs => rw [← List.map_id name.data]
          apply List.map_congr_left
          intro c hc
          simp [(hall c hc).1]
        rw [hp, ht, hm, collapseRuns_id _ _ _ _
          (fun c hc => isSpace_of_isReSpace c (hall c hc).2)]

/-- C27 (amended) at six names: a feed name with blanks, brackets and an accent,
the same name as a policy type, a name of plain characters, a blank name (the
fallbacks `feed` and `policy`), a name with reserved characters (each becomes
`-`) and a name with a run of white space (the run becomes one `_`). -/
theorem snapshot_filenames_sanitized_witness :
    safeFeedFile " my feed (té) " = "my_feed_t_.json" ∧
    safeFilePart " my feed (té) " = "my_feed_(té)" ∧
    safeFeedFile "nuget-v2.internal" = "nuget-v2.internal.json" ∧
    safeFilePart "Build" = "Build" ∧
    safeFeedFile "  " = "feed.json" ∧
    safeFilePart "  " = "policy" ∧
    safeFilePart "a/b: c" = "a-b-_c" ∧
    safeFilePart " a \t b " = "a_b" ∧
    (∀ c ∈ (safeFilePart "a/b: c").data, isReservedFileChar c = false ∧ isReSpace c = false) :=
  ⟨by decide, by decide, by decide,
    (snapshot_filenames_sanitized "Build").2.2.2.2.2.2.2 (by decide) (by decide),
    ((snapshot_filenames_sanitized "  ").2.2.1 (by decide)).1,
    ((snapshot_filenames_sanitized "  ").2.2.1 (by decide)).2,
    by decide, by decide,
    (snapshot_filenames_sanitized "a/b: c").2.2.2.2.2.1⟩

/-- C27, counterexample to the claim as stated: for the display name
`Build (CI) #1` the name part of the snapshot file is `Build_(CI)_#1`, which
holds brackets and a hash, and the file name of that policy with the id 7 holds
them too; a slash becomes `-`, not `_`. -/
theorem safeFilePart_keeps_other_characters :
    safeFilePart "Build (CI) #1" = "Build_(CI)_#1" ∧
    (safeFilePart "Build (CI) #1").data.all isFeedFileChar = false ∧
    policyFilename [("id", .num 7), ("type", .obj [("displayName", .str "Build (CI) #1")])] =
      "7_Build_(CI)_#1.json" ∧
    safeFilePart "release/1.0" = "release-1.0" ∧
    safeFeedFile "Build (CI) #1" = "Build_CI_1.json" :=
  ⟨by decide, by decide, by decide, by decide, by decide⟩

/-- C21: evaluation at the failing input. The snapshot of the policy with the
id 18 is stored as `18_Minimum_number_of_reviewers.json`; the restore with the
selection `18` processes nothing, the selection must name the file. The
snapshot of the wiki `Docs` with the id `w1` is stored as `w1_Docs.json`; the
restore with the selection `Docs`, or `w1`, processes nothing, while the backup
of wikis selects that wiki by either. -/
theorem restore_selection_by_id_or_name :
    (policyFilename projectWidePolicy = "18_Minimum_number_of_reviewers.json" ∧
      restoredPolicyFiles ["18"] = [] ∧
      restoredPolicyFiles ["18_Minimum_number_of_reviewers"] =
        ["18_Minimum_number_of_reviewers.json"] ∧
      restoredPolicyFiles ["18_Minimum_number_of_reviewers.json"] =
        ["18_Minimum_number_of_reviewers.json"]) ∧
    (wikiFilename docsWiki = "w1_Docs.json" ∧
      restoredWikiFiles ["Docs"] = [] ∧
      restoredWikiFiles ["w1"] = [] ∧
      restoredWikiFiles ["Docs", "w1"] = [] ∧
      restoredWikiFiles ["w1_Docs"] = ["w1_Docs.json"] ∧
      backupSelectsWiki ["Docs"] docsWiki = true ∧
      backupSelectsWiki ["w1"] docsWiki = true ∧
      backupSelectsWiki ["w1_Docs"] docsWiki = false) := by
  refine ⟨⟨?_, ?_, ?_, ?_⟩, ⟨?_, ?_, ?_, ?_, ?_, ?_, ?_, ?_⟩⟩ <;> decide

/-- C22: evaluation at the failing input. In the restores keyed by the object
name the selection `Build.json` (or `ci.json`) processes no snapshot, while the
selection `Build` (or `ci`) processes the snapshot `Build.json` (or `ci.json`):
the guard compares the selection with the file name without its suffix only.
The restores of release definitions and of service connections have the same
guard; the restore of branch policies accepts the selection with the suffix. -/
theorem name_keyed_restore_needs_bare_name :
    (restoreTaskGroupFiles sampleSourceEndpoints sampleTargetEndpoints
        (fun _ => some "tg-new") ["Build.json"] [] taskGroupBackup = ([], none) ∧
      (restoreTaskGroupFiles sampleSourceEndpoints sampleTargetEndpoints
        (fun _ => some "tg-new") ["Build"] [] taskGroupBackup).1.map Prod.fst =
        ["Build.json"]) ∧
    (restoreVariableGroupFiles (fun _ _ => some 70) (fun _ _ _ => true) (fun _ _ _ => true)
        ["Build.json"] [] variableGroupBackup = ([], none) ∧
      (restoreVariableGroupFiles (fun _ _ => some 70) (fun _ _ _ => true) (fun _ _ _ => true)
        ["Build"] [] variableGroupBackup).1.map Prod.fst = ["Build.json"]) ∧
    (restoreBuildFiles sampleBuildEnv ["ci.json"] [] buildBackup = ([], none) ∧
      restoreBuildFiles sampleBuildEnv ["ci"] [] buildBackup =
        ([("ci.json", .created 40)], none)) ∧
    (restoreYamlFiles targetRepoListLower (fun _ => none) (fun _ => some 1) ["ci.json"] []
        yamlPipelineBackup = ([], none) ∧
      (restoreYamlFiles targetRepoListLower (fun _ => none) (fun _ => some 1) ["ci"] []
        yamlPipelineBackup).1.map Prod.fst = ["ci.json"]) ∧
    (restoresByName ["Foo.json"] "Foo.json" = false ∧
      restoresByName ["Foo"] "Foo.json" = true) ∧
    restoredPolicyFiles ["18_Minimum_number_of_reviewers.json"] =
      ["18_Minimum_number_of_reviewers.json"] := by
  refine ⟨⟨?_, ?_⟩, ⟨?_, ?_⟩, ⟨?_, ?_⟩, ⟨?_, ?_⟩, ⟨?_, ?_⟩, ?_⟩ <;> decide

/-- C28: parsing of the queue rename table. `parseKeyValuePairs` returns an
error if and only if some pair that is not blank contains no `=` or has an
empty source or target after trimming; otherwise it returns the map of the
entries `trim(S) -> trim(T)` of the pairs that are not blank, `S` being the text
before the first `=` and `T` everything after it, where the last pair with a
given source decides its target and a source that no pair names has no entry. -/
theorem parseKeyValuePairs_spec (pairs : List String) :
    ((∃ e, parseKeyValuePairs pairs = .error e) ↔ ∃ p ∈ pairs, invalidPair p = true) ∧
    ((∀ p ∈ pairs, invalidPair p = false) →
      ∃ m, parseKeyValuePairs pairs = .ok m ∧ m = lastWins (pairEntries pairs) ∧
        (∀ (before after : List String) (p : String), pairs = before ++ p :: after →
          trimSpace p ≠ "" →
          (∀ q ∈ after, trimSpace q ≠ "" →
            trimSpace (sourceText q) ≠ trimSpace (sourceText p)) →
          m (trimSpace (sourceText p)) = some (trimSpace (targetText p))) ∧
        (∀ k, (∀ p ∈ pairs, trimSpace p ≠ "" → trimSpace (sourceText p) ≠ k) →
          m k = none)) := by
  obtain ⟨h1, h2⟩ := parseKeyValueEntries_spec pairs
  constructor
  · rw [← h1]
    unfold parseKeyValuePairs
    cases parseKeyValueEntries pairs with
    | error e => simp
    | ok l => simp
  · intro hall
    refine ⟨lastWins (pairEntries pairs), ?_, rfl, ?_, ?_⟩
    · simp only [parseKeyValuePairs, h2 hall]
    · intro before after p hp hnb hlater
      subst hp
      simp only [lastWins, pairEntries_append, pairEntries_cons_nonblank p after hnb,
        List.reverse_append, List.reverse_cons, List.append_assoc]
      rw [lookup_append_of_no_key]
      · simp [List.lookup]
      · intro e he
        obtain ⟨q, hq, hqnb, hqe⟩ := mem_pairEntries e after (List.mem_reverse.mp he)
        rw [hqe]
        exact hlater q hq hqnb
    · intro k hk
      simp only [lastWins]
      apply lookup_eq_none_of_no_key
      intro e he
      obtain ⟨q, hq, hqnb, hqe⟩ := mem_pairEntries e pairs (List.mem_reverse.mp he)
      rw [hqe]
      exact hk q hq hqnb

/-- C28 at five tables: `A=B=C` maps `A` to `B=C`; blank pairs are ignored and
the sides are trimmed; the later pair `A=Z` overrides `A=B=C`; a pair without
`=`, and a pair with an empty side, is an error. -/
theorem parseKeyValuePairs_spec_witness :
    parseKeyValueEntries ["A=B=C"] = .ok [("A", "B=C")] ∧
    parseKeyValueEntries ["A=B=C", "  ", " x = y ", "A=Z"] =
      .ok [("A", "B=C"), ("x", "y"), ("A", "Z")] ∧
    (∃ m, parseKeyValuePairs ["A=B=C", "  ", " x = y ", "A=Z"] = .ok m ∧
      m "A" = some "Z" ∧ m "x" = some "y" ∧ m "B" = none) ∧
    (∃ e, parseKeyValuePairs ["A=B", "Old"] = .error e) ∧
    parseKeyValueEntries ["A=B", "Old"] = .error (.expectedSourceTarget "Old") ∧
    parseKeyValueEntries ["Old= "] = .error (.emptySide "Old= ") ∧
    parseKeyValueEntries ["=New"] = .error (.emptySide "=New") :=
  ⟨rfl, rfl,
    (match (parseKeyValuePairs_spec ["A=B=C", "  ", " x = y ", "A=Z"]).2 (by decide) with
      | ⟨m, hm, _, hlast, hnone⟩ =>
        ⟨m, hm, hlast ["A=B=C", "  ", " x = y "] [] "A=Z" rfl (by decide) (by simp),
          hlast ["A=B=C", "  "] ["A=Z"] " x = y " rfl (by decide) (by decide),
          hnone "B" (by decide)⟩),
    (parseKeyValuePairs_spec ["A=B", "Old"]).1.mpr ⟨"Old", by simp, by decide⟩,
    rfl, rfl, rfl⟩

/-- C29: the choice among the results of the identity search. For a hint whose
query is not blank and a non-empty result list: when some result has the
hint's non-empty `uniqueName` (ignoring case), the id of the first such result
is returned, whatever matched by `displayName` before it; otherwise, when some
result with a non-empty id has the hint's non-empty `displayName` (ignoring
case), the id of the first such result is returned; otherwise the call still
returns the id of the first result when that is a non-empty string. -/
theorem findTargetIdentityIdByHint_choice (hint : IdentityHint)
    (search : String → Option (List JVal)) (val : List JVal)
    (hq : trimSpace (identityQuery hint) ≠ "")
    (hs : search (identityQuery hint) = some val) (hv : val ≠ []) :
    (∀ r, val.find? (uniqueNameMatches hint) = some r →
      FindTargetIdentityIdByHint hint search = .ok (resultId r)) ∧
    (val.find? (uniqueNameMatches hint) = none →
      ∀ r, val.find? (displayNameMatches hint) = some r →
        FindTargetIdentityIdByHint hint search = .ok (resultId r)) ∧
    (val.find? (uniqueNameMatches hint) = none →
      val.find? (displayNameMatches hint) = none →
      ∀ (first : JObj) (id : String), val.head? = some (.obj first) →
        first.lookup "id" = some (.str id) → id ≠ "" →
        FindTargetIdentityIdByHint hint search = .ok id) := by
  have hqb : (trimSpace (identityQuery hint) == "") = false := by simpa using hq
  have hlen : (val.length == 0) = false := by
    cases val with
    | nil => exact absurd rfl hv
    | cons a l => simp
  have hF : FindTargetIdentityIdByHint hint search =
      match identityLoop hint "" val with
      | .returned id => .ok id
      | .finished bestId =>
        if bestId != "" then .ok bestId
        else
          match val.head? with
          | some (.obj first) =>
            match first.lookup "id" with
            | some (.str id) => if id != "" then .ok id else .error .noId
            | _ => .error .noId
          | _ => .error .noId := by
    simp only [FindTargetIdentityIdByHint, hqb, hs, hlen, Bool.false_eq_true, if_false]
  rw [hF, identityLoop_eq]
  refine ⟨?_, ?_, ?_⟩
  · intro r hr
    simp only [hr]
  · intro hu r hr
    have hm : displayNameMatches hint r = true := by
      have := List.find?_some hr
      simpa using this
    have hid : resultId r ≠ "" := by
      cases r with
      | obj m =>
        simp only [displayNameMatches, Bool.and_eq_true, bne_iff_ne, ne_eq] at hm
        exact hm.1.1
      | _ => simp [displayNameMatches] at hm
    have hb : (resultId r != "") = true := by simpa using hid
    simp only [hu, hr, ne_eq, not_true_eq_false, if_false, hb, if_true]
  · intro hu hd first id hfirst hidl hne
    have hb : (id != "") = true := by simpa using hne
    simp [hu, hd, hfirst, hidl, hb]

/-- C29 at two results, the first with the display name `Ann` and the second
with the unique name `ANN@example.org`: the hint with both names gets the
second id, the hint with the display name alone the first, and a hint that
matches neither result gets the first id as well. Against the results `Other`
and `JOSÉ` the hint with the display name `José` gets the id of `JOSÉ`. -/
theorem findTargetIdentityIdByHint_choice_witness :
    FindTargetIdentityIdByHint { UniqueName := "ann@example.org", DisplayName := "Ann" }
      searchIdentities = .ok "t-2" ∧
    FindTargetIdentityIdByHint { UniqueName := "", DisplayName := "ann" }
      searchIdentities = .ok "t-1" ∧
    FindTargetIdentityIdByHint { UniqueName := "zed@example.org", DisplayName := "Zed" }
      searchIdentities = .ok "t-1" ∧
    FindTargetIdentityIdByHint { UniqueName := "", DisplayName := "José" }
      (fun _ => some accentIdentityResults) = .ok "t-2" :=
  ⟨(findTargetIdentityIdByHint_choice { UniqueName := "ann@example.org", DisplayName := "Ann" }
      searchIdentities identityResults (by decide) rfl (by simp [identityResults])).1
      (.obj [("id", .str "t-2"), ("uniqueName", .str "ANN@example.org"),
         ("displayName", .str "A. N.")]) rfl,
    (findTargetIdentityIdByHint_choice { UniqueName := "", DisplayName := "ann" }
      searchIdentities identityResults (by decide) rfl (by simp [identityResults])).2.1 rfl
      (.obj [("id", .str "t-1"), ("uniqueName", .str "other@example.org"),
         ("displayName", .str "Ann")]) rfl,
    (findTargetIdentityIdByHint_choice { UniqueName := "zed@example.org", DisplayName := "Zed" }
      searchIdentities identityResults (by decide) rfl (by simp [identityResults])).2.2 rfl rfl
      [("id", .str "t-1"), ("uniqueName", .str "other@example.org"),
         ("displayName", .str "Ann")] "t-1" rfl rfl (by decide),
    (findTargetIdentityIdByHint_choice { UniqueName := "", DisplayName := "José" }
      (fun _ => some accentIdentityResults) accentIdentityResults (by decide) rfl
      (by simp [accentIdentityResults])).2.1 rfl
      (.obj [("id", .str "t-2"), ("uniqueName", .str "jose@example.org"),
         ("displayName", .str "JOSÉ")]) rfl⟩

end AzdoVault
